import Mathlib

/-!
Request authentication, order verification and order-gated provisioning of the x-ui client API.

A shallow embedding of
* `web/service/apikey.go` (`GetAPIKey`, `VerifyAPIKey`, `VerifySignature`, `UpdateAPIKeyLastUsed`),
* `web/middleware/api_auth.go` (`RateLimiter.CheckRateLimit`, `APIAuthMiddleware`),
* `web/service/order.go` (`CreateOrder`, `GetOrderByOrderId`, `VerifyOrder`, `UpdateOrderStatus`,
  `MarkOrderAsUsed`, `CleanupExpiredOrders`),
* `web/controller/client_api.go` (`CreateInbound`, `allocatePort`, `getDefaultSettings`,
  `generateUUID`),
* `backend-proxy/main.go` (`generateSignature`, `buildXUIRequest`, `getOrderInfo`,
  `generateRemark`, `createOrUpdateOrderTest`),
* the records of `database/model/model.go` these functions read and write.

Conventions of the embedding.
* Go `int64` and `int` values are mathematical integers; every subtraction and multiplication
  the code performs on them is followed by the two's-complement wrap `wrap64`.
* Go strings are Lean strings (sequences of code points, i.e. valid UTF-8 byte strings).
* `time.Now().Unix()` is an explicit argument of every function that reads the clock.
* The database tables are lists of records in primary-key order; a query `Where(..).First`
  returns the first matching row, and `Where(..).Updates` rewrites every matching row.
  Database I/O itself does not fail, except where a flag of `Faults` (or `dbOk`) injects the
  failure of one call.
* The inbound service (`web/service/inbound.go`) is not among the sources; its three methods
  used by the controller are modelled from the specification.
* HMAC-SHA256 (the Go standard library) is a parameter `hmac key message` of the development.
* Two concurrent `CreateInbound` requests are two runs of the method's own steps on the shared
  tables, cut at one point: after step 4 (`interleavedCreateInbound`) or after step 5
  (`racingCreateInbound`); each cut is proved to give back the method.
-/

namespace Ray

/-! ## Machine integers -/

/-- Two's-complement wrap of a mathematical integer into the range of Go's `int64`. -/
def wrap64 (x : Int) : Int :=
  (x + 9223372036854775808) % 18446744073709551616 - 9223372036854775808

/-- The values of Go's `int64`. -/
def isInt64 (x : Int) : Prop :=
  -9223372036854775808 ≤ x ∧ x ≤ 9223372036854775807

instance (x : Int) : Decidable (isInt64 x) := by
  unfold isInt64; infer_instance

/-! ## Strings: `fmt.Sprintf("%d", _)`, `hex.EncodeToString` -/

/-- The ASCII character of a decimal digit. -/
def digitChar (d : Nat) : Char := Char.ofNat (48 + d)

/-- Decimal digits of `n`, least significant first; `fuel` bounds the number of digits. -/
def revDigits : Nat → Nat → List Char
  | 0, n => [digitChar (n % 10)]
  | fuel + 1, n =>
    if n < 10 then [digitChar n] else digitChar (n % 10) :: revDigits fuel (n / 10)

/-- Decimal rendering of a natural number, most significant digit first, no leading zeros. -/
def fmtNat (n : Nat) : List Char := (revDigits n n).reverse

/-- The string `fmt.Sprintf("%d", x)` for an integer `x`: a minus sign for negative values,
then the decimal digits of the magnitude. -/
def fmtInt (x : Int) : String :=
  if x < 0 then ⟨'-' :: fmtNat x.natAbs⟩ else ⟨fmtNat x.natAbs⟩

/-- A byte. -/
abbrev Byte := Fin 256

/-- The lowercase hexadecimal digit of a value below 16 (`"0123456789abcdef"[n]`). -/
def hexDigit (n : Nat) : Char :=
  if n < 10 then Char.ofNat (48 + n) else Char.ofNat (87 + n)

/-- The characters of `hex.EncodeToString`: two lowercase hex digits per byte, high nibble first. -/
def hexChars : List Byte → List Char
  | [] => []
  | b :: bs => hexDigit (b.val / 16) :: hexDigit (b.val % 16) :: hexChars bs

/-- The string `hex.EncodeToString(bs)`. -/
def hexEncode (bs : List Byte) : String := ⟨hexChars bs⟩

/-- The type of a keyed MAC: `hmac key message` is the digest
`mac := hmac.New(sha256.New, key); mac.Write(message); mac.Sum(nil)`. -/
abbrev HMAC := String → String → List Byte

/-! ## Records of `database/model/model.go` -/

/-- The record `model.APIKey`. -/
structure APIKey where
  Id : Int
  Key : String
  Secret : String
  Name : String
  Status : String
  CreatedAt : Int
  LastUsedAt : Int
  RateLimit : Int
  AllowedIPs : String
  deriving DecidableEq, Repr

/-- The record `model.Order`. -/
structure Order where
  Id : Int
  OrderId : String
  UserId : String
  Status : String
  Amount : Int
  PaidAt : Int
  ExpiresAt : Int
  InboundId : Int
  CreatedAt : Int
  UsedAt : Int
  Remark : String
  deriving DecidableEq, Repr

/-! ## Signatures: `generateSignature` (backend-proxy) and `VerifySignature` (web/service) -/

/-- The string `fmt.Sprintf("%d%s%s%s", timestamp, nonce, body, secret)` both sides sign. -/
def signStr (timestamp : Int) (nonce body secret : String) : String :=
  fmtInt timestamp ++ nonce ++ body ++ secret

/-- The function `generateSignature` of `backend-proxy/main.go`. -/
def generateSignature (hmac : HMAC) (timestamp : Int) (nonce body secret : String) : String :=
  hexEncode (hmac secret (signStr timestamp nonce body secret))

/-- The errors `VerifySignature` returns. -/
inductive SignatureError
  /-- Go: `errors.New("请求已过期或时间戳无效")`. -/
  | Expired
  /-- Go: `errors.New("签名验证失败")`. -/
  | BadSignature
  deriving DecidableEq, Repr

/-- The method `APIKeyService.VerifySignature`; `now` is `time.Now().Unix()`.
`Except.ok ()` is Go's `nil` error. -/
def VerifySignature (hmac : HMAC) (now : Int) (apiKey : APIKey) (timestamp : Int)
    (nonce signature body : String) : Except SignatureError Unit :=
  if wrap64 (now - timestamp) > 300 ∨ wrap64 (timestamp - now) > 60 then
    Except.error SignatureError.Expired
  else
    let signStr := signStr timestamp nonce body apiKey.Secret
    let expectedSignature := hexEncode (hmac apiKey.Secret signStr)
    if signature ≠ expectedSignature then
      Except.error SignatureError.BadSignature
    else
      Except.ok ()

/-! ## Credential lookup: `GetAPIKey`, `VerifyAPIKey`, `UpdateAPIKeyLastUsed` -/

/-- The predicate `unicode.IsSpace` (the Unicode White_Space property). -/
def isSpace (c : Char) : Bool :=
  let n := c.toNat
  decide ((9 ≤ n ∧ n ≤ 13) ∨ n = 32 ∨ n = 133 ∨ n = 160 ∨ n = 5760 ∨ (8192 ≤ n ∧ n ≤ 8202)
    ∨ n = 8232 ∨ n = 8233 ∨ n = 8239 ∨ n = 8287 ∨ n = 12288)

/-- The characters of `strings.TrimSpace`: leading and trailing white space removed. -/
def trimSpaceChars (cs : List Char) : List Char :=
  ((cs.dropWhile isSpace).reverse.dropWhile isSpace).reverse

/-- The function `strings.TrimSpace`. -/
def TrimSpace (s : String) : String := ⟨trimSpaceChars s.data⟩

/-- The pieces of a character list between the occurrences of `sep`
(one more piece than there are separators). -/
def splitChars (sep : Char) : List Char → List (List Char)
  | [] => [[]]
  | c :: cs =>
    if c = sep then [] :: splitChars sep cs
    else
      match splitChars sep cs with
      | [] => [[c]]
      | piece :: pieces => (c :: piece) :: pieces

/-- The slice `strings.Split(s, ",")`. -/
def SplitComma (s : String) : List String := (splitChars ',' s.data).map String.mk

/-- The method `APIKeyService.GetAPIKey`: the first row whose key is `key`, or an error. -/
def GetAPIKey (db : List APIKey) (key : String) : Option APIKey :=
  db.find? (fun k => decide (k.Key = key))

/-- The method `APIKeyService.UpdateAPIKeyLastUsed`; `now` is `time.Now().Unix()`. -/
def UpdateAPIKeyLastUsed (db : List APIKey) (now : Int) (key : String) : List APIKey :=
  db.map (fun k => if k.Key = key then { k with LastUsedAt := now } else k)

/-- The errors `VerifyAPIKey` returns. -/
inductive APIKeyError
  /-- Go: `errors.New("无效的API密钥")`. -/
  | InvalidKey
  /-- Go: `errors.New("API密钥已被禁用")`. -/
  | KeyDisabled
  /-- Go: `errors.New("IP地址不在白名单中")`. -/
  | IPNotAllowed
  deriving DecidableEq, Repr

/-- The white-list loop of `VerifyAPIKey`: `ipAllowed` after
`for _, allowedIP := range allowedIPs { if TrimSpace(allowedIP) == ip { ipAllowed = true; break } }`. -/
def ipAllowedLoop (ip : String) : List String → Bool
  | [] => false
  | allowedIP :: rest => if TrimSpace allowedIP = ip then true else ipAllowedLoop ip rest

/-- The method `APIKeyService.VerifyAPIKey`. -/
def VerifyAPIKey (db : List APIKey) (key ip : String) : Except APIKeyError APIKey :=
  match GetAPIKey db key with
  | none => Except.error APIKeyError.InvalidKey
  | some apiKey =>
    if apiKey.Status ≠ "active" then Except.error APIKeyError.KeyDisabled
    else if apiKey.AllowedIPs ≠ "" then
      if !ipAllowedLoop ip (SplitComma apiKey.AllowedIPs) then Except.error APIKeyError.IPNotAllowed
      else Except.ok apiKey
    else Except.ok apiKey

/-! ## Rate limiter: `RateLimiter.CheckRateLimit` -/

/-- The struct `RateLimiter`: the map `requests map[string][]int64` (`none` for an absent key). -/
structure RateLimiter where
  requests : String → Option (List Int)

/-- The constructor `NewRateLimiter`: an empty map. -/
def NewRateLimiter : RateLimiter := ⟨fun _ => none⟩

/-- The map assignment `rl.requests[key] = v`. -/
def RateLimiter.set (rl : RateLimiter) (key : String) (v : List Int) : RateLimiter :=
  ⟨fun k => if k = key then some v else rl.requests k⟩

/-- The method `RateLimiter.CheckRateLimit`; `now` is `time.Now().Unix()`. Returns the
boolean result and the limiter after the call. -/
def CheckRateLimit (rl : RateLimiter) (now : Int) (key : String) (limit : Int) :
    Bool × RateLimiter :=
  match rl.requests key with
  | some requests =>
    let validRequests := requests.filter (fun timestamp => decide (wrap64 (now - timestamp) < 60))
    let rl1 := rl.set key validRequests
    if (validRequests.length : Int) ≥ limit then (false, rl1)
    else (true, rl1.set key (validRequests ++ [now]))
  | none => (true, rl.set key [now])

/-! ## Timestamp parsing: `fmt.Sscanf(timestampStr, "%d", &timestamp)` -/

/-- The value of a string of decimal digits. -/
def parseNat (cs : List Char) : Nat :=
  cs.foldl (fun acc c => 10 * acc + (c.toNat - 48)) 0

/-- The space skipping of `fmt.Sscanf`: white space is dropped, a newline is an error. -/
def skipSpace : List Char → Option (List Char)
  | [] => some []
  | c :: cs =>
    if c = '\n' then none
    else if isSpace c then skipSpace cs
    else some (c :: cs)

/-- The call `fmt.Sscanf(s, "%d", &timestamp)` for an `int64` target: leading white space is
skipped, an optional sign and a non-empty run of decimal digits are read, whatever follows is
left unread; `none` is a scan error (no digits, a newline, or a value outside `int64`). -/
def Sscanf_d (s : String) : Option Int :=
  match skipSpace s.data with
  | none => none
  | some [] => none
  | some (c :: cs) =>
    let rest := if c = '-' ∨ c = '+' then cs else c :: cs
    let digits := rest.takeWhile Char.isDigit
    if digits = [] then none
    else
      let x : Int := if c = '-' then -(parseNat digits : Int) else (parseNat digits : Int)
      if isInt64 x then some x else none

/-! ## The middleware `APIAuthMiddleware` -/

/-- What the middleware reads of a request: the headers (name, value), the address
`controller.GetRemoteIp(c)` and the result of `io.ReadAll(c.Request.Body)` (`none` when
reading fails). -/
structure Request where
  headers : List (String × String)
  remoteIp : String
  body : Option String

/-- The call `c.GetHeader(name)`: the first value of the header, `""` when it is absent. -/
def GetHeader (req : Request) (name : String) : String :=
  match req.headers.find? (fun h => decide (h.1 = name)) with
  | some h => h.2
  | none => ""

/-- The reasons for which `APIAuthMiddleware` aborts a request. -/
inductive AuthError
  /-- Go: `"缺少API密钥"`. -/
  | MissingKey
  /-- Go: `"API密钥验证失败: " + err.Error()`. -/
  | KeyVerification (e : APIKeyError)
  /-- Go: `"请求过于频繁，请稍后再试"`. -/
  | RateLimited
  /-- Go: `"缺少必要的签名参数"`. -/
  | MissingSignatureParams
  /-- Go: `"无效的时间戳格式"`. -/
  | BadTimestamp
  /-- Go: `"读取请求体失败"`. -/
  | BodyReadFailed
  /-- Go: `"签名验证失败: " + err.Error()`. -/
  | Signature (e : SignatureError)
  deriving DecidableEq, Repr

/-- The decision of the middleware: `abort` (`c.Abort()` after an error reply) or `next`
(`c.Set("api_key", keyInfo); c.Next()`). -/
inductive Outcome
  | abort (e : AuthError)
  | next (keyInfo : APIKey)
  deriving DecidableEq, Repr

/-- The handler returned by `APIAuthMiddleware`, run on the credential table `db` and the
global limiter `rl`; `nowRL` and `nowSig` are the clock readings of `CheckRateLimit` and of
`VerifySignature`. Returns the decision and the limiter after the request. On `next` the
handler also starts `UpdateAPIKeyLastUsed` in a goroutine of its own. -/
def APIAuthMiddleware (hmac : HMAC) (db : List APIKey) (rl : RateLimiter) (nowRL nowSig : Int)
    (req : Request) : Outcome × RateLimiter :=
  let apiKey := GetHeader req "X-API-Key"
  if apiKey = "" then (Outcome.abort AuthError.MissingKey, rl)
  else
    let clientIP := req.remoteIp
    match VerifyAPIKey db apiKey clientIP with
    | Except.error err => (Outcome.abort (AuthError.KeyVerification err), rl)
    | Except.ok keyInfo =>
      match CheckRateLimit rl nowRL apiKey keyInfo.RateLimit with
      | (false, rl1) => (Outcome.abort AuthError.RateLimited, rl1)
      | (true, rl1) =>
        let timestampStr := GetHeader req "X-Timestamp"
        let nonce := GetHeader req "X-Nonce"
        let signature := GetHeader req "X-Signature"
        if timestampStr = "" ∨ nonce = "" ∨ signature = "" then
          (Outcome.abort AuthError.MissingSignatureParams, rl1)
        else
          match Sscanf_d timestampStr with
          | none => (Outcome.abort AuthError.BadTimestamp, rl1)
          | some timestamp =>
            match req.body with
            | none => (Outcome.abort AuthError.BodyReadFailed, rl1)
            | some bodyStr =>
              match VerifySignature hmac nowSig keyInfo timestamp nonce signature bodyStr with
              | Except.error err => (Outcome.abort (AuthError.Signature err), rl1)
              | Except.ok _ => (Outcome.next keyInfo, rl1)

/-! ## Orders: `GetOrderByOrderId`, `UpdateOrderStatus`, `VerifyOrder` -/

/-- The method `OrderService.GetOrderByOrderId`: the first row with that order id. -/
def GetOrderByOrderId (db : List Order) (orderId : String) : Option Order :=
  db.find? (fun o => decide (o.OrderId = orderId))

/-- The method `OrderService.UpdateOrderStatus`; `now` is `time.Now().Unix()`. -/
def UpdateOrderStatus (db : List Order) (now : Int) (orderId status : String) : List Order :=
  db.map (fun o =>
    if o.OrderId = orderId then
      if status = "paid" then { o with Status := status, PaidAt := wrap64 (now * 1000) }
      else if status = "used" then { o with Status := status, UsedAt := wrap64 (now * 1000) }
      else { o with Status := status }
    else o)

/-- The errors `VerifyOrder` returns. -/
inductive OrderError
  /-- Go: `errors.New("订单不存在")`. -/
  | NotFound
  /-- Go: `errors.New("订单已被使用")`. -/
  | AlreadyUsed
  /-- Go: `errors.New("订单已过期")`. -/
  | Expired
  /-- Go: `errors.New("订单尚未支付")`. -/
  | NotPaid
  deriving DecidableEq, Repr

/-- The method `OrderService.VerifyOrder`; `nowUnix` is `time.Now().Unix()`. Returns the
result and the order table after the call. -/
def VerifyOrder (db : List Order) (nowUnix : Int) (orderId : String) :
    Except OrderError Order × List Order :=
  match GetOrderByOrderId db orderId with
  | none => (Except.error OrderError.NotFound, db)
  | some order =>
    let now := wrap64 (nowUnix * 1000)
    if order.Status = "used" then (Except.error OrderError.AlreadyUsed, db)
    else if order.Status = "expired" then (Except.error OrderError.Expired, db)
    else if order.Status ≠ "paid" then (Except.error OrderError.NotPaid, db)
    else if order.ExpiresAt > 0 ∧ order.ExpiresAt < now then
      (Except.error OrderError.Expired, UpdateOrderStatus db nowUnix orderId "expired")
    else (Except.ok order, db)

/-! ## A toy MAC for concrete evaluations -/

/-- An injective stand-in for the MAC in concrete evaluations: the message itself, four bytes
per character (big-endian code point); the key is ignored. -/
def toyHmacChars : List Char → List Byte
  | [] => []
  | c :: cs =>
    Fin.ofNat (c.toNat / 16777216) :: Fin.ofNat (c.toNat / 65536) :: Fin.ofNat (c.toNat / 256)
      :: Fin.ofNat c.toNat :: toyHmacChars cs

/-- See `toyHmacChars`. -/
def toyHmac : HMAC := fun _ message => toyHmacChars message.data

/-! ## Auxiliary definitions and concrete data -/

/-- The value of a list of decimal digit characters, least significant first. -/
def valRev : List Char → Nat
  | [] => 0
  | c :: cs => (c.toNat - 48) + 10 * valRev cs

/-- A credential for concrete evaluations: active, limit 100, no IP allow-list. -/
def sampleKey : APIKey :=
  { Id := 1, Key := "xui_k", Secret := "s3cret", Name := "proxy", Status := "active",
    CreatedAt := 1699990000, LastUsedAt := 0, RateLimit := 100, AllowedIPs := "" }

/-- A request at clock reading 1700000000 whose timestamp is `1700000000 - 2^63`, correctly
signed with the secret of `sampleKey`. -/
def overflowReq : Request :=
  { headers := [("X-API-Key", "xui_k"), ("X-Timestamp", "-9223372035154775808"),
      ("X-Nonce", "n1"),
      ("X-Signature", generateSignature toyHmac (-9223372035154775808) "n1" "\x7b\x7d" "s3cret")],
    remoteIp := "10.0.0.1",
    body := some "\x7b\x7d" }

/-- A request at timestamp 1700000000, correctly signed with the secret of `sampleKey`. -/
def replayReq : Request :=
  { headers := [("X-API-Key", "xui_k"), ("X-Timestamp", "1700000000"), ("X-Nonce", "n1"),
      ("X-Signature", generateSignature toyHmac 1700000000 "n1" "\x7b\x7d" "s3cret")],
    remoteIp := "10.0.0.1",
    body := some "\x7b\x7d" }

/-- The remaining window of `key` at clock reading `now`: its recorded timestamps (none for
an absent key) without those for which `now - timestamp < 60` fails in `int64` arithmetic. -/
def remainingWindow (rl : RateLimiter) (now : Int) (key : String) : List Int :=
  ((rl.requests key).getD []).filter (fun timestamp => decide (wrap64 (now - timestamp) < 60))

/-- The decision rule in the words of the specification, on the window of one key: drop the
timestamps older than 60 seconds, accept iff the remaining count is below the limit, and
append the current time on acceptance. -/
def CheckRateLimit_spec (window : List Int) (now : Int) (limit : Int) : Bool × List Int :=
  let remaining := window.filter (fun timestamp => decide (¬ (now - timestamp > 60)))
  if (remaining.length : Int) < limit then (true, remaining ++ [now]) else (false, remaining)

/-- Successive calls `CheckRateLimit(key, limit)` at the clock readings `times`: the results
in order, and the limiter after the last call. -/
def runCalls (rl : RateLimiter) (key : String) (limit : Int) : List Int → List Bool × RateLimiter
  | [] => ([], rl)
  | now :: rest =>
    ((CheckRateLimit rl now key limit).1 ::
        (runCalls (CheckRateLimit rl now key limit).2 key limit rest).1,
      (runCalls (CheckRateLimit rl now key limit).2 key limit rest).2)

/-- A limiter whose window for `"xui_k"` holds the single timestamp 0. -/
def sampleLimiter : RateLimiter := NewRateLimiter.set "xui_k" [0]

/-- An order for concrete evaluations: paid, expiring at epoch millisecond 1700000000000. -/
def sampleOrder : Order :=
  { Id := 1, OrderId := "O1", UserId := "U1", Status := "paid", Amount := 990,
    PaidAt := 1699990000000, ExpiresAt := 1700000000000, InboundId := 0,
    CreatedAt := 1699980000, UsedAt := 0, Remark := "" }

/-- Equality of Go results (`Except`) is decidable when it is for errors and values. -/
instance instDecidableEqExcept {ε α : Type} [DecidableEq ε] [DecidableEq α] :
    DecidableEq (Except ε α)
  | Except.ok a, Except.ok b =>
    if h : a = b then isTrue (by rw [h]) else isFalse (by intro h2; cases h2; exact h rfl)
  | Except.error a, Except.error b =>
    if h : a = b then isTrue (by rw [h]) else isFalse (by intro h2; cases h2; exact h rfl)
  | Except.ok _, Except.error _ => isFalse (by intro h; cases h)
  | Except.error _, Except.ok _ => isFalse (by intro h; cases h)

/-! ## Orders, continued: `CreateOrder`, `MarkOrderAsUsed`, `CleanupExpiredOrders` -/

/-- The primary key an auto-increment table gives a new row: one more than the largest key
among `ids` (1 for an empty table). -/
def nextId (ids : List Int) : Int := ids.foldl max 0 + 1

/-- The error `CreateOrder` returns. -/
inductive CreateOrderError
  /-- Go: `errors.New("订单号已存在")`, the unique index on `order_id` is violated. -/
  | Duplicate
  deriving DecidableEq, Repr

/-- The method `OrderService.CreateOrder`; `now` is `time.Now().Unix()`. Returns the result
and the order table after the call. -/
def CreateOrder (db : List Order) (now : Int) (orderId userId : String) (amount expiresAt : Int) :
    Except CreateOrderError Order × List Order :=
  if db.any (fun o => decide (o.OrderId = orderId)) then (Except.error CreateOrderError.Duplicate, db)
  else
    let order : Order :=
      { Id := nextId (db.map (fun o => o.Id)), OrderId := orderId, UserId := userId,
        Status := "pending", Amount := amount, PaidAt := 0, ExpiresAt := expiresAt,
        InboundId := 0, CreatedAt := now, UsedAt := 0, Remark := "" }
    (Except.ok order, db ++ [order])

/-- The method `OrderService.MarkOrderAsUsed` when its update succeeds; `now` is
`time.Now().Unix()`. -/
def MarkOrderAsUsed (db : List Order) (now : Int) (orderId : String) (inboundId : Int) :
    List Order :=
  db.map (fun o =>
    if o.OrderId = orderId then
      { o with Status := "used", InboundId := inboundId, UsedAt := wrap64 (now * 1000) }
    else o)

/-- The method `OrderService.CleanupExpiredOrders`; `nowUnix` is `time.Now().Unix()`. -/
def CleanupExpiredOrders (db : List Order) (nowUnix : Int) : List Order :=
  db.map (fun o =>
    if o.ExpiresAt > 0 ∧ o.ExpiresAt < wrap64 (nowUnix * 1000)
        ∧ (o.Status = "pending" ∨ o.Status = "paid") then
      { o with Status := "expired" }
    else o)

/-! ## The proxy (`backend-proxy/main.go`): `createOrUpdateOrderTest`, `buildXUIRequest` -/

/-- The call `strconv.ParseInt(s, 10, 64)`: an optional sign and a non-empty run of decimal
digits making up the whole string, inside `int64`; `none` is a parse error. -/
def ParseInt10 (s : String) : Option Int :=
  match s.data with
  | [] => none
  | c :: cs =>
    let digits := if c = '-' ∨ c = '+' then cs else c :: cs
    if digits = [] ∨ digits.all Char.isDigit = false then none
    else
      let x : Int := if c = '-' then -(parseNat digits : Int) else (parseNat digits : Int)
      if isInt64 x then some x else none

/-- The failures of `createOrUpdateOrderTest`. -/
inductive OrderTestError
  /-- Go: 400, `"参数错误: orderId 不能为空"`. -/
  | MissingOrderId
  /-- Go: 400, `"参数错误: userId 不能为空"`. -/
  | MissingUserId
  /-- Go: 400, `expiresAt` does not parse. -/
  | BadExpiresAt
  /-- Go: 500, the database file does not exist or does not open. -/
  | DbUnavailable
  deriving DecidableEq, Repr

/-- The `action` field of a successful reply of `createOrUpdateOrderTest`. -/
inductive OrderTestAction
  | updated
  | created
  deriving DecidableEq, Repr

/-- The handler `createOrUpdateOrderTest` on the table `orders` (the proxy's `OrderInfo` is
the record `Order`); the three strings are the query parameters, `dbOk` tells whether the
database file exists and opens, `nowUnix` is `time.Now().Unix()`. Returns the reply and the
table after the call. -/
def createOrUpdateOrderTest (dbOk : Bool) (db : List Order) (nowUnix : Int)
    (orderId userId expiresAtStr : String) : Except OrderTestError OrderTestAction × List Order :=
  if orderId = "" then (Except.error OrderTestError.MissingOrderId, db)
  else if userId = "" then (Except.error OrderTestError.MissingUserId, db)
  else
    match (if expiresAtStr ≠ "" then ParseInt10 expiresAtStr else some 0) with
    | none => (Except.error OrderTestError.BadExpiresAt, db)
    | some expiresAt =>
      if dbOk = false then (Except.error OrderTestError.DbUnavailable, db)
      else
        let now := wrap64 (nowUnix * 1000)
        match db.find? (fun o => decide (o.OrderId = orderId)) with
        | some existingOrder =>
          (Except.ok OrderTestAction.updated,
            db.map (fun o =>
              if o.OrderId = orderId then
                if existingOrder.Status ≠ "paid" then
                  if existingOrder.PaidAt = 0 then
                    { o with UserId := userId, ExpiresAt := expiresAt, Status := "paid",
                             PaidAt := now }
                  else { o with UserId := userId, ExpiresAt := expiresAt, Status := "paid" }
                else { o with UserId := userId, ExpiresAt := expiresAt }
              else o))
        | none =>
          let newOrder : Order :=
            { Id := nextId (db.map (fun o => o.Id)), OrderId := orderId, UserId := userId,
              Status := "paid", Amount := 0, PaidAt := now, ExpiresAt := expiresAt,
              InboundId := 0, CreatedAt := Int.tdiv now 1000, UsedAt := 0, Remark := "" }
          (Except.ok OrderTestAction.created, db ++ [newOrder])

/-- The proxy's `CreateInboundRequest`. -/
structure ProxyCreateInboundRequest where
  OrderId : String
  UserId : String
  deriving DecidableEq, Repr

/-- The proxy's `XUICreateInboundRequest`; `Remark` is kept as the bytes of the Go string,
which `generateRemark` cuts at a byte offset. -/
structure XUICreateInboundRequest where
  OrderId : String
  UserId : String
  Protocol : String
  Port : Int
  Remark : List UInt8
  ExpiryTime : Int
  Total : Int
  Settings : String
  StreamSettings : String
  Sniffing : String
  Listen : String
  deriving DecidableEq, Repr

/-- The errors of `buildXUIRequest`. -/
inductive BuildRequestError
  /-- Go: `fmt.Errorf("不存在该订单: %v", req.OrderId)`, `getOrderInfo` failed. -/
  | NoSuchOrder
  /-- Go: `fmt.Errorf("订单用户ID与请求用户ID不匹配: %s != %s", ...)`. -/
  | UserMismatch
  deriving DecidableEq, Repr

/-- The function `getOrderInfo`: the first row of that order id; `none` when the database is
unavailable or no row has the id. -/
def getOrderInfo (dbOk : Bool) (db : List Order) (orderId : String) : Option Order :=
  if dbOk = false then none else db.find? (fun o => decide (o.OrderId = orderId))

/-- The function `generateRemark`, on the bytes of the strings. -/
def generateRemark (_userId orderId : String) : List UInt8 :=
  let bytes := orderId.toUTF8.data.toList
  if bytes.length > 4 then "用户节点-".toUTF8.data.toList ++ bytes.drop (bytes.length - 4)
  else "用户节点-".toUTF8.data.toList ++ bytes

/-- The function `buildXUIRequest`; `defaultProtocol` is `config.DefaultProtocol`. An error
result carries no request (Go returns `nil` for it). -/
def buildXUIRequest (dbOk : Bool) (db : List Order) (defaultProtocol : String)
    (req : ProxyCreateInboundRequest) : Except BuildRequestError XUICreateInboundRequest :=
  match getOrderInfo dbOk db req.OrderId with
  | none => Except.error BuildRequestError.NoSuchOrder
  | some order =>
    if order.UserId ≠ req.UserId then Except.error BuildRequestError.UserMismatch
    else
      Except.ok
        { OrderId := req.OrderId, UserId := req.UserId, Protocol := defaultProtocol, Port := 0,
          Remark := generateRemark req.UserId req.OrderId, ExpiryTime := order.ExpiresAt,
          Total := 0, Settings := "", StreamSettings := "", Sniffing := "", Listen := "" }

/-! ## Inbounds: the record, the inbound service, `allocatePort` -/

/-- The record `model.Inbound`. -/
structure Inbound where
  Id : Int
  UserId : Int
  Up : Int
  Down : Int
  Total : Int
  Remark : String
  Enable : Bool
  ExpiryTime : Int
  Listen : String
  Port : Int
  Protocol : String
  Settings : String
  StreamSettings : String
  Tag : String
  Sniffing : String
  deriving DecidableEq, Repr

/-- The errors of the inbound table. -/
inductive DbError
  /-- A failure of the database call itself. -/
  | io
  /-- The unique constraint on `port` rejects the row. -/
  | uniquePort
  /-- The unique constraint on `tag` rejects the row. -/
  | uniqueTag
  /-- No row has the requested primary key. -/
  | notFound
  deriving DecidableEq, Repr

/-- Modelled from the spec: `InboundService.CheckPortExist(port, ignoreId)`, whose source
(`web/service/inbound.go`) is not among the files. It is the port-existence query of the
allocator: it reports whether an inbound of the table uses `port`, leaving out the row
`ignoreId` when that is positive; `fault` makes the database call fail. -/
def CheckPortExist (fault : Bool) (inbounds : List Inbound) (port ignoreId : Int) :
    Except DbError Bool :=
  if fault then Except.error DbError.io
  else
    Except.ok (inbounds.any (fun i => decide (i.Port = port ∧ ¬ (ignoreId > 0 ∧ i.Id = ignoreId))))

/-- Modelled from the spec: `InboundService.AddInbound(inbound)`, whose source
(`web/service/inbound.go`) is not among the files. It persists the inbound: the row gets a
fresh primary key and joins the table, unless the database call fails (`fault`) or the
uniqueness of `port` or of `tag` (hard database-level constraints, `gorm:"unique"` in
`model.Inbound`) is violated. Returns the stored row (Go writes its `Id` back into
`inbound`) and the table after the call. -/
def AddInbound (fault : Bool) (inbounds : List Inbound) (inbound : Inbound) :
    Except DbError (Inbound × List Inbound) :=
  if fault then Except.error DbError.io
  else if inbounds.any (fun i => decide (i.Port = inbound.Port)) then
    Except.error DbError.uniquePort
  else if inbounds.any (fun i => decide (i.Tag = inbound.Tag)) then
    Except.error DbError.uniqueTag
  else
    Except.ok ({ inbound with Id := nextId (inbounds.map (fun i => i.Id)) },
      inbounds ++ [{ inbound with Id := nextId (inbounds.map (fun i => i.Id)) }])

/-- Modelled from the spec: `InboundService.GetInbound(id)`, whose source
(`web/service/inbound.go`) is not among the files. It fetches the inbound of primary key
`id`; `fault` makes the database call fail. -/
def GetInbound (fault : Bool) (inbounds : List Inbound) (id : Int) : Except DbError Inbound :=
  if fault then Except.error DbError.io
  else
    match inbounds.find? (fun i => decide (i.Id = id)) with
    | some inbound => Except.ok inbound
    | none => Except.error DbError.notFound

/-- The loop of `allocatePort`: `n` candidates are left, `port` is the next one; `check port`
is `a.inboundService.CheckPortExist(port, 0)`. -/
def allocatePortLoop (check : Int → Except DbError Bool) : Nat → Int → Int
  | 0, _ => 0
  | n + 1, port =>
    match check port with
    | Except.ok false => port
    | _ => allocatePortLoop check n (port + 1)

/-- The method `ClientAPIController.allocatePort`: the candidates are the 55536 ports from
`startPort = 10000` to `endPort = 65535`. -/
def allocatePort (check : Int → Except DbError Bool) : Int :=
  allocatePortLoop check 55536 10000

/-! ## Default settings: `generateUUID`, `getDefaultSettings` -/

/-- The function `generateUUID`; `rnd` is what `rand.Read` writes into the 16-byte buffer
(bytes it does not write stay zero). -/
def generateUUID (rnd : List Byte) : String :=
  let b0 : List Byte := rnd.take 16 ++ List.replicate (16 - rnd.length) 0
  let b1 := b0.set 6 (Fin.ofNat (Nat.lor (Nat.land (b0.getD 6 0).val 15) 64))
  let b := b1.set 8 (Fin.ofNat (Nat.lor (Nat.land (b1.getD 8 0).val 63) 128))
  ⟨hexChars (b.take 4) ++ '-' :: hexChars ((b.drop 4).take 2) ++ '-' ::
    hexChars ((b.drop 6).take 2) ++ '-' :: hexChars ((b.drop 8).take 2) ++ '-' ::
    hexChars (b.drop 10)⟩

/-- The method `getDefaultSettings`; `rnd` feeds `generateUUID` and `seq` is the result of
`generateRandomPassword()`, that is of `random.Seq(16)`. -/
def getDefaultSettings (rnd : List Byte) (seq : String) (protocol : String) : String :=
  if protocol = "vmess" then
    "\x7b\"clients\":[\x7b\"id\":\"" ++ generateUUID rnd
      ++ "\",\"alterId\":0\x7d],\"disableInsecureEncryption\":false\x7d"
  else if protocol = "vless" then
    "\x7b\"clients\":[\x7b\"id\":\"" ++ generateUUID rnd
      ++ "\",\"flow\":\"\"\x7d],\"decryption\":\"none\"\x7d"
  else if protocol = "trojan" then
    "\x7b\"clients\":[\x7b\"password\":\"" ++ seq ++ "\"\x7d]\x7d"
  else if protocol = "shadowsocks" then
    "\x7b\"method\":\"aes-256-gcm\",\"password\":\"" ++ seq ++ "\"\x7d"
  else "\x7b\x7d"

/-! ## The controller method `ClientAPIController.CreateInbound` -/

/-- The controller's `CreateInboundRequest`. -/
structure CreateInboundRequest where
  OrderId : String
  UserId : String
  Protocol : String
  Port : Int
  Remark : String
  ExpiryTime : Int
  Total : Int
  Settings : String
  StreamSettings : String
  Sniffing : String
  Listen : String
  deriving DecidableEq, Repr

/-- The failure replies of `CreateInbound` (`pureJsonMsg(c, false, msg)`). -/
inductive CreateInboundError
  /-- Go: `"请求参数错误: " + err.Error()`. -/
  | BadRequest
  /-- Go: `"订单验证失败: " + err.Error()`. -/
  | OrderVerification (e : OrderError)
  /-- Go: `"订单用户不匹配"`. -/
  | UserMismatch
  /-- Go: `"不支持的协议类型: " + req.Protocol`. -/
  | UnsupportedProtocol
  /-- Go: `"无法分配可用端口"`. -/
  | PortExhausted
  /-- Go: `"检查端口失败: " + err.Error()`. -/
  | CheckPortFailed (e : DbError)
  /-- Go: `fmt.Sprintf("端口 %d 已被占用", port)`. -/
  | PortInUse
  /-- Go: `"创建入站配置失败: " + err.Error()`. -/
  | AddInboundFailed (e : DbError)
  /-- Go: `"创建成功但获取入站信息失败: " + err.Error()`. -/
  | GetInboundFailed (e : DbError)
  deriving DecidableEq, Repr

/-- The reply of `CreateInbound`: a failure message, or success with the inbound
(`jsonObj(c, CreateInboundResponse{Inbound: inbound}, nil)`). -/
inductive CreateInboundReply
  | fail (e : CreateInboundError)
  | success (inbound : Inbound)
  deriving DecidableEq, Repr

/-- The database errors met by one run of `CreateInbound`: for the port-existence query of a
port, for `AddInbound`, for the update of `MarkOrderAsUsed` and for `GetInbound`. -/
structure Faults where
  checkPortExist : Int → Bool
  addInbound : Bool
  markOrderAsUsed : Bool
  getInbound : Bool

/-- No database error. -/
def noFaults : Faults :=
  { checkPortExist := fun _ => false, addInbound := false, markOrderAsUsed := false,
    getInbound := false }

/-- The map `validProtocols` of `CreateInbound`, looked up at `protocol`. -/
def validProtocols (protocol : String) : Bool :=
  decide (protocol = "vmess" ∨ protocol = "vless" ∨ protocol = "trojan"
    ∨ protocol = "shadowsocks")

/-- The inbound `CreateInbound` builds in its step 6 for the port `port`. -/
def buildInbound (rnd : List Byte) (seq : String) (req : CreateInboundRequest) (port : Int) :
    Inbound :=
  { Id := 0, UserId := 1, Up := 0, Down := 0, Total := req.Total, Remark := req.Remark,
    Enable := true, ExpiryTime := req.ExpiryTime, Listen := req.Listen, Port := port,
    Protocol := req.Protocol,
    Settings := if req.Settings ≠ "" then req.Settings
      else getDefaultSettings rnd seq req.Protocol,
    StreamSettings := if req.StreamSettings ≠ "" then req.StreamSettings else "\x7b\x7d",
    Tag := "inbound-" ++ fmtInt port,
    Sniffing := if req.Sniffing ≠ "" then req.Sniffing
      else "\x7b\"enabled\":true,\"destOverride\":[\"http\",\"tls\"]\x7d" }

/-- Steps 7 to 11 of `CreateInbound`: persist the inbound, mark the order as used (an error of
that update is logged and ignored), fetch the stored inbound and reply with it. -/
def persistAndMark (faults : Faults) (nowMark : Int) (orders : List Order)
    (inbounds : List Inbound) (req : CreateInboundRequest) (inbound : Inbound) :
    CreateInboundReply × List Order × List Inbound :=
  match AddInbound faults.addInbound inbounds inbound with
  | Except.error err =>
    (CreateInboundReply.fail (CreateInboundError.AddInboundFailed err), orders, inbounds)
  | Except.ok (stored, inbounds1) =>
    let orders1 :=
      if faults.markOrderAsUsed then orders
      else MarkOrderAsUsed orders nowMark req.OrderId stored.Id
    match GetInbound faults.getInbound inbounds1 stored.Id with
    | Except.error err =>
      (CreateInboundReply.fail (CreateInboundError.GetInboundFailed err), orders1, inbounds1)
    | Except.ok createdInbound => (CreateInboundReply.success createdInbound, orders1, inbounds1)

/-- Step 5 of `CreateInbound`, the port handling: the port to use, or the failure reply. -/
def choosePort (faults : Faults) (inbounds : List Inbound) (req : CreateInboundRequest) :
    Except CreateInboundError Int :=
  if req.Port = 0 then
    if allocatePort (fun p => CheckPortExist (faults.checkPortExist p) inbounds p 0) = 0 then
      Except.error CreateInboundError.PortExhausted
    else Except.ok (allocatePort (fun p => CheckPortExist (faults.checkPortExist p) inbounds p 0))
  else
    match CheckPortExist (faults.checkPortExist req.Port) inbounds req.Port 0 with
    | Except.error err => Except.error (CreateInboundError.CheckPortFailed err)
    | Except.ok true => Except.error CreateInboundError.PortInUse
    | Except.ok false => Except.ok req.Port

/-- The method `ClientAPIController.CreateInbound` on the order table and the inbound table.
`bind` is the result of `c.ShouldBindJSON(&req)`, `nowVerify` and `nowMark` are the clock
readings of `VerifyOrder` and of `MarkOrderAsUsed`, `rnd` and `seq` the random bytes and the
random password of the default settings. Returns the reply and both tables after the call.
Step 9, which flags the proxy engine for a restart, touches neither table and is left out. -/
def CreateInbound (faults : Faults) (rnd : List Byte) (seq : String) (nowVerify nowMark : Int)
    (orders : List Order) (inbounds : List Inbound) (bind : Except String CreateInboundRequest) :
    CreateInboundReply × List Order × List Inbound :=
  match bind with
  | Except.error _ => (CreateInboundReply.fail CreateInboundError.BadRequest, orders, inbounds)
  | Except.ok req =>
    match VerifyOrder orders nowVerify req.OrderId with
    | (Except.error err, orders1) =>
      (CreateInboundReply.fail (CreateInboundError.OrderVerification err), orders1, inbounds)
    | (Except.ok order, orders1) =>
      if order.UserId ≠ req.UserId then
        (CreateInboundReply.fail CreateInboundError.UserMismatch, orders1, inbounds)
      else
        match (if order.Status = "used" ∧ order.InboundId > 0 then
            (GetInbound faults.getInbound inbounds order.InboundId).toOption else none) with
        | some inbound => (CreateInboundReply.success inbound, orders1, inbounds)
        | none =>
          if validProtocols req.Protocol = false then
            (CreateInboundReply.fail CreateInboundError.UnsupportedProtocol, orders1, inbounds)
          else
            match choosePort faults inbounds req with
            | Except.error e => (CreateInboundReply.fail e, orders1, inbounds)
            | Except.ok port =>
              persistAndMark faults nowMark orders1 inbounds req (buildInbound rnd seq req port)

/-- One call of a sequence of `CreateInbound` calls: everything but the two tables. -/
structure CreateInboundCall where
  faults : Faults
  rnd : List Byte
  seq : String
  nowVerify : Int
  nowMark : Int
  bind : Except String CreateInboundRequest

/-- A sequence of `CreateInbound` calls, one after the other: the replies in order and the
two tables after the last call. -/
def runCreateInbound (orders : List Order) (inbounds : List Inbound) :
    List CreateInboundCall → List CreateInboundReply × List Order × List Inbound
  | [] => ([], orders, inbounds)
  | c :: rest =>
    ((CreateInbound c.faults c.rnd c.seq c.nowVerify c.nowMark orders inbounds c.bind).1 ::
        (runCreateInbound
          (CreateInbound c.faults c.rnd c.seq c.nowVerify c.nowMark orders inbounds c.bind).2.1
          (CreateInbound c.faults c.rnd c.seq c.nowVerify c.nowMark orders inbounds c.bind).2.2
          rest).1,
      (runCreateInbound
          (CreateInbound c.faults c.rnd c.seq c.nowVerify c.nowMark orders inbounds c.bind).2.1
          (CreateInbound c.faults c.rnd c.seq c.nowVerify c.nowMark orders inbounds c.bind).2.2
          rest).2)

/-- An inbound for concrete evaluations: id 5, port 10000, tag `inbound-10000`. -/
def sampleInbound : Inbound :=
  { Id := 5, UserId := 1, Up := 0, Down := 0, Total := 0, Remark := "node", Enable := true,
    ExpiryTime := 0, Listen := "", Port := 10000, Protocol := "vless",
    Settings := "\x7b\x7d", StreamSettings := "\x7b\x7d", Tag := "inbound-10000",
    Sniffing := "\x7b\x7d" }

/-- A request for concrete evaluations: order `O1` of user `U1`, protocol `vless`, port to be
allocated, explicit settings. -/
def sampleRequest : CreateInboundRequest :=
  { OrderId := "O1", UserId := "U1", Protocol := "vless", Port := 0, Remark := "r",
    ExpiryTime := 0, Total := 0, Settings := "\x7b\x7d", StreamSettings := "", Sniffing := "",
    Listen := "" }

/-- The order `sampleOrder` after it was used for the inbound `sampleInbound`. -/
def usedOrder : Order :=
  { sampleOrder with Status := "used", InboundId := 5, UsedAt := 1699995000000 }

/-- The faults of a run in which only the update of `MarkOrderAsUsed` fails. -/
def markFault : Faults := { noFaults with markOrderAsUsed := true }

/-- An inbound on port 20000 whose tag is `inbound-10000`. -/
def clashingInbound : Inbound := { sampleInbound with Port := 20000 }

/-- The order `sampleOrder` after it expired. -/
def expiredOrder : Order := { sampleOrder with Status := "expired" }

/-! ## Phases of `CreateInbound`, lowercase hex, further concrete data -/

/-- Steps 1 to 4 of `CreateInbound` (order verification, user check, the branch for a used
order, protocol check): the reply when the run ends there, `none` when it goes on to the port
handling, and the order table after these steps. -/
def verifyPhase (faults : Faults) (nowVerify : Int) (orders : List Order)
    (inbounds : List Inbound) (req : CreateInboundRequest) :
    Option CreateInboundReply × List Order :=
  match VerifyOrder orders nowVerify req.OrderId with
  | (Except.error err, orders1) =>
    (some (CreateInboundReply.fail (CreateInboundError.OrderVerification err)), orders1)
  | (Except.ok order, orders1) =>
    if order.UserId ≠ req.UserId then
      (some (CreateInboundReply.fail CreateInboundError.UserMismatch), orders1)
    else
      match (if order.Status = "used" ∧ order.InboundId > 0 then
          (GetInbound faults.getInbound inbounds order.InboundId).toOption else none) with
      | some inbound => (some (CreateInboundReply.success inbound), orders1)
      | none =>
        if validProtocols req.Protocol = false then
          (some (CreateInboundReply.fail CreateInboundError.UnsupportedProtocol), orders1)
        else (none, orders1)

/-- Steps 5 to 11 of `CreateInbound`: port handling, then persisting and marking. -/
def provisionPhase (faults : Faults) (rnd : List Byte) (seq : String) (nowMark : Int)
    (orders : List Order) (inbounds : List Inbound) (req : CreateInboundRequest) :
    CreateInboundReply × List Order × List Inbound :=
  match choosePort faults inbounds req with
  | Except.error e => (CreateInboundReply.fail e, orders, inbounds)
  | Except.ok port =>
    persistAndMark faults nowMark orders inbounds req (buildInbound rnd seq req port)

/-- Two `CreateInbound` requests on the same tables in the interleaving in which both run
their steps 1 to 4 before either runs its steps 5 to 11 (first request first in each phase).
Returns both replies and the tables at the end. -/
def interleavedCreateInbound (c1 c2 : CreateInboundCall) (req1 req2 : CreateInboundRequest)
    (orders : List Order) (inbounds : List Inbound) :
    (CreateInboundReply × CreateInboundReply) × List Order × List Inbound :=
  match verifyPhase c1.faults c1.nowVerify orders inbounds req1 with
  | (early1, orders1) =>
    match verifyPhase c2.faults c2.nowVerify orders1 inbounds req2 with
    | (early2, orders2) =>
      match (match early1 with
          | some reply => (reply, orders2, inbounds)
          | none => provisionPhase c1.faults c1.rnd c1.seq c1.nowMark orders2 inbounds req1) with
      | (reply1, orders3, inbounds3) =>
        match (match early2 with
            | some reply => (reply, orders3, inbounds3)
            | none => provisionPhase c2.faults c2.rnd c2.seq c2.nowMark orders3 inbounds3 req2) with
        | (reply2, orders4, inbounds4) => ((reply1, reply2), orders4, inbounds4)

/-- A call without faults at clock reading 1699999999 carrying `sampleRequest`. -/
def sampleCall : CreateInboundCall :=
  ⟨noFaults, [], "pw", 1699999999, 1699999999, Except.ok sampleRequest⟩

/-- The lowercase hexadecimal digits. -/
def isLowerHex (c : Char) : Bool := decide (c ∈ "0123456789abcdef".data)

/-- The order `sampleOrder` before it was paid. -/
def pendingOrder : Order := { sampleOrder with Status := "pending", PaidAt := 0 }

/-- The request `replayReq` with the characters `abc` after the digits of its timestamp. -/
def garbageTimestampReq : Request :=
  { headers := [("X-API-Key", "xui_k"), ("X-Timestamp", "1700000000abc"), ("X-Nonce", "n1"),
      ("X-Signature", generateSignature toyHmac 1700000000 "n1" "\x7b\x7d" "s3cret")],
    remoteIp := "10.0.0.1",
    body := some "\x7b\x7d" }

/-- The request `replayReq` with a wrong signature. -/
def badSignatureReq : Request :=
  { headers := [("X-API-Key", "xui_k"), ("X-Timestamp", "1700000000"), ("X-Nonce", "n1"),
      ("X-Signature", "00")],
    remoteIp := "10.0.0.1",
    body := some "\x7b\x7d" }

/-- Steps 1 to 5 of `CreateInbound` (steps 1 to 4, then the port handling): the reply when the
run ends there, or the port for the insert, and the order table after these steps. -/
def portPhase (faults : Faults) (nowVerify : Int) (orders : List Order)
    (inbounds : List Inbound) (req : CreateInboundRequest) :
    Except CreateInboundReply Int × List Order :=
  match verifyPhase faults nowVerify orders inbounds req with
  | (some reply, orders1) => (Except.error reply, orders1)
  | (none, orders1) =>
    match choosePort faults inbounds req with
    | Except.error e => (Except.error (CreateInboundReply.fail e), orders1)
    | Except.ok port => (Except.ok port, orders1)

/-- Steps 6 to 11 of `CreateInbound` for the port of step 5: build the inbound, then persist
it, mark the order and reply. -/
def insertPhase (faults : Faults) (rnd : List Byte) (seq : String) (nowMark : Int)
    (orders : List Order) (inbounds : List Inbound) (req : CreateInboundRequest) (port : Int) :
    CreateInboundReply × List Order × List Inbound :=
  persistAndMark faults nowMark orders inbounds req (buildInbound rnd seq req port)

/-- Two `CreateInbound` requests on the same tables in the interleaving in which both run
their steps 1 to 5 (so both finish their port handling) before either runs its steps 6 to 11
(first request first in each phase). Returns both replies and the tables at the end. -/
def racingCreateInbound (c1 c2 : CreateInboundCall) (req1 req2 : CreateInboundRequest)
    (orders : List Order) (inbounds : List Inbound) :
    (CreateInboundReply × CreateInboundReply) × List Order × List Inbound :=
  match portPhase c1.faults c1.nowVerify orders inbounds req1 with
  | (p1, orders1) =>
    match portPhase c2.faults c2.nowVerify orders1 inbounds req2 with
    | (p2, orders2) =>
      match (match p1 with
          | Except.error reply => (reply, orders2, inbounds)
          | Except.ok port =>
            insertPhase c1.faults c1.rnd c1.seq c1.nowMark orders2 inbounds req1 port) with
      | (reply1, orders3, inbounds3) =>
        match (match p2 with
            | Except.error reply => (reply, orders3, inbounds3)
            | Except.ok port =>
              insertPhase c2.faults c2.rnd c2.seq c2.nowMark orders3 inbounds3 req2 port) with
        | (reply2, orders4, inbounds4) => ((reply1, reply2), orders4, inbounds4)

/-- A second order for concrete evaluations: `O2` of user `U2`, paid. -/
def secondOrder : Order := { sampleOrder with Id := 2, OrderId := "O2", UserId := "U2" }

/-- The request of user `U2` for the order `O2`, port to be allocated. -/
def secondRequest : CreateInboundRequest :=
  { sampleRequest with OrderId := "O2", UserId := "U2" }

/-- A call without faults at clock reading 1699999999 carrying `secondRequest`. -/
def secondCall : CreateInboundCall :=
  ⟨noFaults, [], "pw", 1699999999, 1699999999, Except.ok secondRequest⟩

/-! ## Arithmetic and string lemmas -/

theorem wrap64_eq_self (x : Int) (hlo : -9223372036854775808 ≤ x)
    (hhi : x ≤ 9223372036854775807) : wrap64 x = x := by
  unfold wrap64; omega

theorem digitChar_ne_minus : ∀ d, d < 10 → digitChar d ≠ '-' := by decide

theorem digitChar_value : ∀ d, d < 10 → (digitChar d).toNat - 48 = d := by decide

theorem valRev_revDigits (fuel n : Nat) (h : n ≤ fuel) : valRev (revDigits fuel n) = n := by
  induction fuel generalizing n with
  | zero =>
    have h0 : n = 0 := by omega
    subst h0
    decide
  | succ fuel ih =>
    unfold revDigits
    split
    · next hlt => simp [valRev, digitChar_value n hlt]
    · next hge =>
      have hq : n / 10 ≤ fuel := by omega
      have hm : n % 10 < 10 := Nat.mod_lt _ (by decide)
      simp only [valRev, ih (n / 10) hq, digitChar_value (n % 10) hm]
      omega

theorem revDigits_ne_minus (fuel n : Nat) : ∀ c ∈ revDigits fuel n, c ≠ '-' := by
  induction fuel generalizing n with
  | zero =>
    intro c hc
    simp only [revDigits, List.mem_singleton] at hc
    subst hc
    exact digitChar_ne_minus _ (Nat.mod_lt _ (by decide))
  | succ fuel ih =>
    intro c hc
    unfold revDigits at hc
    split at hc
    · next hlt =>
      simp only [List.mem_singleton] at hc
      subst hc
      exact digitChar_ne_minus _ hlt
    · next hge =>
      rcases List.mem_cons.mp hc with h | h
      · subst h
        exact digitChar_ne_minus _ (Nat.mod_lt _ (by decide))
      · exact ih _ c h

theorem fmtNat_injective {a b : Nat} (h : fmtNat a = fmtNat b) : a = b := by
  unfold fmtNat at h
  have h2 : revDigits a a = revDigits b b := List.reverse_injective h
  have ha := valRev_revDigits a a (Nat.le_refl a)
  have hb := valRev_revDigits b b (Nat.le_refl b)
  rw [h2, hb] at ha
  exact ha.symm

theorem fmtNat_ne_minus (n : Nat) : ∀ c ∈ fmtNat n, c ≠ '-' := by
  intro c hc
  unfold fmtNat at hc
  exact revDigits_ne_minus n n c (List.mem_reverse.mp hc)

/-- The decimal rendering `fmt.Sprintf("%d", _)` determines the integer. -/
theorem fmtInt_injective {x y : Int} (h : fmtInt x = fmtInt y) : x = y := by
  unfold fmtInt at h
  by_cases hx : x < 0 <;> by_cases hy : y < 0
  · simp only [hx, hy, if_true] at h
    have hd := congrArg String.data h
    simp only [List.cons.injEq, true_and] at hd
    have := fmtNat_injective hd
    omega
  · simp only [hx, hy, if_true, if_false] at h
    have hd : '-' :: fmtNat x.natAbs = fmtNat y.natAbs := congrArg String.data h
    have hm : '-' ∈ fmtNat y.natAbs := by rw [← hd]; exact List.mem_cons_self _ _
    exact absurd rfl (fmtNat_ne_minus _ _ hm)
  · simp only [hx, hy, if_true, if_false] at h
    have hd : fmtNat x.natAbs = '-' :: fmtNat y.natAbs := congrArg String.data h
    have hm : '-' ∈ fmtNat x.natAbs := by rw [hd]; exact List.mem_cons_self _ _
    exact absurd rfl (fmtNat_ne_minus _ _ hm)
  · simp only [hx, hy, if_false] at h
    have hd : fmtNat x.natAbs = fmtNat y.natAbs := congrArg String.data h
    have := fmtNat_injective hd
    omega

theorem hexDigit_injective : ∀ i, i < 16 → ∀ j, j < 16 → hexDigit i = hexDigit j → i = j := by
  decide

theorem hexChars_injective : ∀ {a b : List Byte}, hexChars a = hexChars b → a = b
  | [], [], _ => rfl
  | [], _ :: _, h => by simp [hexChars] at h
  | _ :: _, [], h => by simp [hexChars] at h
  | x :: xs, y :: ys, h => by
    simp only [hexChars, List.cons.injEq] at h
    obtain ⟨h1, h2, h3⟩ := h
    have hx := x.isLt
    have hy := y.isLt
    have e1 := hexDigit_injective _ (by omega) _ (by omega) h1
    have e2 := hexDigit_injective _ (Nat.mod_lt _ (by decide)) _ (Nat.mod_lt _ (by decide)) h2
    have exy : x = y := Fin.ext (by omega)
    rw [exy, hexChars_injective h3]

/-- The encoding `hex.EncodeToString` determines the bytes. -/
theorem hexEncode_injective {a b : List Byte} (h : hexEncode a = hexEncode b) : a = b := by
  unfold hexEncode at h
  exact hexChars_injective (congrArg String.data h)

theorem signStr_data (timestamp : Int) (nonce body secret : String) :
    (signStr timestamp nonce body secret).data
      = (fmtInt timestamp).data ++ nonce.data ++ body.data ++ secret.data := by
  simp [signStr, String.data_append]

/-- The signed string determines the timestamp once nonce, body and secret are fixed. -/
theorem signStr_timestamp_inj {t t2 : Int} {nonce body secret : String}
    (h : signStr t nonce body secret = signStr t2 nonce body secret) : t = t2 := by
  have hd := congrArg String.data h
  simp only [signStr_data, List.append_assoc] at hd
  have := List.append_cancel_right hd
  exact fmtInt_injective (String.ext this)

/-- The signed string determines the nonce once timestamp, body and secret are fixed. -/
theorem signStr_nonce_inj {t : Int} {nonce nonce2 body secret : String}
    (h : signStr t nonce body secret = signStr t nonce2 body secret) : nonce = nonce2 := by
  have hd := congrArg String.data h
  simp only [signStr_data, List.append_assoc] at hd
  have := List.append_cancel_right (List.append_cancel_left hd)
  exact String.ext this

/-- The signed string determines the body once timestamp, nonce and secret are fixed. -/
theorem signStr_body_inj {t : Int} {nonce body body2 secret : String}
    (h : signStr t nonce body secret = signStr t nonce body2 secret) : body = body2 := by
  have hd := congrArg String.data h
  simp only [signStr_data, List.append_assoc] at hd
  have := List.append_cancel_right (List.append_cancel_left (List.append_cancel_left hd))
  exact String.ext this

/-- Inside the window the clock test of `VerifySignature` passes, so the result is decided by
the signature comparison alone. -/
theorem VerifySignature_in_window (hmac : HMAC) (now : Int) (apiKey : APIKey) (timestamp : Int)
    (nonce signature body : String) (hpast : now - timestamp ≤ 300)
    (hfuture : timestamp - now ≤ 60) :
    VerifySignature hmac now apiKey timestamp nonce signature body
      = if signature ≠ generateSignature hmac timestamp nonce body apiKey.Secret then
          Except.error SignatureError.BadSignature
        else Except.ok () := by
  have h1 : wrap64 (now - timestamp) = now - timestamp := wrap64_eq_self _ (by omega) (by omega)
  have h2 : wrap64 (timestamp - now) = timestamp - now := wrap64_eq_self _ (by omega) (by omega)
  have hc : ¬ (wrap64 (now - timestamp) > 300 ∨ wrap64 (timestamp - now) > 60) := by
    rw [h1, h2]; omega
  unfold VerifySignature generateSignature
  rw [if_neg hc]

theorem char_toNat_lt (c : Char) : c.toNat < 4294967296 := by
  have := c.val.val.isLt
  simpa [Char.toNat, UInt32.toNat, UInt32.size] using this

theorem toyHmacChars_injective : ∀ {a b : List Char}, toyHmacChars a = toyHmacChars b → a = b
  | [], [], _ => rfl
  | [], _ :: _, h => by simp [toyHmacChars] at h
  | _ :: _, [], h => by simp [toyHmacChars] at h
  | x :: xs, y :: ys, h => by
    simp only [toyHmacChars, List.cons.injEq] at h
    obtain ⟨h1, h2, h3, h4, h5⟩ := h
    have hx := char_toNat_lt x
    have hy := char_toNat_lt y
    have e1 := congrArg Fin.val h1
    have e2 := congrArg Fin.val h2
    have e3 := congrArg Fin.val h3
    have e4 := congrArg Fin.val h4
    simp only [Fin.ofNat, Fin.val_mk] at e1 e2 e3 e4
    have hn : x.toNat = y.toNat := by omega
    have hxy : x = y := by rw [← Char.ofNat_toNat x, ← Char.ofNat_toNat y, hn]
    rw [hxy, toyHmacChars_injective h5]

/-- The toy MAC is collision-free for every key. -/
theorem toyHmac_injective (key : String) : Function.Injective (toyHmac key) := by
  intro a b h
  exact String.ext (toyHmacChars_injective h)

/-! ## Signature round trip, window and tampering -/

/-- C1. Sign/verify round trip: when `now - timestamp ≤ 300` and `timestamp - now ≤ 60`,
`VerifySignature` on a credential holding the secret returns no error for the signature
`generateSignature` produces for the same timestamp, nonce and body. -/
theorem sign_verify_roundtrip (hmac : HMAC) (now : Int) (apiKey : APIKey) (timestamp : Int)
    (nonce body : String) (hpast : now - timestamp ≤ 300) (hfuture : timestamp - now ≤ 60) :
    VerifySignature hmac now apiKey timestamp nonce
      (generateSignature hmac timestamp nonce body apiKey.Secret) body = Except.ok () := by
  rw [VerifySignature_in_window hmac now apiKey timestamp nonce _ body hpast hfuture]
  simp

/-- Witness of C1: a request signed 10 seconds before it is verified. -/
theorem sign_verify_roundtrip_witness :
    (1700000010 : Int) - 1700000000 ≤ 300 ∧ (1700000000 : Int) - 1700000010 ≤ 60 ∧
    VerifySignature toyHmac 1700000010 sampleKey 1700000000 "n1"
      (generateSignature toyHmac 1700000000 "n1" "body" sampleKey.Secret) "body"
      = Except.ok () :=
  ⟨by decide, by decide,
    sign_verify_roundtrip toyHmac 1700000010 sampleKey 1700000000 "n1" "body"
      (by decide) (by decide)⟩

/-- C2 (the code at the failing input). At `now = 1700000000` the timestamp
`now - 2^63 = -9223372035154775808` is an `int64` value lying 2^63 seconds before `now`, yet
`VerifySignature` returns no error for a correctly signed request carrying it: the
subtraction `now - timestamp` overflows to `-2^63`, which is not `> 300`. -/
theorem VerifySignature_accepts_overflowing_timestamp (hmac : HMAC) (apiKey : APIKey)
    (nonce body : String) :
    isInt64 (-9223372035154775808) ∧ isInt64 1700000000 ∧
    (1700000000 : Int) - (-9223372035154775808) > 300 ∧
    VerifySignature hmac 1700000000 apiKey (-9223372035154775808) nonce
      (generateSignature hmac (-9223372035154775808) nonce body apiKey.Secret) body
      = Except.ok () := by
  refine ⟨by decide, by decide, by decide, ?_⟩
  have hc : ¬ (wrap64 (1700000000 - (-9223372035154775808)) > 300
      ∨ wrap64 (-9223372035154775808 - 1700000000) > 60) := by decide
  unfold VerifySignature generateSignature
  rw [if_neg hc]
  simp

/-- Away from overflow the clock test of `VerifySignature` is the stated window: if the
difference `now - timestamp` fits in `int64` and lies outside `[-60, 300]`, the result is the
expiry error whatever the signature is. -/
theorem VerifySignature_outside_window (hmac : HMAC) (now : Int) (apiKey : APIKey)
    (timestamp : Int) (nonce signature body : String)
    (hfit : -9223372036854775807 ≤ now - timestamp ∧ now - timestamp ≤ 9223372036854775807)
    (hout : now - timestamp > 300 ∨ timestamp - now > 60) :
    VerifySignature hmac now apiKey timestamp nonce signature body
      = Except.error SignatureError.Expired := by
  have h1 : wrap64 (now - timestamp) = now - timestamp := wrap64_eq_self _ (by omega) (by omega)
  have h2 : wrap64 (timestamp - now) = timestamp - now := wrap64_eq_self _ (by omega) (by omega)
  unfold VerifySignature
  rw [h1, h2, if_pos hout]

/-- C4. Tamper detection: with the MAC collision-free for the credential's secret, for a
request signed by `generateSignature` inside the acceptance window, `VerifySignature` returns
an error as soon as exactly one of signature, body, nonce or timestamp is replaced by a
different value (the signature error for the first three; for a changed timestamp the expiry
error or the signature error). -/
theorem tamper_detected (hmac : HMAC) (now : Int) (apiKey : APIKey) (timestamp : Int)
    (nonce body : String) (hcf : Function.Injective (hmac apiKey.Secret))
    (hpast : now - timestamp ≤ 300) (hfuture : timestamp - now ≤ 60) :
    (∀ signature2, signature2 ≠ generateSignature hmac timestamp nonce body apiKey.Secret →
      VerifySignature hmac now apiKey timestamp nonce signature2 body
        = Except.error SignatureError.BadSignature) ∧
    (∀ body2, body2 ≠ body →
      VerifySignature hmac now apiKey timestamp nonce
        (generateSignature hmac timestamp nonce body apiKey.Secret) body2
        = Except.error SignatureError.BadSignature) ∧
    (∀ nonce2, nonce2 ≠ nonce →
      VerifySignature hmac now apiKey timestamp nonce2
        (generateSignature hmac timestamp nonce body apiKey.Secret) body
        = Except.error SignatureError.BadSignature) ∧
    (∀ timestamp2, timestamp2 ≠ timestamp →
      ∃ e, VerifySignature hmac now apiKey timestamp2 nonce
        (generateSignature hmac timestamp nonce body apiKey.Secret) body = Except.error e) := by
  refine ⟨?_, ?_, ?_, ?_⟩
  · intro signature2 hne
    rw [VerifySignature_in_window hmac now apiKey timestamp nonce _ body hpast hfuture]
    simp [hne]
  · intro body2 hne
    rw [VerifySignature_in_window hmac now apiKey timestamp nonce _ body2 hpast hfuture]
    have : generateSignature hmac timestamp nonce body apiKey.Secret
        ≠ generateSignature hmac timestamp nonce body2 apiKey.Secret := by
      intro h
      exact hne (signStr_body_inj (hcf (hexEncode_injective h))).symm
    simp [this]
  · intro nonce2 hne
    rw [VerifySignature_in_window hmac now apiKey timestamp nonce2 _ body hpast hfuture]
    have : generateSignature hmac timestamp nonce body apiKey.Secret
        ≠ generateSignature hmac timestamp nonce2 body apiKey.Secret := by
      intro h
      exact hne (signStr_nonce_inj (hcf (hexEncode_injective h))).symm
    simp [this]
  · intro timestamp2 hne
    have hsig : generateSignature hmac timestamp nonce body apiKey.Secret
        ≠ generateSignature hmac timestamp2 nonce body apiKey.Secret := by
      intro h
      exact hne (signStr_timestamp_inj (hcf (hexEncode_injective h))).symm
    unfold VerifySignature
    split
    · exact ⟨_, rfl⟩
    · refine ⟨SignatureError.BadSignature, ?_⟩
      have hsig2 := hsig
      unfold generateSignature at hsig2
      simp [generateSignature, hsig2]

/-- Witness of C4: a request signed at 1700000000 and verified 10 seconds later, with the
signature, the body, the nonce and the timestamp tampered in turn. -/
theorem tamper_detected_witness :
    VerifySignature toyHmac 1700000010 sampleKey 1700000000 "n1" "00" "body"
      = Except.error SignatureError.BadSignature ∧
    VerifySignature toyHmac 1700000010 sampleKey 1700000000 "n1"
      (generateSignature toyHmac 1700000000 "n1" "body" sampleKey.Secret) "bodz"
      = Except.error SignatureError.BadSignature ∧
    VerifySignature toyHmac 1700000010 sampleKey 1700000000 "n2"
      (generateSignature toyHmac 1700000000 "n1" "body" sampleKey.Secret) "body"
      = Except.error SignatureError.BadSignature ∧
    (∃ e, VerifySignature toyHmac 1700000010 sampleKey 1700000001 "n1"
      (generateSignature toyHmac 1700000000 "n1" "body" sampleKey.Secret) "body"
      = Except.error e) :=
  have h := tamper_detected toyHmac 1700000010 sampleKey 1700000000 "n1" "body"
    (toyHmac_injective sampleKey.Secret) (by decide) (by decide)
  ⟨h.1 "00" (by decide), h.2.1 "bodz" (by decide), h.2.2.1 "n2" (by decide),
    h.2.2.2 1700000001 (by decide)⟩

/-! ## Credential check -/

theorem GetAPIKey_some {db : List APIKey} {key : String} {k : APIKey}
    (h : GetAPIKey db key = some k) : k ∈ db ∧ k.Key = key := by
  unfold GetAPIKey at h
  exact ⟨List.mem_of_find?_eq_some h, by simpa using List.find?_some h⟩

theorem GetAPIKey_none (db : List APIKey) (key : String) :
    GetAPIKey db key = none ↔ ∀ k ∈ db, k.Key ≠ key := by
  unfold GetAPIKey
  simp [List.find?_eq_none]

theorem ipAllowedLoop_true (ip : String) (l : List String) :
    ipAllowedLoop ip l = true ↔ ∃ e ∈ l, TrimSpace e = ip := by
  induction l with
  | nil => simp [ipAllowedLoop]
  | cons a rest ih =>
    unfold ipAllowedLoop
    by_cases h : TrimSpace a = ip
    · simp [h]
    · simp [h, ih]

/-- The result of `VerifyAPIKey` once the stored row `a` of the key is known. -/
theorem VerifyAPIKey_of_some {db : List APIKey} {key : String} {a : APIKey} (ip : String)
    (hg : GetAPIKey db key = some a) :
    VerifyAPIKey db key ip =
      if a.Status ≠ "active" then Except.error APIKeyError.KeyDisabled
      else if a.AllowedIPs ≠ "" ∧ ipAllowedLoop ip (SplitComma a.AllowedIPs) = false then
        Except.error APIKeyError.IPNotAllowed
      else Except.ok a := by
  unfold VerifyAPIKey
  rw [hg]
  by_cases hs : a.Status = "active"
  · by_cases hi : a.AllowedIPs = ""
    · simp [hs, hi]
    · by_cases hl : ipAllowedLoop ip (SplitComma a.AllowedIPs) = true
      · simp [hs, hi, hl]
      · have hl2 : ipAllowedLoop ip (SplitComma a.AllowedIPs) = false := by simpa using hl
        simp [hs, hi, hl2]
  · simp [hs]

/-- When `VerifyAPIKey` returns a credential: it is the stored row of that key, it is active,
and its allow-list is empty or has an entry that, trimmed, equals the address. -/
theorem VerifyAPIKey_ok_iff (db : List APIKey) (key ip : String) (k : APIKey) :
    VerifyAPIKey db key ip = Except.ok k ↔
      GetAPIKey db key = some k ∧ k.Status = "active" ∧
        (k.AllowedIPs = "" ∨ ∃ e ∈ SplitComma k.AllowedIPs, TrimSpace e = ip) := by
  cases hg : GetAPIKey db key with
  | none => simp [VerifyAPIKey, hg]
  | some a =>
    rw [VerifyAPIKey_of_some ip hg, ← ipAllowedLoop_true]
    constructor
    · intro h
      split_ifs at h with h1 h2
      · have hak : a = k := by simpa using h
        subst hak
        refine ⟨rfl, by simpa using h1, ?_⟩
        by_cases hi : a.AllowedIPs = ""
        · exact Or.inl hi
        · right
          by_contra hl
          exact h2 ⟨hi, by simpa using hl⟩
    · rintro ⟨hak, hs, hip⟩
      have hak2 : a = k := by simpa using hak
      subst hak2
      rw [if_neg (by simp [hs])]
      rcases hip with hi | hl
      · simp [hi]
      · simp [hl]

/-- C6. Credential check classification and precedence. A request without `X-API-Key` is
aborted as missing key, and with the header present a failure of `VerifyAPIKey` is what the
middleware reports. `VerifyAPIKey key ip` fails with invalid-key iff no stored credential has
that key; otherwise, for the stored credential `k` of that key, it fails with key-disabled iff
`k.Status` is not `"active"`; otherwise with IP-not-allowed iff the allow-list is non-empty and
`ip` equals none of its comma-separated, white-space-trimmed entries; and in every other case it
returns `k`. -/
theorem credential_check_classification (hmac : HMAC) (db : List APIKey) (rl : RateLimiter)
    (nowRL nowSig : Int) (req : Request) (key ip : String) :
    (GetHeader req "X-API-Key" = "" →
      APIAuthMiddleware hmac db rl nowRL nowSig req = (Outcome.abort AuthError.MissingKey, rl)) ∧
    (GetHeader req "X-API-Key" ≠ "" →
      ∀ e, VerifyAPIKey db (GetHeader req "X-API-Key") req.remoteIp = Except.error e →
        APIAuthMiddleware hmac db rl nowRL nowSig req
          = (Outcome.abort (AuthError.KeyVerification e), rl)) ∧
    (VerifyAPIKey db key ip = Except.error APIKeyError.InvalidKey ↔ ∀ k ∈ db, k.Key ≠ key) ∧
    (∀ k, GetAPIKey db key = some k →
      k ∈ db ∧ k.Key = key ∧
      (VerifyAPIKey db key ip = Except.error APIKeyError.KeyDisabled ↔ k.Status ≠ "active") ∧
      (k.Status = "active" →
        (VerifyAPIKey db key ip = Except.error APIKeyError.IPNotAllowed ↔
          (k.AllowedIPs ≠ "" ∧ ∀ e ∈ SplitComma k.AllowedIPs, TrimSpace e ≠ ip)) ∧
        (¬ (k.AllowedIPs ≠ "" ∧ ∀ e ∈ SplitComma k.AllowedIPs, TrimSpace e ≠ ip) →
          VerifyAPIKey db key ip = Except.ok k))) := by
  refine ⟨?_, ?_, ?_, ?_⟩
  · intro h
    unfold APIAuthMiddleware
    simp [h]
  · intro h e he
    unfold APIAuthMiddleware
    simp [h, he]
  · rw [← GetAPIKey_none]
    cases hg : GetAPIKey db key with
    | none => simp [VerifyAPIKey, hg]
    | some a =>
      rw [VerifyAPIKey_of_some ip hg]
      simp only [reduceCtorEq, iff_false]
      split_ifs <;> simp
  · intro k hk
    obtain ⟨hmem, hkey⟩ := GetAPIKey_some hk
    have hloop : (∀ e ∈ SplitComma k.AllowedIPs, TrimSpace e ≠ ip) ↔
        ipAllowedLoop ip (SplitComma k.AllowedIPs) = false := by
      rw [← Bool.not_eq_true, ipAllowedLoop_true]
      simp
    rw [VerifyAPIKey_of_some ip hk, hloop]
    refine ⟨hmem, hkey, ?_, ?_⟩
    · split_ifs <;> simp_all
    · intro hs
      rw [if_neg (by simp [hs])]
      constructor
      · split_ifs with h <;> simp_all
      · intro h
        rw [if_neg h]

/-! ## The middleware decision -/

/-- The middleware passes a request on exactly when every check of its body succeeded. -/
theorem APIAuthMiddleware_next_iff (hmac : HMAC) (db : List APIKey) (rl : RateLimiter)
    (nowRL nowSig : Int) (req : Request) (keyInfo : APIKey) :
    (APIAuthMiddleware hmac db rl nowRL nowSig req).1 = Outcome.next keyInfo ↔
      GetHeader req "X-API-Key" ≠ "" ∧
      VerifyAPIKey db (GetHeader req "X-API-Key") req.remoteIp = Except.ok keyInfo ∧
      (CheckRateLimit rl nowRL (GetHeader req "X-API-Key") keyInfo.RateLimit).1 = true ∧
      GetHeader req "X-Timestamp" ≠ "" ∧ GetHeader req "X-Nonce" ≠ "" ∧
      GetHeader req "X-Signature" ≠ "" ∧
      ∃ timestamp body, Sscanf_d (GetHeader req "X-Timestamp") = some timestamp ∧
        req.body = some body ∧
        VerifySignature hmac nowSig keyInfo timestamp (GetHeader req "X-Nonce")
          (GetHeader req "X-Signature") body = Except.ok () := by
  unfold APIAuthMiddleware
  by_cases hk : GetHeader req "X-API-Key" = ""
  · simp [hk]
  · simp only [hk, if_false, ne_eq, not_false_eq_true, true_and]
    cases hv : VerifyAPIKey db (GetHeader req "X-API-Key") req.remoteIp with
    | error e => simp
    | ok k =>
      simp only [Except.ok.injEq]
      rcases hc : CheckRateLimit rl nowRL (GetHeader req "X-API-Key") k.RateLimit with ⟨b, rl1⟩
      cases b with
      | false =>
        simp only [reduceCtorEq, false_iff, not_and]
        intro hkk h
        subst hkk
        rw [hc] at h
        cases h
      | true =>
        simp only
        by_cases hp : GetHeader req "X-Timestamp" = "" ∨ GetHeader req "X-Nonce" = ""
            ∨ GetHeader req "X-Signature" = ""
        · rw [if_pos hp]
          simp only [reduceCtorEq, false_iff, not_and]
          intro _ _ h1 h2 h3
          rcases hp with h | h | h
          · exact absurd h h1
          · exact absurd h h2
          · exact absurd h h3
        · rw [if_neg hp]
          simp only [not_or] at hp
          obtain ⟨hp1, hp2, hp3⟩ := hp
          cases hs : Sscanf_d (GetHeader req "X-Timestamp") with
          | none => simp
          | some ts =>
            cases hb : req.body with
            | none => simp
            | some body =>
              simp only [Option.some.injEq, exists_eq_left', hp1, hp2, hp3, not_false_eq_true,
                true_and]
              cases hsig : VerifySignature hmac nowSig k ts (GetHeader req "X-Nonce")
                  (GetHeader req "X-Signature") body with
              | error e =>
                simp only [reduceCtorEq, false_iff, not_and]
                intro hkk _ h
                subst hkk
                obtain ⟨t2, b2, rfl, rfl, h⟩ := h
                rw [hsig] at h
                cases h
              | ok u =>
                simp only [Outcome.next.injEq]
                constructor
                · intro hkk
                  subst hkk
                  rw [hc]
                  exact ⟨rfl, rfl, ts, body, rfl, rfl, hsig⟩
                · intro h
                  exact h.1

/-- When `VerifySignature` returns no error: the clock test (in `int64` arithmetic) did not
fire and the signature is the one `generateSignature` computes with the credential's secret. -/
theorem VerifySignature_ok_iff (hmac : HMAC) (now : Int) (apiKey : APIKey) (timestamp : Int)
    (nonce signature body : String) :
    VerifySignature hmac now apiKey timestamp nonce signature body = Except.ok () ↔
      wrap64 (now - timestamp) ≤ 300 ∧ wrap64 (timestamp - now) ≤ 60 ∧
      signature = generateSignature hmac timestamp nonce body apiKey.Secret := by
  unfold VerifySignature generateSignature
  by_cases hc : wrap64 (now - timestamp) > 300 ∨ wrap64 (timestamp - now) > 60
  · rw [if_pos hc]
    simp only [reduceCtorEq, false_iff, not_and]
    intro h1 h2
    omega
  · rw [if_neg hc]
    have h1 : wrap64 (now - timestamp) ≤ 300 := by omega
    have h2 : wrap64 (timestamp - now) ≤ 60 := by omega
    by_cases hs : signature = hexEncode (hmac apiKey.Secret (signStr timestamp nonce body apiKey.Secret))
    · simp [hs, h1, h2]
    · simp [hs]

theorem VerifySignature_secret (hmac : HMAC) (now : Int) (k k2 : APIKey) (timestamp : Int)
    (nonce signature body : String) (h : k2.Secret = k.Secret) :
    VerifySignature hmac now k2 timestamp nonce signature body
      = VerifySignature hmac now k timestamp nonce signature body := by
  unfold VerifySignature
  rw [h]

theorem Sscanf_d_isInt64 {s : String} {x : Int} (h : Sscanf_d s = some x) : isInt64 x := by
  unfold Sscanf_d at h
  split at h
  · cases h
  · cases h
  · next c cs _ =>
    simp only at h
    split_ifs at h <;> (cases h; assumption)

/-- The clock test of `VerifySignature` admits exactly one timestamp outside the window:
for a clock reading `0 ≤ now ≤ 2^63 - 62` and an `int64` timestamp other than `now - 2^63`,
a passed test means `now - timestamp ≤ 300` and `timestamp - now ≤ 60`. -/
theorem window_test_exact (now timestamp : Int) (hnow : 0 ≤ now)
    (hnow2 : now ≤ 9223372036854775746) (hts : isInt64 timestamp)
    (hne : timestamp ≠ now - 9223372036854775808)
    (h1 : wrap64 (now - timestamp) ≤ 300) (h2 : wrap64 (timestamp - now) ≤ 60) :
    now - timestamp ≤ 300 ∧ timestamp - now ≤ 60 := by
  unfold isInt64 at hts
  unfold wrap64 at h1 h2
  omega

/-- AuthGate soundness up to the clock arithmetic. If the middleware hands a request to the
next handler with `keyInfo`, then `X-API-Key` is present and `keyInfo` is the stored row of
that key, it is active, its allow-list permits the address, the limiter admitted the request,
the three signature headers are present, the timestamp scans, the body was read, the
signature header is `generateSignature` of timestamp, nonce and the body as read under the
credential's secret, and the timestamp passed the `int64` clock test; the test is the
acceptance window for every timestamp but `nowSig - 2^63`. -/
theorem APIAuthMiddleware_next_sound (hmac : HMAC) (db : List APIKey) (rl : RateLimiter)
    (nowRL nowSig : Int) (req : Request) (keyInfo : APIKey)
    (h : (APIAuthMiddleware hmac db rl nowRL nowSig req).1 = Outcome.next keyInfo) :
    GetHeader req "X-API-Key" ≠ "" ∧
    GetAPIKey db (GetHeader req "X-API-Key") = some keyInfo ∧ keyInfo ∈ db ∧
    keyInfo.Key = GetHeader req "X-API-Key" ∧ keyInfo.Status = "active" ∧
    (keyInfo.AllowedIPs = "" ∨ ∃ e ∈ SplitComma keyInfo.AllowedIPs, TrimSpace e = req.remoteIp) ∧
    (CheckRateLimit rl nowRL (GetHeader req "X-API-Key") keyInfo.RateLimit).1 = true ∧
    GetHeader req "X-Timestamp" ≠ "" ∧ GetHeader req "X-Nonce" ≠ "" ∧
    GetHeader req "X-Signature" ≠ "" ∧
    ∃ timestamp body, Sscanf_d (GetHeader req "X-Timestamp") = some timestamp ∧
      req.body = some body ∧
      GetHeader req "X-Signature"
        = generateSignature hmac timestamp (GetHeader req "X-Nonce") body keyInfo.Secret ∧
      wrap64 (nowSig - timestamp) ≤ 300 ∧ wrap64 (timestamp - nowSig) ≤ 60 ∧
      (0 ≤ nowSig → nowSig ≤ 9223372036854775746 → timestamp ≠ nowSig - 9223372036854775808 →
        nowSig - timestamp ≤ 300 ∧ timestamp - nowSig ≤ 60) := by
  obtain ⟨hk, hv, hc, h1, h2, h3, ts, body, hs, hb, hsig⟩ :=
    (APIAuthMiddleware_next_iff hmac db rl nowRL nowSig req keyInfo).mp h
  obtain ⟨hg, hst, hip⟩ := (VerifyAPIKey_ok_iff db _ _ keyInfo).mp hv
  obtain ⟨hmem, hkey⟩ := GetAPIKey_some hg
  obtain ⟨hw1, hw2, hsg⟩ := (VerifySignature_ok_iff hmac nowSig keyInfo ts _ _ body).mp hsig
  refine ⟨hk, hg, hmem, hkey, hst, hip, hc, h1, h2, h3, ts, body, hs, hb, hsg, hw1, hw2, ?_⟩
  intro hn1 hn2 hne
  exact window_test_exact nowSig ts hn1 hn2 (Sscanf_d_isInt64 hs) hne hw1 hw2

set_option maxRecDepth 100000 in
/-- C5 (the code at the failing input). At clock reading 1700000000 the middleware hands
`overflowReq` to the next handler although its timestamp, which scans to
`-9223372035154775808`, lies 2^63 seconds before the clock reading, far outside the
acceptance window. -/
theorem APIAuthMiddleware_passes_overflowing_timestamp :
    (APIAuthMiddleware toyHmac [sampleKey] NewRateLimiter 1700000000 1700000000 overflowReq).1
      = Outcome.next sampleKey ∧
    Sscanf_d (GetHeader overflowReq "X-Timestamp") = some (-9223372035154775808) ∧
    ¬ ((1700000000 : Int) - (-9223372035154775808) ≤ 300) := by
  decide

/-! ## Replays -/

theorem GetAPIKey_UpdateAPIKeyLastUsed (db : List APIKey) (t : Int) (key : String) :
    GetAPIKey (UpdateAPIKeyLastUsed db t key) key
      = (GetAPIKey db key).map (fun k => { k with LastUsedAt := t }) := by
  induction db with
  | nil => rfl
  | cons a rest ih =>
    unfold GetAPIKey UpdateAPIKeyLastUsed at *
    by_cases h : a.Key = key
    · simp [List.find?_cons, h]
    · simp only [List.map_cons, h, if_false, List.find?_cons, decide_False]
      exact ih

/-- The asynchronous last-used update does not change what `VerifyAPIKey` decides: it returns
the same credential with the new `LastUsedAt`. -/
theorem VerifyAPIKey_UpdateAPIKeyLastUsed (db : List APIKey) (t : Int) (key ip : String)
    (k : APIKey) (h : VerifyAPIKey db key ip = Except.ok k) :
    VerifyAPIKey (UpdateAPIKeyLastUsed db t key) key ip
      = Except.ok { k with LastUsedAt := t } := by
  obtain ⟨hg, hs, hip⟩ := (VerifyAPIKey_ok_iff db key ip k).mp h
  apply (VerifyAPIKey_ok_iff _ key ip _).mpr
  refine ⟨?_, hs, hip⟩
  rw [GetAPIKey_UpdateAPIKeyLastUsed, hg]
  rfl

set_option maxRecDepth 100000 in
/-- C3 (counterexample). The request `replayReq` is accepted at clock reading 1700000005, and
the identical request (same credential, same nonce) presented one second later to the limiter
left by the first one is accepted again, whether or not the last-used update of the first
request has reached the credential table. -/
theorem replay_not_rejected :
    (APIAuthMiddleware toyHmac [sampleKey] NewRateLimiter 1700000005 1700000005 replayReq).1
      = Outcome.next sampleKey ∧
    (APIAuthMiddleware toyHmac [sampleKey]
      (APIAuthMiddleware toyHmac [sampleKey] NewRateLimiter 1700000005 1700000005 replayReq).2
      1700000006 1700000006 replayReq).1 = Outcome.next sampleKey ∧
    (APIAuthMiddleware toyHmac (UpdateAPIKeyLastUsed [sampleKey] 1700000005 "xui_k")
      (APIAuthMiddleware toyHmac [sampleKey] NewRateLimiter 1700000005 1700000005 replayReq).2
      1700000006 1700000006 replayReq).1
      = Outcome.next { sampleKey with LastUsedAt := 1700000005 } := by
  decide

/-- C3 (amended). The middleware keeps no record of nonces. If it accepted a request with
credential `keyInfo`, then the identical request presented again, to any limiter state `rl2`
that admits it and at any clock reading `nowSig2` for which the timestamp is still inside the
acceptance window, is accepted again; the credential table may meanwhile have received the
last-used update of the first request, and the credential handed on is `keyInfo` up to
`LastUsedAt`. -/
theorem replay_accepted_again (hmac : HMAC) (db db2 : List APIKey) (rl rl2 : RateLimiter)
    (nowRL nowSig nowRL2 nowSig2 : Int) (req : Request) (keyInfo : APIKey) (timestamp : Int)
    (hfirst : (APIAuthMiddleware hmac db rl nowRL nowSig req).1 = Outcome.next keyInfo)
    (hdb : db2 = db ∨ ∃ t, db2 = UpdateAPIKeyLastUsed db t (GetHeader req "X-API-Key"))
    (hts : Sscanf_d (GetHeader req "X-Timestamp") = some timestamp)
    (hpast : nowSig2 - timestamp ≤ 300) (hfuture : timestamp - nowSig2 ≤ 60)
    (hrate : (CheckRateLimit rl2 nowRL2 (GetHeader req "X-API-Key") keyInfo.RateLimit).1 = true) :
    ∃ k, (APIAuthMiddleware hmac db2 rl2 nowRL2 nowSig2 req).1 = Outcome.next k ∧
      (k = keyInfo ∨ ∃ t, k = { keyInfo with LastUsedAt := t }) := by
  obtain ⟨hk, hv, -, h1, h2, h3, ts, body, hs, hb, hsig⟩ :=
    (APIAuthMiddleware_next_iff hmac db rl nowRL nowSig req keyInfo).mp hfirst
  have hteq : ts = timestamp := by
    rw [hs] at hts
    exact Option.some.inj hts
  subst hteq
  obtain ⟨-, -, hsg⟩ := (VerifySignature_ok_iff hmac nowSig keyInfo ts _ _ body).mp hsig
  have hsig2 : VerifySignature hmac nowSig2 keyInfo ts (GetHeader req "X-Nonce")
      (GetHeader req "X-Signature") body = Except.ok () := by
    rw [hsg]
    rw [VerifySignature_in_window hmac nowSig2 keyInfo ts _ _ body hpast hfuture]
    simp
  rcases hdb with rfl | ⟨t, rfl⟩
  · refine ⟨keyInfo, ?_, Or.inl rfl⟩
    exact (APIAuthMiddleware_next_iff hmac db2 rl2 nowRL2 nowSig2 req keyInfo).mpr
      ⟨hk, hv, hrate, h1, h2, h3, ts, body, hs, hb, hsig2⟩
  · refine ⟨{ keyInfo with LastUsedAt := t }, ?_, Or.inr ⟨t, rfl⟩⟩
    apply (APIAuthMiddleware_next_iff hmac _ rl2 nowRL2 nowSig2 req _).mpr
    refine ⟨hk, VerifyAPIKey_UpdateAPIKeyLastUsed db t _ _ keyInfo hv, hrate, h1, h2, h3, ts,
      body, hs, hb, ?_⟩
    rw [VerifySignature_secret hmac nowSig2 keyInfo { keyInfo with LastUsedAt := t } ts _ _ body
      rfl]
    exact hsig2

set_option maxRecDepth 100000 in
/-- Witness of the amended C3: `replayReq`, accepted at 1700000005, is accepted again at
1700000006 by the limiter the first request left behind. -/
theorem replay_accepted_again_witness :
    ∃ k, (APIAuthMiddleware toyHmac [sampleKey]
      (APIAuthMiddleware toyHmac [sampleKey] NewRateLimiter 1700000005 1700000005 replayReq).2
      1700000006 1700000006 replayReq).1 = Outcome.next k ∧
      (k = sampleKey ∨ ∃ t, k = { sampleKey with LastUsedAt := t }) :=
  replay_accepted_again toyHmac [sampleKey] [sampleKey] NewRateLimiter
    (APIAuthMiddleware toyHmac [sampleKey] NewRateLimiter 1700000005 1700000005 replayReq).2
    1700000005 1700000005 1700000006 1700000006 replayReq sampleKey 1700000000
    (by decide) (Or.inl rfl) (by decide) (by decide) (by decide) (by decide)

/-! ## Rate limiter -/

/-- C7 (counterexample). Two calls at which the code departs from the rule as worded.
For a key without an entry and `limit = 0` no timestamp remains, `0 < 0` fails and the rule
rejects, yet the code returns `true`. For the window `[0]` at `now = 60` with `limit = 1` the
entry is 60 seconds old, not older than 60 seconds, so the rule keeps it and rejects, yet the
code drops it and returns `true`. -/
theorem CheckRateLimit_departs_from_rule :
    ((CheckRateLimit NewRateLimiter 100 "xui_k" 0).1 = true ∧
      (CheckRateLimit_spec [] 100 0).1 = false) ∧
    ((CheckRateLimit sampleLimiter 60 "xui_k" 1).1 = true ∧
      (CheckRateLimit_spec [0] 60 1).1 = false) := by
  decide

/-- C7 (amended). For every limiter state, key, limit and clock reading, `CheckRateLimit`
first drops the key's recorded timestamps `t` for which `now - t < 60` fails (`int64`
arithmetic, so a timestamp exactly 60 seconds old is dropped), then returns `true` iff the key
had no entry or the number of remaining timestamps is below the limit, which for `limit ≥ 1`
is: iff the number of remaining timestamps is below the limit. When it returns `true` the
key's window becomes the remaining timestamps followed by `now`; when it returns `false` it
becomes the remaining timestamps, nothing appended. Other keys are untouched. -/
theorem CheckRateLimit_rule (rl : RateLimiter) (now : Int) (key : String) (limit : Int) :
    ((CheckRateLimit rl now key limit).1 = true ↔
      (rl.requests key = none ∨ ((remainingWindow rl now key).length : Int) < limit)) ∧
    (1 ≤ limit → ((CheckRateLimit rl now key limit).1 = true ↔
      ((remainingWindow rl now key).length : Int) < limit)) ∧
    ((CheckRateLimit rl now key limit).1 = true →
      (CheckRateLimit rl now key limit).2.requests key
        = some (remainingWindow rl now key ++ [now])) ∧
    ((CheckRateLimit rl now key limit).1 = false →
      (CheckRateLimit rl now key limit).2.requests key = some (remainingWindow rl now key)) ∧
    (∀ k, k ≠ key → (CheckRateLimit rl now key limit).2.requests k = rl.requests k) := by
  unfold CheckRateLimit remainingWindow
  cases hw : rl.requests key with
  | none =>
    simp only [Option.getD_none, List.filter_nil, List.length_nil, RateLimiter.set]
    refine ⟨by simp, ?_, by simp, by simp, ?_⟩
    · intro h
      simp only [true_iff]
      exact_mod_cast h
    · intro k hk
      simp [hk]
  | some w =>
    simp only [Option.getD_some, RateLimiter.set]
    by_cases hc : ((w.filter (fun t => decide (wrap64 (now - t) < 60))).length : Int) ≥ limit
    · rw [if_pos hc]
      refine ⟨?_, ?_, by simp, by simp, ?_⟩
      · simp only [Bool.false_eq_true, reduceCtorEq, false_or, false_iff]
        omega
      · intro _
        simp only [Bool.false_eq_true, false_iff]
        omega
      · intro k hk
        simp [hk]
    · rw [if_neg hc]
      refine ⟨?_, ?_, by simp, by simp, ?_⟩
      · simp only [true_iff]
        right
        omega
      · intro _
        simp only [true_iff]
        omega
      · intro k hk
        simp [hk]

theorem wrap64_lt_60 (now t : Int) (h1 : now - t < 60) (h2 : t - now < 60) :
    wrap64 (now - t) < 60 := by
  rw [wrap64_eq_self _ (by omega) (by omega)]
  exact h1

theorem runCalls_cons (rl : RateLimiter) (key : String) (limit now : Int) (rest : List Int) :
    (runCalls rl key limit (now :: rest)).1
      = (CheckRateLimit rl now key limit).1
        :: (runCalls (CheckRateLimit rl now key limit).2 key limit rest).1 := rfl

/-- Filling a window: from a window `w` of a key, calls at clock readings that are less than
60 seconds from each other and from every entry of `w` are accepted until `N` entries are
recorded, and the next one is rejected. -/
theorem runCalls_fill (key : String) (N : Nat) (hN : 1 ≤ N) :
    ∀ (times : List Int) (rl : RateLimiter) (w : List Int),
      (rl.requests key = some w ∨ (rl.requests key = none ∧ w = [])) →
      (∀ t ∈ w, ∀ now ∈ times, now - t < 60 ∧ t - now < 60) →
      (∀ a ∈ times, ∀ b ∈ times, b - a < 60) →
      w.length + times.length = N + 1 → 1 ≤ times.length →
      (runCalls rl key N times).1 = List.replicate (times.length - 1) true ++ [false] := by
  intro times
  induction times with
  | nil => intro rl w _ _ _ _ h; simp at h
  | cons now rest ih =>
    intro rl w hw hwin hspan hlen _
    have hfilter : w.filter (fun t => decide (wrap64 (now - t) < 60)) = w := by
      rw [List.filter_eq_self]
      intro t ht
      have := hwin t ht now (List.mem_cons_self _ _)
      simpa using wrap64_lt_60 now t this.1 this.2
    cases rest with
    | nil =>
      simp only [List.length_cons, List.length_nil] at hlen
      have hwN : w.length = N := by omega
      have hwne : w ≠ [] := by
        intro h
        rw [h] at hwN
        simp at hwN
        omega
      have hsome : rl.requests key = some w := by
        rcases hw with h | ⟨_, h⟩
        · exact h
        · exact absurd h hwne
      have hres : (CheckRateLimit rl now key N).1 = false := by
        unfold CheckRateLimit
        rw [hsome]
        simp only [hfilter]
        rw [if_pos (by omega)]
      simp [runCalls, hres]
    | cons t2 rest2 =>
      simp only [List.length_cons] at hlen
      have hwlt : (w.length : Int) < N := by omega
      have hres : (CheckRateLimit rl now key N).1 = true ∧
          (CheckRateLimit rl now key N).2.requests key = some (w ++ [now]) := by
        unfold CheckRateLimit
        rcases hw with h | ⟨h, hnil⟩
        · rw [h]
          simp only [hfilter]
          rw [if_neg (by omega)]
          simp [RateLimiter.set]
        · rw [h, hnil]
          simp [RateLimiter.set]
      have hwin2 : ∀ t ∈ w ++ [now], ∀ n2 ∈ t2 :: rest2, n2 - t < 60 ∧ t - n2 < 60 := by
        intro t ht n2 hn2
        rcases List.mem_append.mp ht with h | h
        · exact hwin t h n2 (List.mem_cons_of_mem _ hn2)
        · have htn : t = now := by simpa using h
          subst htn
          exact ⟨hspan t (List.mem_cons_self _ _) n2 (List.mem_cons_of_mem _ hn2),
            hspan n2 (List.mem_cons_of_mem _ hn2) t (List.mem_cons_self _ _)⟩
      have hspan2 : ∀ a ∈ t2 :: rest2, ∀ b ∈ t2 :: rest2, b - a < 60 := by
        intro a ha b hb
        exact hspan a (List.mem_cons_of_mem _ ha) b (List.mem_cons_of_mem _ hb)
      have ih2 := ih (CheckRateLimit rl now key N).2 (w ++ [now]) (Or.inl hres.2) hwin2 hspan2
        (by simp only [List.length_append, List.length_cons, List.length_nil]; omega)
        (by simp)
      rw [runCalls_cons, hres.1, ih2]
      simp [List.replicate_succ]

/-- C8. Rate-limit ceiling: for every limit `N ≥ 1` and every key with no recorded requests
(no entry, or an empty window), `N + 1` calls `CheckRateLimit(key, N)` at non-decreasing clock
readings that all lie less than 60 seconds from each other return `true` `N` times and then
`false`. -/
theorem rate_limit_ceiling (rl : RateLimiter) (key : String) (N : Nat) (times : List Int)
    (hN : 1 ≤ N) (hempty : rl.requests key = none ∨ rl.requests key = some [])
    (hlen : times.length = N + 1) (hmono : times.Pairwise (fun a b => a ≤ b))
    (hspan : ∀ a ∈ times, ∀ b ∈ times, b - a < 60) :
    (runCalls rl key N times).1 = List.replicate N true ++ [false] := by
  have _ := hmono
  have h := runCalls_fill key N hN times rl []
    (by rcases hempty with h | h
        · exact Or.inr ⟨h, rfl⟩
        · exact Or.inl h)
    (by intro t ht; simp at ht) hspan (by simp [hlen]) (by omega)
  rw [h, hlen]
  rfl

/-- Witness of C8: limit 2 and three calls at 1700000000, 1700000010, 1700000059. -/
theorem rate_limit_ceiling_witness :
    (runCalls NewRateLimiter "xui_k" (2 : Nat) [1700000000, 1700000010, 1700000059]).1
      = [true, true, false] :=
  rate_limit_ceiling NewRateLimiter "xui_k" 2 [1700000000, 1700000010, 1700000059]
    (by decide) (Or.inl rfl) rfl (by decide) (by decide)

/-- C9. Rate-limit recovery: for every limit `N ≥ 1`, when the window of a key holds the
clock readings of `N` accepted calls (at most `N` entries), a call `CheckRateLimit(key, N)`
made 60 seconds or more after the oldest of them returns `true`. Clock readings are `int64`
values whose difference does not overflow, as all readings of a clock after 1970 are. -/
theorem rate_limit_recovery (rl : RateLimiter) (key : String) (N : Nat) (w : List Int)
    (oldest now : Int) (hN : 1 ≤ N) (hw : rl.requests key = some w) (hlen : w.length ≤ N)
    (hold : oldest ∈ w) (hage : 60 ≤ now - oldest)
    (hfit : now - oldest ≤ 9223372036854775807) :
    (CheckRateLimit rl now key N).1 = true := by
  have _ := hN
  have hdrop : (w.filter (fun t => decide (wrap64 (now - t) < 60))).length < w.length := by
    rw [List.length_filter_lt_length_iff_exists]
    refine ⟨oldest, hold, ?_⟩
    rw [wrap64_eq_self _ (by omega) hfit]
    simp only [decide_eq_true_eq]
    omega
  unfold CheckRateLimit
  rw [hw]
  simp only
  rw [if_neg (by omega)]

/-- Witness of C9: limit 2, a window filled at 1700000000 and 1700000030, and a call at
1700000060. -/
theorem rate_limit_recovery_witness :
    (CheckRateLimit (NewRateLimiter.set "xui_k" [1700000000, 1700000030]) 1700000060
      "xui_k" (2 : Nat)).1 = true :=
  rate_limit_recovery (NewRateLimiter.set "xui_k" [1700000000, 1700000030]) "xui_k" 2
    [1700000000, 1700000030] 1700000000 1700000060 (by decide) rfl (by decide) (by decide)
    (by decide) (by decide)

/-! ## Order verification -/

theorem GetOrderByOrderId_none (db : List Order) (orderId : String) :
    GetOrderByOrderId db orderId = none ↔ ∀ o ∈ db, o.OrderId ≠ orderId := by
  unfold GetOrderByOrderId
  simp [List.find?_eq_none]

theorem GetOrderByOrderId_some {db : List Order} {orderId : String} {o : Order}
    (h : GetOrderByOrderId db orderId = some o) : o ∈ db ∧ o.OrderId = orderId := by
  unfold GetOrderByOrderId at h
  exact ⟨List.mem_of_find?_eq_some h, by simpa using List.find?_some h⟩

theorem UpdateOrderStatus_expired (db : List Order) (now : Int) (orderId : String) :
    UpdateOrderStatus db now orderId "expired"
      = db.map (fun o => if o.OrderId = orderId then { o with Status := "expired" } else o) := by
  unfold UpdateOrderStatus
  have h1 : ¬ ("expired" = "paid") := by decide
  have h2 : ¬ ("expired" = "used") := by decide
  simp only [h1, h2, if_false]

/-- C10. `VerifyOrder` classification at a clock reading `nowUnix` (seconds, with
`nowUnix * 1000` inside `int64`). It fails with not-found iff no order has the id (nothing
changes). Otherwise, for the stored order `o` of that id: already-used if its status is
`"used"`; otherwise expired if its status is `"expired"`; otherwise not-paid if its status is
not `"paid"`; all three change nothing. Otherwise, if `o.ExpiresAt > 0` and
`o.ExpiresAt < nowUnix * 1000`, it fails with expired and the table afterwards is the old one
with the status of the rows of that id set to `"expired"` and nothing else changed. In every
remaining case it returns `o` and the table is unchanged. -/
theorem VerifyOrder_classification (db : List Order) (nowUnix : Int) (orderId : String)
    (hclock : 0 ≤ nowUnix ∧ nowUnix * 1000 ≤ 9223372036854775807) :
    ((∀ o ∈ db, o.OrderId ≠ orderId) ↔
      VerifyOrder db nowUnix orderId = (Except.error OrderError.NotFound, db)) ∧
    (∀ o, GetOrderByOrderId db orderId = some o →
      o ∈ db ∧ o.OrderId = orderId ∧
      (o.Status = "used" →
        VerifyOrder db nowUnix orderId = (Except.error OrderError.AlreadyUsed, db)) ∧
      (o.Status ≠ "used" → o.Status = "expired" →
        VerifyOrder db nowUnix orderId = (Except.error OrderError.Expired, db)) ∧
      (o.Status ≠ "used" → o.Status ≠ "expired" → o.Status ≠ "paid" →
        VerifyOrder db nowUnix orderId = (Except.error OrderError.NotPaid, db)) ∧
      (o.Status = "paid" → o.ExpiresAt > 0 ∧ o.ExpiresAt < nowUnix * 1000 →
        VerifyOrder db nowUnix orderId
          = (Except.error OrderError.Expired,
              db.map (fun r =>
                if r.OrderId = orderId then { r with Status := "expired" } else r))) ∧
      (o.Status = "paid" → ¬ (o.ExpiresAt > 0 ∧ o.ExpiresAt < nowUnix * 1000) →
        VerifyOrder db nowUnix orderId = (Except.ok o, db))) := by
  have hwrap : wrap64 (nowUnix * 1000) = nowUnix * 1000 :=
    wrap64_eq_self _ (by omega) hclock.2
  have hpu : ¬ ("paid" = "used") := by decide
  have hpe : ¬ ("paid" = "expired") := by decide
  refine ⟨?_, ?_⟩
  · rw [← GetOrderByOrderId_none]
    unfold VerifyOrder
    cases hg : GetOrderByOrderId db orderId with
    | none => simp
    | some o =>
      simp only [reduceCtorEq, false_iff]
      split_ifs <;> simp
  · intro o hg
    obtain ⟨hmem, hid⟩ := GetOrderByOrderId_some hg
    refine ⟨hmem, hid, ?_, ?_, ?_, ?_, ?_⟩
    · intro h
      unfold VerifyOrder
      rw [hg]
      simp [h]
    · intro h1 h2
      unfold VerifyOrder
      rw [hg]
      simp [h1, h2]
    · intro h1 h2 h3
      unfold VerifyOrder
      rw [hg]
      simp [h1, h2, h3]
    · intro h hexp
      unfold VerifyOrder
      rw [hg]
      simp only [h, hpu, hpe, hwrap, if_false, ne_eq, not_true_eq_false, if_pos hexp,
        UpdateOrderStatus_expired]
    · intro h hexp
      unfold VerifyOrder
      rw [hg]
      simp only [h, hpu, hpe, hwrap, if_false, ne_eq, not_true_eq_false, if_neg hexp]

set_option maxRecDepth 100000 in
/-- Witness of C10: the paid `sampleOrder`, which expires at epoch millisecond 1700000000000,
verified one second after that: the result is the expiry error and the stored status becomes
`"expired"`. -/
theorem VerifyOrder_classification_witness :
    VerifyOrder [sampleOrder] 1700000001 "O1"
      = (Except.error OrderError.Expired, [{ sampleOrder with Status := "expired" }]) :=
  ((VerifyOrder_classification [sampleOrder] 1700000001 "O1" (by decide)).2 sampleOrder
    (by decide)).2.2.2.2.2.1 (by decide) (by decide)

/-! ## Provisioning: `CreateInbound` -/

/-- When `VerifyOrder` returns an order, it wrote nothing and the order is the stored row of
that id, with status `"paid"`. -/
theorem VerifyOrder_ok {db db2 : List Order} {nowUnix : Int} {orderId : String} {o : Order}
    (h : VerifyOrder db nowUnix orderId = (Except.ok o, db2)) :
    db2 = db ∧ GetOrderByOrderId db orderId = some o ∧ o.Status = "paid" := by
  unfold VerifyOrder at h
  cases hg : GetOrderByOrderId db orderId with
  | none => rw [hg] at h; simp at h
  | some a =>
    rw [hg] at h
    simp only at h
    split_ifs at h with h1 h2 h3 h4
    · simp at h
    · simp at h
    · simp at h
    · simp at h
    · simp only [Prod.mk.injEq, Except.ok.injEq] at h
      obtain ⟨rfl, rfl⟩ := h
      exact ⟨rfl, rfl, by simpa using h3⟩

/-- A stored order with status `"used"` makes `VerifyOrder` fail with already-used. -/
theorem VerifyOrder_used {db : List Order} {orderId : String} {o : Order} (nowUnix : Int)
    (hg : GetOrderByOrderId db orderId = some o) (hs : o.Status = "used") :
    VerifyOrder db nowUnix orderId = (Except.error OrderError.AlreadyUsed, db) := by
  unfold VerifyOrder
  rw [hg]
  simp [hs]

/-- The table `VerifyOrder` leaves behind: the old one, or the old one with the rows of that
id set to `"expired"`. -/
theorem VerifyOrder_table (db : List Order) (nowUnix : Int) (orderId : String) :
    (VerifyOrder db nowUnix orderId).2 = db ∨
      (VerifyOrder db nowUnix orderId).2 = UpdateOrderStatus db nowUnix orderId "expired" := by
  unfold VerifyOrder
  cases GetOrderByOrderId db orderId with
  | none => exact Or.inl rfl
  | some a =>
    simp only
    split_ifs
    · exact Or.inl rfl
    · exact Or.inl rfl
    · exact Or.inl rfl
    · exact Or.inr rfl
    · exact Or.inl rfl

/-- The reply of `CreateInbound` when `VerifyOrder` fails. -/
theorem CreateInbound_of_verify_error (faults : Faults) (rnd : List Byte) (seq : String)
    (nowVerify nowMark : Int) (orders orders1 : List Order) (inbounds : List Inbound)
    (req : CreateInboundRequest) (e : OrderError)
    (hv : VerifyOrder orders nowVerify req.OrderId = (Except.error e, orders1)) :
    CreateInbound faults rnd seq nowVerify nowMark orders inbounds (Except.ok req)
      = (CreateInboundReply.fail (CreateInboundError.OrderVerification e), orders1, inbounds) := by
  unfold CreateInbound
  simp only [hv]

/-- The run of `CreateInbound` once `VerifyOrder` returned an order: the user check, then
(the order being paid, the branch for a used order is not taken) the protocol check, the port
handling and the persisting steps. -/
theorem CreateInbound_of_verified (faults : Faults) (rnd : List Byte) (seq : String)
    (nowVerify nowMark : Int) (orders orders1 : List Order) (inbounds : List Inbound)
    (req : CreateInboundRequest) (order : Order)
    (hv : VerifyOrder orders nowVerify req.OrderId = (Except.ok order, orders1)) :
    CreateInbound faults rnd seq nowVerify nowMark orders inbounds (Except.ok req)
      = if order.UserId ≠ req.UserId then
          (CreateInboundReply.fail CreateInboundError.UserMismatch, orders, inbounds)
        else if validProtocols req.Protocol = false then
          (CreateInboundReply.fail CreateInboundError.UnsupportedProtocol, orders, inbounds)
        else
          match choosePort faults inbounds req with
          | Except.error e => (CreateInboundReply.fail e, orders, inbounds)
          | Except.ok port =>
            persistAndMark faults nowMark orders inbounds req (buildInbound rnd seq req port) := by
  obtain ⟨rfl, -, hpaid⟩ := VerifyOrder_ok hv
  have hnu : ¬ (order.Status = "used" ∧ order.InboundId > 0) := by
    rw [hpaid]
    intro h
    exact absurd h.1 (by decide)
  unfold CreateInbound
  simp only [hv, if_neg hnu]

/-- When `AddInbound` succeeds: no fault, the stored row is the inbound under a fresh key, it
is appended to the table, and no row of the table had its port or its tag. -/
theorem AddInbound_ok {fault : Bool} {inbounds inbounds1 : List Inbound}
    {inbound stored : Inbound}
    (h : AddInbound fault inbounds inbound = Except.ok (stored, inbounds1)) :
    fault = false ∧ stored = { inbound with Id := nextId (inbounds.map (fun i => i.Id)) } ∧
      inbounds1 = inbounds ++ [stored] ∧ (∀ i ∈ inbounds, i.Port ≠ inbound.Port) ∧
      (∀ i ∈ inbounds, i.Tag ≠ inbound.Tag) := by
  unfold AddInbound at h
  split_ifs at h with h1 h2 h3
  · simp only [Except.ok.injEq, Prod.mk.injEq] at h
    obtain ⟨rfl, rfl⟩ := h
    refine ⟨by simpa using h1, rfl, rfl, ?_, ?_⟩
    · intro i hi hp
      exact h2 (List.any_eq_true.mpr ⟨i, hi, by simpa using hp⟩)
    · intro i hi ht
      exact h3 (List.any_eq_true.mpr ⟨i, hi, by simpa using ht⟩)

/-- When `GetInbound` succeeds, the inbound is a row of the table with the requested key. -/
theorem GetInbound_ok {fault : Bool} {inbounds : List Inbound} {id : Int} {x : Inbound}
    (h : GetInbound fault inbounds id = Except.ok x) : x ∈ inbounds ∧ x.Id = id := by
  unfold GetInbound at h
  split_ifs at h
  cases hf : inbounds.find? (fun i => decide (i.Id = id)) with
  | none => rw [hf] at h; cases h
  | some y =>
    rw [hf] at h
    simp only [Except.ok.injEq] at h
    subst h
    exact ⟨List.mem_of_find?_eq_some hf, by simpa using List.find?_some hf⟩

/-- The tables after steps 7 to 11: nothing changed and the reply is the persist failure, or
one row was appended by `AddInbound` and the order table is what `MarkOrderAsUsed` made of it
(unchanged when that update failed). -/
theorem persistAndMark_tables (faults : Faults) (nowMark : Int) (orders : List Order)
    (inbounds : List Inbound) (req : CreateInboundRequest) (inbound : Inbound) :
    (∃ e, AddInbound faults.addInbound inbounds inbound = Except.error e ∧
      persistAndMark faults nowMark orders inbounds req inbound
        = (CreateInboundReply.fail (CreateInboundError.AddInboundFailed e), orders, inbounds)) ∨
    (∃ stored, AddInbound faults.addInbound inbounds inbound
        = Except.ok (stored, inbounds ++ [stored]) ∧
      (persistAndMark faults nowMark orders inbounds req inbound).2.2 = inbounds ++ [stored] ∧
      (persistAndMark faults nowMark orders inbounds req inbound).2.1
        = (if faults.markOrderAsUsed then orders
            else MarkOrderAsUsed orders nowMark req.OrderId stored.Id) ∧
      ∀ created, (persistAndMark faults nowMark orders inbounds req inbound).1
        = CreateInboundReply.success created → created.Id = stored.Id) := by
  unfold persistAndMark
  cases ha : AddInbound faults.addInbound inbounds inbound with
  | error e => exact Or.inl ⟨e, rfl, rfl⟩
  | ok r =>
    obtain ⟨stored, inbounds1⟩ := r
    obtain ⟨-, -, rfl, -, -⟩ := AddInbound_ok ha
    right
    refine ⟨stored, rfl, ?_, ?_, ?_⟩
    · simp only
      cases GetInbound faults.getInbound (inbounds ++ [stored]) stored.Id <;> rfl
    · simp only
      cases GetInbound faults.getInbound (inbounds ++ [stored]) stored.Id <;> rfl
    · intro created hc
      simp only at hc
      cases hg : GetInbound faults.getInbound (inbounds ++ [stored]) stored.Id with
      | error e => rw [hg] at hc; cases hc
      | ok x =>
        rw [hg] at hc
        simp only [CreateInboundReply.success.injEq] at hc
        subst hc
        exact (GetInbound_ok hg).2

theorem GetOrderByOrderId_MarkOrderAsUsed {db : List Order} {orderId : String} {o : Order}
    (now inboundId : Int) (h : GetOrderByOrderId db orderId = some o) :
    GetOrderByOrderId (MarkOrderAsUsed db now orderId inboundId) orderId
      = some { o with Status := "used", InboundId := inboundId, UsedAt := wrap64 (now * 1000) } := by
  induction db with
  | nil => simp [GetOrderByOrderId] at h
  | cons a rest ih =>
    unfold GetOrderByOrderId MarkOrderAsUsed at *
    by_cases ha : a.OrderId = orderId
    · simp only [List.find?_cons, ha, decide_True, Option.some.injEq] at h
      subst h
      simp [List.find?_cons, ha]
    · simp only [List.find?_cons, ha, decide_False] at h
      simp only [List.map_cons, ha, if_false, List.find?_cons, decide_False]
      exact ih h

/-- The tables and the reply of `CreateInbound`, whatever the input: the inbound table is
unchanged, or `VerifyOrder` returned a paid order, exactly one row `stored` was appended whose
port and tag no earlier row had, the order table is what `MarkOrderAsUsed` made of it
(unchanged if that update failed), and a success reply carries an inbound of key `stored.Id`. -/
theorem CreateInbound_tables (faults : Faults) (rnd : List Byte) (seq : String)
    (nowVerify nowMark : Int) (orders : List Order) (inbounds : List Inbound)
    (bind : Except String CreateInboundRequest) :
    ((CreateInbound faults rnd seq nowVerify nowMark orders inbounds bind).2.2 = inbounds ∧
      (∃ e, (CreateInbound faults rnd seq nowVerify nowMark orders inbounds bind).1
        = CreateInboundReply.fail e) ∧
      ((CreateInbound faults rnd seq nowVerify nowMark orders inbounds bind).2.1 = orders ∨
        ∃ req, bind = Except.ok req ∧
          (CreateInbound faults rnd seq nowVerify nowMark orders inbounds bind).2.1
            = UpdateOrderStatus orders nowVerify req.OrderId "expired")) ∨
    (∃ req order stored, bind = Except.ok req ∧
      GetOrderByOrderId orders req.OrderId = some order ∧ order.Status = "paid" ∧
      order.UserId = req.UserId ∧
      (CreateInbound faults rnd seq nowVerify nowMark orders inbounds bind).2.2
        = inbounds ++ [stored] ∧
      (∀ i ∈ inbounds, i.Port ≠ stored.Port) ∧ (∀ i ∈ inbounds, i.Tag ≠ stored.Tag) ∧
      (CreateInbound faults rnd seq nowVerify nowMark orders inbounds bind).2.1
        = (if faults.markOrderAsUsed then orders
            else MarkOrderAsUsed orders nowMark req.OrderId stored.Id) ∧
      ∀ created, (CreateInbound faults rnd seq nowVerify nowMark orders inbounds bind).1
        = CreateInboundReply.success created → created.Id = stored.Id) := by
  cases bind with
  | error e => exact Or.inl ⟨rfl, ⟨_, rfl⟩, Or.inl rfl⟩
  | ok req =>
    rcases hv : VerifyOrder orders nowVerify req.OrderId with ⟨r, orders1⟩
    cases r with
    | error e =>
      rw [CreateInbound_of_verify_error faults rnd seq nowVerify nowMark orders orders1 inbounds
        req e hv]
      refine Or.inl ⟨rfl, ⟨_, rfl⟩, ?_⟩
      have ht := VerifyOrder_table orders nowVerify req.OrderId
      rw [hv] at ht
      rcases ht with h | h
      · exact Or.inl h
      · exact Or.inr ⟨req, rfl, h⟩
    | ok order =>
      rw [CreateInbound_of_verified faults rnd seq nowVerify nowMark orders orders1 inbounds
        req order hv]
      obtain ⟨-, hg, hpaid⟩ := VerifyOrder_ok hv
      by_cases hu : order.UserId ≠ req.UserId
      · rw [if_pos hu]
        exact Or.inl ⟨rfl, ⟨_, rfl⟩, Or.inl rfl⟩
      · rw [if_neg hu]
        by_cases hp : validProtocols req.Protocol = false
        · rw [if_pos hp]
          exact Or.inl ⟨rfl, ⟨_, rfl⟩, Or.inl rfl⟩
        · rw [if_neg hp]
          cases hc : choosePort faults inbounds req with
          | error e => exact Or.inl ⟨rfl, ⟨_, rfl⟩, Or.inl rfl⟩
          | ok port =>
            simp only
            rcases persistAndMark_tables faults nowMark orders inbounds req
              (buildInbound rnd seq req port) with ⟨e, -, h⟩ | ⟨stored, ha, h1, h2, h3⟩
            · rw [h]
              exact Or.inl ⟨rfl, ⟨_, rfl⟩, Or.inl rfl⟩
            · obtain ⟨-, hst, -, hport, htag⟩ := AddInbound_ok ha
              refine Or.inr ⟨req, order, stored, rfl, hg, hpaid, by simpa using hu, h1, ?_, ?_,
                h2, h3⟩
              · intro i hi
                rw [hst]
                exact hport i hi
              · intro i hi
                rw [hst]
                exact htag i hi

/-- The reply of `CreateInbound` for an order whose stored status is `"used"`: the
verification failure already-used, whatever the inbound id of the order; both tables are
unchanged. -/
theorem CreateInbound_of_used (faults : Faults) (rnd : List Byte) (seq : String)
    (nowVerify nowMark : Int) (orders : List Order) (inbounds : List Inbound)
    (req : CreateInboundRequest) (order : Order)
    (hg : GetOrderByOrderId orders req.OrderId = some order) (hs : order.Status = "used") :
    CreateInbound faults rnd seq nowVerify nowMark orders inbounds (Except.ok req)
      = (CreateInboundReply.fail (CreateInboundError.OrderVerification OrderError.AlreadyUsed),
          orders, inbounds) :=
  CreateInbound_of_verify_error faults rnd seq nowVerify nowMark orders orders inbounds req _
    (VerifyOrder_used nowVerify hg hs)

set_option maxRecDepth 100000 in
/-- C11 (the code at the failing input). The order `usedOrder` of user `U1` has status
`"used"` and inbound id 5, and the inbound of id 5 is stored; `CreateInbound` invoked again
for it by `U1` replies with the verification failure already-used instead of that inbound. It
creates no inbound and changes no order. -/
theorem CreateInbound_retry_rejected :
    usedOrder.Status = "used" ∧ usedOrder.InboundId > 0 ∧ usedOrder.UserId = sampleRequest.UserId ∧
    GetInbound false [sampleInbound] usedOrder.InboundId = Except.ok sampleInbound ∧
    CreateInbound noFaults [] "pw" 1699999999 1699999999 [usedOrder] [sampleInbound]
        (Except.ok sampleRequest)
      = (CreateInboundReply.fail (CreateInboundError.OrderVerification OrderError.AlreadyUsed),
          [usedOrder], [sampleInbound]) := by
  decide

set_option maxRecDepth 100000 in
/-- C12 (counterexample). With the update of `MarkOrderAsUsed` failing, `CreateInbound` for
the paid `sampleOrder` stores an inbound of id 1 and reports success with it, while the order
table is unchanged: the order is still `"paid"` with inbound id 0. -/
theorem success_without_consumption :
    (CreateInbound markFault [] "pw" 1699999999 1699999999 [sampleOrder] []
        (Except.ok sampleRequest)).1
      = CreateInboundReply.success { buildInbound [] "pw" sampleRequest 10000 with Id := 1 } ∧
    (CreateInbound markFault [] "pw" 1699999999 1699999999 [sampleOrder] []
        (Except.ok sampleRequest)).2.1 = [sampleOrder] ∧
    sampleOrder.Status = "paid" ∧ sampleOrder.InboundId = 0 := by
  decide

/-- The reply and the inbound table of `CreateInbound` do not depend on whether the update of
`MarkOrderAsUsed` fails. -/
theorem CreateInbound_mark_fault (faults : Faults) (b : Bool) (rnd : List Byte) (seq : String)
    (nowVerify nowMark : Int) (orders : List Order) (inbounds : List Inbound)
    (bind : Except String CreateInboundRequest) :
    (CreateInbound { faults with markOrderAsUsed := b } rnd seq nowVerify nowMark orders inbounds
        bind).1
      = (CreateInbound faults rnd seq nowVerify nowMark orders inbounds bind).1 ∧
    (CreateInbound { faults with markOrderAsUsed := b } rnd seq nowVerify nowMark orders inbounds
        bind).2.2
      = (CreateInbound faults rnd seq nowVerify nowMark orders inbounds bind).2.2 := by
  cases bind with
  | error e => exact ⟨rfl, rfl⟩
  | ok req =>
    rcases hv : VerifyOrder orders nowVerify req.OrderId with ⟨r, orders1⟩
    cases r with
    | error e =>
      rw [CreateInbound_of_verify_error _ rnd seq nowVerify nowMark orders orders1 inbounds
        req e hv, CreateInbound_of_verify_error _ rnd seq nowVerify nowMark orders orders1
        inbounds req e hv]
      exact ⟨rfl, rfl⟩
    | ok order =>
      rw [CreateInbound_of_verified _ rnd seq nowVerify nowMark orders orders1 inbounds
        req order hv, CreateInbound_of_verified _ rnd seq nowVerify nowMark orders orders1
        inbounds req order hv]
      have hcp : choosePort { faults with markOrderAsUsed := b } inbounds req
          = choosePort faults inbounds req := rfl
      rw [hcp]
      split_ifs
      · exact ⟨rfl, rfl⟩
      · exact ⟨rfl, rfl⟩
      · cases choosePort faults inbounds req with
        | error e => exact ⟨rfl, rfl⟩
        | ok port =>
          simp only
          unfold persistAndMark
          simp only
          cases AddInbound faults.addInbound inbounds (buildInbound rnd seq req port) with
          | error e => exact ⟨rfl, rfl⟩
          | ok r =>
            simp only
            cases GetInbound faults.getInbound r.2 r.1.Id <;> exact ⟨rfl, rfl⟩

/-- C12 (amended). Whenever `CreateInbound` reports success for a request: if the update of
`MarkOrderAsUsed` did not fail, the order named by the request afterwards has status `"used"`
and its inbound id is the id of the inbound in the reply; if that update failed, the order
table is unchanged and the order is still `"paid"`. Whether that update fails changes neither
the reply nor the inbound table: success is reported exactly when it is without the failure. -/
theorem success_implies_consumption (faults : Faults) (rnd : List Byte) (seq : String)
    (nowVerify nowMark : Int) (orders : List Order) (inbounds : List Inbound)
    (req : CreateInboundRequest) :
    (∀ created,
      (CreateInbound faults rnd seq nowVerify nowMark orders inbounds (Except.ok req)).1
        = CreateInboundReply.success created →
      (faults.markOrderAsUsed = false →
        ∃ o, GetOrderByOrderId
            (CreateInbound faults rnd seq nowVerify nowMark orders inbounds (Except.ok req)).2.1
            req.OrderId = some o ∧ o.Status = "used" ∧ o.InboundId = created.Id) ∧
      (faults.markOrderAsUsed = true →
        (CreateInbound faults rnd seq nowVerify nowMark orders inbounds (Except.ok req)).2.1
          = orders ∧
        ∃ o, GetOrderByOrderId orders req.OrderId = some o ∧ o.Status = "paid")) ∧
    (∀ b : Bool,
      (CreateInbound { faults with markOrderAsUsed := b } rnd seq nowVerify nowMark orders
          inbounds (Except.ok req)).1
        = (CreateInbound faults rnd seq nowVerify nowMark orders inbounds (Except.ok req)).1 ∧
      (CreateInbound { faults with markOrderAsUsed := b } rnd seq nowVerify nowMark orders
          inbounds (Except.ok req)).2.2
        = (CreateInbound faults rnd seq nowVerify nowMark orders inbounds (Except.ok req)).2.2) := by
  refine ⟨?_, fun b => CreateInbound_mark_fault faults b rnd seq nowVerify nowMark orders
    inbounds (Except.ok req)⟩
  intro created h
  rcases CreateInbound_tables faults rnd seq nowVerify nowMark orders inbounds (Except.ok req)
    with ⟨-, ⟨e, he⟩, -⟩ | ⟨req2, order, stored, hb, hg, hpaid, -, -, -, -, ho, hid⟩
  · rw [he] at h
    cases h
  · have hreq : req2 = req := by
      simp only [Except.ok.injEq] at hb
      exact hb.symm
    subst hreq
    constructor
    · intro hmark
      rw [ho, hmark]
      simp only [Bool.false_eq_true, if_false]
      rw [GetOrderByOrderId_MarkOrderAsUsed nowMark stored.Id hg]
      exact ⟨_, rfl, rfl, (hid created h).symm⟩
    · intro hmark
      rw [ho, hmark, if_pos rfl]
      exact ⟨rfl, order, hg, hpaid⟩

set_option maxRecDepth 100000 in
/-- Witness of the amended C12, for the paid `sampleOrder`. Without faults `CreateInbound`
succeeds and afterwards the order is used with the id of the inbound in the reply. With the
update of `MarkOrderAsUsed` failing it succeeds with the same reply, the order table is
unchanged and the order is still paid. -/
theorem success_implies_consumption_witness :
    (∃ o, GetOrderByOrderId
        (CreateInbound noFaults [] "pw" 1699999999 1699999999 [sampleOrder] []
          (Except.ok sampleRequest)).2.1
        sampleRequest.OrderId = some o ∧ o.Status = "used" ∧
      o.InboundId = ({ buildInbound [] "pw" sampleRequest 10000 with Id := 1 } : Inbound).Id) ∧
    ((CreateInbound markFault [] "pw" 1699999999 1699999999 [sampleOrder] []
          (Except.ok sampleRequest)).2.1 = [sampleOrder] ∧
      ∃ o, GetOrderByOrderId [sampleOrder] sampleRequest.OrderId = some o ∧ o.Status = "paid") :=
  ⟨((success_implies_consumption noFaults [] "pw" 1699999999 1699999999 [sampleOrder] []
      sampleRequest).1 { buildInbound [] "pw" sampleRequest 10000 with Id := 1 }
      (by decide)).1 rfl,
    ((success_implies_consumption markFault [] "pw" 1699999999 1699999999 [sampleOrder] []
      sampleRequest).1 { buildInbound [] "pw" sampleRequest 10000 with Id := 1 }
      (by decide)).2 rfl⟩

/-- C14. Persist-failure atomicity: when a run of `CreateInbound` reaches `AddInbound` (the
order verified, the user matches, the protocol is valid, a port was chosen) and `AddInbound`
fails, the reply is the persist failure and both tables are unchanged; in particular the
order's status, inbound id and used-at are unchanged, and the order is still `"paid"`. -/
theorem persist_failure_atomic (faults : Faults) (rnd : List Byte) (seq : String)
    (nowVerify nowMark : Int) (orders : List Order) (inbounds : List Inbound)
    (req : CreateInboundRequest) (order : Order) (port : Int) (e : DbError)
    (hv : (VerifyOrder orders nowVerify req.OrderId).1 = Except.ok order)
    (hu : order.UserId = req.UserId) (hp : validProtocols req.Protocol = true)
    (hc : choosePort faults inbounds req = Except.ok port)
    (ha : AddInbound faults.addInbound inbounds (buildInbound rnd seq req port) = Except.error e) :
    CreateInbound faults rnd seq nowVerify nowMark orders inbounds (Except.ok req)
      = (CreateInboundReply.fail (CreateInboundError.AddInboundFailed e), orders, inbounds) ∧
    GetOrderByOrderId orders req.OrderId = some order ∧ order.Status = "paid" := by
  rcases hv2 : VerifyOrder orders nowVerify req.OrderId with ⟨r, orders1⟩
  rw [hv2] at hv
  simp only at hv
  subst hv
  obtain ⟨-, hg, hpaid⟩ := VerifyOrder_ok hv2
  refine ⟨?_, hg, hpaid⟩
  rw [CreateInbound_of_verified faults rnd seq nowVerify nowMark orders orders1 inbounds req
    order hv2]
  rw [if_neg (by simp [hu]), if_neg (by simp [hp]), hc]
  simp only
  unfold persistAndMark
  rw [ha]

set_option maxRecDepth 100000 in
/-- Witness of C14: the only stored inbound has port 20000 and tag `inbound-10000`; the
allocator picks port 10000, the insert violates the uniqueness of the tag, and the call fails
with the paid `sampleOrder` untouched. -/
theorem persist_failure_atomic_witness :
    CreateInbound noFaults [] "pw" 1699999999 1699999999 [sampleOrder] [clashingInbound]
        (Except.ok sampleRequest)
      = (CreateInboundReply.fail (CreateInboundError.AddInboundFailed DbError.uniqueTag),
          [sampleOrder], [clashingInbound]) ∧
    GetOrderByOrderId [sampleOrder] sampleRequest.OrderId = some sampleOrder ∧
    sampleOrder.Status = "paid" :=
  persist_failure_atomic noFaults [] "pw" 1699999999 1699999999 [sampleOrder] [clashingInbound]
    sampleRequest sampleOrder 10000 DbError.uniqueTag (by decide) (by decide) (by decide)
    (by decide) (by decide)

/-- C15. Order ownership, each half on its own. Controller: when `VerifyOrder` returns an order
whose user id differs from the request's, `CreateInbound` replies with the user-mismatch
failure and leaves both tables unchanged. Proxy: whenever the order stored under the request's
order id, whatever its status, has a user id other than the request's, `buildXUIRequest`
returns the user-mismatch error, which carries no upstream request. -/
theorem order_ownership :
    (∀ (faults : Faults) (rnd : List Byte) (seq : String) (nowVerify nowMark : Int)
        (orders : List Order) (inbounds : List Inbound) (req : CreateInboundRequest)
        (order : Order),
      (VerifyOrder orders nowVerify req.OrderId).1 = Except.ok order →
      order.UserId ≠ req.UserId →
      CreateInbound faults rnd seq nowVerify nowMark orders inbounds (Except.ok req)
        = (CreateInboundReply.fail CreateInboundError.UserMismatch, orders, inbounds)) ∧
    (∀ (dbOk : Bool) (db : List Order) (defaultProtocol : String)
        (preq : ProxyCreateInboundRequest) (porder : Order),
      getOrderInfo dbOk db preq.OrderId = some porder →
      porder.UserId ≠ preq.UserId →
      buildXUIRequest dbOk db defaultProtocol preq
        = Except.error BuildRequestError.UserMismatch) := by
  constructor
  · intro faults rnd seq nowVerify nowMark orders inbounds req order hv hu
    rcases hv2 : VerifyOrder orders nowVerify req.OrderId with ⟨r, orders1⟩
    rw [hv2] at hv
    simp only at hv
    subst hv
    rw [CreateInbound_of_verified faults rnd seq nowVerify nowMark orders orders1 inbounds req
      order hv2, if_pos hu]
  · intro dbOk db defaultProtocol preq porder hg hpu
    unfold buildXUIRequest
    rw [hg]
    simp only
    rw [if_pos hpu]

set_option maxRecDepth 100000 in
/-- Witness of C15: the paid `sampleOrder` belongs to `U1` and a request of `U2` for it is
refused by `CreateInbound` with both tables unchanged; on a table that holds only the used
`usedOrder` of `U1`, which no request passes `VerifyOrder` for, `buildXUIRequest` still
refuses the request of `U2`. -/
theorem order_ownership_witness :
    CreateInbound noFaults [] "pw" 1699999999 1699999999 [sampleOrder] []
        (Except.ok { sampleRequest with UserId := "U2" })
      = (CreateInboundReply.fail CreateInboundError.UserMismatch, [sampleOrder], []) ∧
    buildXUIRequest true [usedOrder] "shadowsocks" { OrderId := "O1", UserId := "U2" }
      = Except.error BuildRequestError.UserMismatch :=
  ⟨order_ownership.1 noFaults [] "pw" 1699999999 1699999999 [sampleOrder] []
      { sampleRequest with UserId := "U2" } sampleOrder (by decide) (by decide),
    order_ownership.2 true [usedOrder] "shadowsocks" { OrderId := "O1", UserId := "U2" }
      usedOrder (by decide) (by decide)⟩

/-- C18. Protocol validation: for an order that passes `VerifyOrder` and the user check,
`CreateInbound` goes on to the port handling (and from there to the persisting steps) iff the
request's protocol is one of `vmess`, `vless`, `trojan`, `shadowsocks`; for every other
protocol string the reply is the unsupported-protocol failure, and both tables are unchanged.
The unsupported-protocol failure is the reply for no valid protocol. -/
theorem protocol_validation (faults : Faults) (rnd : List Byte) (seq : String)
    (nowVerify nowMark : Int) (orders : List Order) (inbounds : List Inbound)
    (req : CreateInboundRequest) (order : Order)
    (hv : (VerifyOrder orders nowVerify req.OrderId).1 = Except.ok order)
    (hu : order.UserId = req.UserId) :
    ((req.Protocol = "vmess" ∨ req.Protocol = "vless" ∨ req.Protocol = "trojan"
        ∨ req.Protocol = "shadowsocks") →
      CreateInbound faults rnd seq nowVerify nowMark orders inbounds (Except.ok req)
        = (match choosePort faults inbounds req with
          | Except.error e => (CreateInboundReply.fail e, orders, inbounds)
          | Except.ok port =>
            persistAndMark faults nowMark orders inbounds req (buildInbound rnd seq req port)) ∧
      (CreateInbound faults rnd seq nowVerify nowMark orders inbounds (Except.ok req)).1
        ≠ CreateInboundReply.fail CreateInboundError.UnsupportedProtocol) ∧
    (¬ (req.Protocol = "vmess" ∨ req.Protocol = "vless" ∨ req.Protocol = "trojan"
        ∨ req.Protocol = "shadowsocks") →
      CreateInbound faults rnd seq nowVerify nowMark orders inbounds (Except.ok req)
        = (CreateInboundReply.fail CreateInboundError.UnsupportedProtocol, orders, inbounds)) := by
  rcases hv2 : VerifyOrder orders nowVerify req.OrderId with ⟨r, orders1⟩
  rw [hv2] at hv
  simp only at hv
  subst hv
  rw [CreateInbound_of_verified faults rnd seq nowVerify nowMark orders orders1 inbounds req
    order hv2, if_neg (by simp [hu])]
  constructor
  · intro hp
    have hvp : ¬ (validProtocols req.Protocol = false) := by
      simp [validProtocols, hp]
    rw [if_neg hvp]
    refine ⟨rfl, ?_⟩
    cases hc : choosePort faults inbounds req with
    | error e =>
      simp only
      intro h
      simp only [CreateInboundReply.fail.injEq] at h
      subst h
      unfold choosePort at hc
      split_ifs at hc
      · cases hc
      · split at hc <;> cases hc
    | ok port =>
      simp only
      rcases persistAndMark_tables faults nowMark orders inbounds req
        (buildInbound rnd seq req port) with ⟨e, -, h⟩ | ⟨stored, -, -, -, -⟩
      · rw [h]
        simp
      · unfold persistAndMark
        cases AddInbound faults.addInbound inbounds (buildInbound rnd seq req port) with
        | error e => simp
        | ok r =>
          simp only
          cases GetInbound faults.getInbound r.2 r.1.Id <;> simp
  · intro hp
    have hvp : validProtocols req.Protocol = false := by
      simp only [validProtocols, decide_eq_false_iff_not]
      exact hp
    rw [if_pos hvp]

set_option maxRecDepth 100000 in
/-- Witness of C18: for the paid `sampleOrder` and its user, protocol `http` is refused as
unsupported with nothing changed. -/
theorem protocol_validation_witness :
    CreateInbound noFaults [] "pw" 1699999999 1699999999 [sampleOrder] []
        (Except.ok { sampleRequest with Protocol := "http" })
      = (CreateInboundReply.fail CreateInboundError.UnsupportedProtocol, [sampleOrder], []) :=
  (protocol_validation noFaults [] "pw" 1699999999 1699999999 [sampleOrder] []
    { sampleRequest with Protocol := "http" } sampleOrder (by decide) (by decide)).2 (by decide)

/-! ## Port allocation and port uniqueness -/

/-- The loop of `allocatePort` from a positive port `p` over `n` candidates: it returns 0 when
the query reports no candidate free, and otherwise the first candidate the query reports free
without error. -/
theorem allocatePortLoop_spec (check : Int → Except DbError Bool) :
    ∀ (n : Nat) (p : Int), 0 < p →
      (allocatePortLoop check n p = 0 ∧ ∀ q, p ≤ q → q < p + n → check q ≠ Except.ok false) ∨
      (p ≤ allocatePortLoop check n p ∧ allocatePortLoop check n p < p + n ∧
        check (allocatePortLoop check n p) = Except.ok false ∧
        ∀ q, p ≤ q → q < allocatePortLoop check n p → check q ≠ Except.ok false) := by
  intro n
  induction n with
  | zero =>
    intro p _
    left
    refine ⟨rfl, ?_⟩
    intro q h1 h2
    simp only [Nat.cast_zero, add_zero] at h2
    omega
  | succ n ih =>
    intro p hp
    have hstep : check p ≠ Except.ok false →
        allocatePortLoop check (n + 1) p = allocatePortLoop check n (p + 1) := by
      intro hne
      cases hcp : check p with
      | error e => simp only [allocatePortLoop, hcp]
      | ok b =>
        cases b with
        | true => simp only [allocatePortLoop, hcp]
        | false => exact absurd hcp hne
    by_cases hc : check p = Except.ok false
    · right
      have hres : allocatePortLoop check (n + 1) p = p := by
        simp only [allocatePortLoop, hc]
      rw [hres]
      refine ⟨le_refl p, ?_, hc, ?_⟩
      · push_cast
        omega
      · intro q h1 h2
        omega
    · rw [hstep hc]
      rcases ih (p + 1) (by omega) with ⟨h0, hall⟩ | ⟨h1, h2, h3, h4⟩
      · left
        refine ⟨h0, ?_⟩
        intro q hq1 hq2
        by_cases hqp : q = p
        · rw [hqp]
          exact hc
        · apply hall q (by omega)
          push_cast at hq2
          omega
      · right
        refine ⟨by omega, ?_, h3, ?_⟩
        · push_cast
          omega
        · intro q hq1 hq2
          by_cases hqp : q = p
          · rw [hqp]
            exact hc
          · exact h4 q (by omega) hq2

/-- The port-existence query of the modelled table reports a port free exactly when no
inbound of the table has it. -/
theorem CheckPortExist_free (fault : Bool) (inbounds : List Inbound) (port : Int) :
    CheckPortExist fault inbounds port 0 = Except.ok false ↔
      fault = false ∧ ∀ i ∈ inbounds, i.Port ≠ port := by
  unfold CheckPortExist
  cases fault with
  | true => simp
  | false =>
    simp only [Bool.false_eq_true, if_false, Except.ok.injEq, true_and]
    rw [← Bool.not_eq_true, List.any_eq_true]
    simp

/-- C16. Port allocation: for every port-existence query `check`, `allocatePort` returns the
smallest port `p` with `10000 ≤ p ≤ 65535` for which the query reports, without error, that
no inbound uses `p`, and it returns 0 exactly when no such port exists. With the query of the
inbound table it never returns a port that an inbound of the table has, and `CreateInbound`'s
port handling reports port exhaustion, for a request without a port, exactly when it
returns 0. -/
theorem allocatePort_spec (check : Int → Except DbError Bool) (faults : Faults)
    (inbounds : List Inbound) (req : CreateInboundRequest) :
    (allocatePort check ≠ 0 →
      10000 ≤ allocatePort check ∧ allocatePort check ≤ 65535 ∧
      check (allocatePort check) = Except.ok false ∧
      ∀ q, 10000 ≤ q → q < allocatePort check → check q ≠ Except.ok false) ∧
    (allocatePort check = 0 ↔ ∀ q, 10000 ≤ q → q ≤ 65535 → check q ≠ Except.ok false) ∧
    (allocatePort (fun p => CheckPortExist (faults.checkPortExist p) inbounds p 0) ≠ 0 →
      ∀ i ∈ inbounds,
        i.Port ≠ allocatePort (fun p => CheckPortExist (faults.checkPortExist p) inbounds p 0)) ∧
    (req.Port = 0 →
      (choosePort faults inbounds req = Except.error CreateInboundError.PortExhausted ↔
        allocatePort (fun p => CheckPortExist (faults.checkPortExist p) inbounds p 0) = 0)) := by
  have key : ∀ chk : Int → Except DbError Bool,
      (allocatePort chk = 0 ∧ ∀ q, 10000 ≤ q → q ≤ 65535 → chk q ≠ Except.ok false) ∨
      (10000 ≤ allocatePort chk ∧ allocatePort chk ≤ 65535 ∧
        chk (allocatePort chk) = Except.ok false ∧
        ∀ q, 10000 ≤ q → q < allocatePort chk → chk q ≠ Except.ok false) := by
    intro chk
    unfold allocatePort
    rcases allocatePortLoop_spec chk 55536 10000 (by decide) with ⟨h0, hall⟩ | ⟨h1, h2, h3, h4⟩
    · left
      refine ⟨h0, ?_⟩
      intro q hq1 hq2
      apply hall q hq1
      push_cast
      omega
    · right
      refine ⟨h1, ?_, h3, h4⟩
      push_cast at h2
      omega
  refine ⟨?_, ?_, ?_, ?_⟩
  · intro hne
    rcases key check with ⟨h0, -⟩ | h
    · exact absurd h0 hne
    · exact h
  · constructor
    · intro h0
      rcases key check with ⟨-, hall⟩ | ⟨h1, -, -, -⟩
      · exact hall
      · omega
    · intro hall
      rcases key check with ⟨h0, -⟩ | ⟨h1, h2, h3, -⟩
      · exact h0
      · exact absurd h3 (hall _ h1 h2)
  · intro hne i hi
    rcases key (fun p => CheckPortExist (faults.checkPortExist p) inbounds p 0)
      with ⟨h0, -⟩ | ⟨-, -, h3, -⟩
    · exact absurd h0 hne
    · exact ((CheckPortExist_free _ inbounds _).mp h3).2 i hi
  · intro hp
    unfold choosePort
    rw [if_pos hp]
    split_ifs with h0
    · simp [h0]
    · simp [h0]

/-- The port handling refuses an explicitly supplied port that an inbound of the table has:
with the port-in-use failure, or with the failure of the query when that errs. -/
theorem choosePort_in_use (faults : Faults) (inbounds : List Inbound)
    (req : CreateInboundRequest) (hp : req.Port ≠ 0) (hin : ∃ i ∈ inbounds, i.Port = req.Port) :
    (∃ e, choosePort faults inbounds req = Except.error e) ∧
    (faults.checkPortExist req.Port = false →
      choosePort faults inbounds req = Except.error CreateInboundError.PortInUse) := by
  obtain ⟨i, hi, hport⟩ := hin
  have hany : inbounds.any (fun i => decide (i.Port = req.Port ∧ ¬ ((0 : Int) > 0 ∧ i.Id = 0)))
      = true := by
    rw [List.any_eq_true]
    exact ⟨i, hi, by simp [hport]⟩
  unfold choosePort CheckPortExist
  rw [if_neg hp]
  cases hf : faults.checkPortExist req.Port with
  | true => simp
  | false => simp only [Bool.false_eq_true, if_false, hany]; simp

/-- C17. Port uniqueness invariant: from an inbound table whose ports are pairwise distinct,
every `CreateInbound` call, with a port to allocate (`Port = 0`) or an explicitly supplied
one, leaves the ports pairwise distinct. The table is unchanged or gains exactly one inbound,
whose port no earlier inbound has. A request with an explicitly supplied port that an inbound
already has is refused (by the port-in-use failure when the query does not err) and the table
is unchanged. -/
theorem port_uniqueness (faults : Faults) (rnd : List Byte) (seq : String)
    (nowVerify nowMark : Int) (orders : List Order) (inbounds : List Inbound)
    (bind : Except String CreateInboundRequest)
    (hdistinct : inbounds.Pairwise (fun a b => a.Port ≠ b.Port)) :
    (CreateInbound faults rnd seq nowVerify nowMark orders inbounds bind).2.2.Pairwise
      (fun a b => a.Port ≠ b.Port) ∧
    ((CreateInbound faults rnd seq nowVerify nowMark orders inbounds bind).2.2 = inbounds ∨
      ∃ stored, (CreateInbound faults rnd seq nowVerify nowMark orders inbounds bind).2.2
          = inbounds ++ [stored] ∧ ∀ i ∈ inbounds, i.Port ≠ stored.Port) ∧
    (∀ req, bind = Except.ok req → req.Port ≠ 0 → (∃ i ∈ inbounds, i.Port = req.Port) →
      (∃ e, (CreateInbound faults rnd seq nowVerify nowMark orders inbounds bind).1
        = CreateInboundReply.fail e) ∧
      (CreateInbound faults rnd seq nowVerify nowMark orders inbounds bind).2.2 = inbounds ∧
      (faults.checkPortExist req.Port = false →
        choosePort faults inbounds req = Except.error CreateInboundError.PortInUse)) := by
  have htab := CreateInbound_tables faults rnd seq nowVerify nowMark orders inbounds bind
  refine ⟨?_, ?_, ?_⟩
  · rcases htab with ⟨h, -, -⟩ | ⟨_, _, stored, -, -, -, -, h, hport, -, -, -⟩
    · rw [h]
      exact hdistinct
    · rw [h, List.pairwise_append]
      refine ⟨hdistinct, List.pairwise_singleton _ _, ?_⟩
      intro a ha b hb
      simp only [List.mem_singleton] at hb
      subst hb
      exact hport a ha
  · rcases htab with ⟨h, -, -⟩ | ⟨_, _, stored, -, -, -, -, h, hport, -, -, -⟩
    · exact Or.inl h
    · exact Or.inr ⟨stored, h, hport⟩
  · intro req hb hp hin
    subst hb
    obtain ⟨⟨e, he⟩, hin_use⟩ := choosePort_in_use faults inbounds req hp hin
    refine ⟨?_, ?_, hin_use⟩
    · rcases hv : VerifyOrder orders nowVerify req.OrderId with ⟨r, orders1⟩
      cases r with
      | error err =>
        rw [CreateInbound_of_verify_error faults rnd seq nowVerify nowMark orders orders1
          inbounds req err hv]
        exact ⟨_, rfl⟩
      | ok order =>
        rw [CreateInbound_of_verified faults rnd seq nowVerify nowMark orders orders1 inbounds
          req order hv, he]
        split_ifs <;> exact ⟨_, rfl⟩
    · rcases hv : VerifyOrder orders nowVerify req.OrderId with ⟨r, orders1⟩
      cases r with
      | error err =>
        rw [CreateInbound_of_verify_error faults rnd seq nowVerify nowMark orders orders1
          inbounds req err hv]
      | ok order =>
        rw [CreateInbound_of_verified faults rnd seq nowVerify nowMark orders orders1 inbounds
          req order hv, he]
        split_ifs <;> rfl

set_option maxRecDepth 100000 in
/-- Witness of C17: the table holds `sampleInbound` on port 10000; a request without a port
for the paid `sampleOrder` gets port 10001, and the ports stay distinct. -/
theorem port_uniqueness_witness :
    (CreateInbound noFaults [] "pw" 1699999999 1699999999 [sampleOrder] [sampleInbound]
        (Except.ok sampleRequest)).2.2.Pairwise (fun a b => a.Port ≠ b.Port) ∧
    (CreateInbound noFaults [] "pw" 1699999999 1699999999 [sampleOrder] [sampleInbound]
        (Except.ok sampleRequest)).2.2
      = [sampleInbound, { buildInbound [] "pw" sampleRequest 10001 with Id := 6 }] :=
  ⟨(port_uniqueness noFaults [] "pw" 1699999999 1699999999 [sampleOrder] [sampleInbound]
      (Except.ok sampleRequest) (List.pairwise_singleton _ _)).1, by decide⟩

/-! ## Sequences of `CreateInbound` calls -/

theorem runCreateInbound_cons (orders : List Order) (inbounds : List Inbound)
    (c : CreateInboundCall) (rest : List CreateInboundCall) :
    (runCreateInbound orders inbounds (c :: rest)).2
      = (runCreateInbound
          (CreateInbound c.faults c.rnd c.seq c.nowVerify c.nowMark orders inbounds c.bind).2.1
          (CreateInbound c.faults c.rnd c.seq c.nowVerify c.nowMark orders inbounds c.bind).2.2
          rest).2 := rfl

theorem runCreateInbound_append (pre post : List CreateInboundCall) :
    ∀ (orders : List Order) (inbounds : List Inbound),
      (runCreateInbound orders inbounds (pre ++ post)).2
        = (runCreateInbound (runCreateInbound orders inbounds pre).2.1
            (runCreateInbound orders inbounds pre).2.2 post).2 := by
  induction pre with
  | nil => intro orders inbounds; rfl
  | cons c rest ih =>
    intro orders inbounds
    rw [List.cons_append, runCreateInbound_cons, ih, runCreateInbound_cons]

/-- Once the order of the calls is used, a sequence of calls for it changes neither table. -/
theorem runCreateInbound_of_used (orderId : String) (calls : List CreateInboundCall) :
    ∀ (orders : List Order) (inbounds : List Inbound),
      (∀ c ∈ calls, ∃ req, c.bind = Except.ok req ∧ req.OrderId = orderId) →
      (∃ o, GetOrderByOrderId orders orderId = some o ∧ o.Status = "used") →
      (runCreateInbound orders inbounds calls).2 = (orders, inbounds) := by
  induction calls with
  | nil => intro orders inbounds _ _; rfl
  | cons c rest ih =>
    intro orders inbounds hcalls hused
    obtain ⟨req, hb, hid⟩ := hcalls c (List.mem_cons_self _ _)
    obtain ⟨o, hg, hs⟩ := hused
    have hstep : CreateInbound c.faults c.rnd c.seq c.nowVerify c.nowMark orders inbounds c.bind
        = (CreateInboundReply.fail (CreateInboundError.OrderVerification OrderError.AlreadyUsed),
            orders, inbounds) := by
      rw [hb]
      exact CreateInbound_of_used c.faults c.rnd c.seq c.nowVerify c.nowMark orders inbounds req
        o (by rw [hid]; exact hg) hs
    rw [runCreateInbound_cons, hstep]
    exact ih orders inbounds (fun c2 hc2 => hcalls c2 (List.mem_cons_of_mem _ hc2)) ⟨o, hg, hs⟩

/-- One call whose `MarkOrderAsUsed` update does not fail: the inbound table is unchanged, or
it gained one row and the order of the call is used afterwards; a success reply is of the
second kind. -/
theorem CreateInbound_insert_marks (c : CreateInboundCall) (orders : List Order)
    (inbounds : List Inbound) (hmark : c.faults.markOrderAsUsed = false) :
    ((CreateInbound c.faults c.rnd c.seq c.nowVerify c.nowMark orders inbounds c.bind).2.2
        = inbounds ∧
      ∃ e, (CreateInbound c.faults c.rnd c.seq c.nowVerify c.nowMark orders inbounds c.bind).1
        = CreateInboundReply.fail e) ∨
    (∃ req stored, c.bind = Except.ok req ∧
      (CreateInbound c.faults c.rnd c.seq c.nowVerify c.nowMark orders inbounds c.bind).2.2
        = inbounds ++ [stored] ∧
      ∃ o, GetOrderByOrderId
          (CreateInbound c.faults c.rnd c.seq c.nowVerify c.nowMark orders inbounds c.bind).2.1
          req.OrderId = some o ∧ o.Status = "used") := by
  rcases CreateInbound_tables c.faults c.rnd c.seq c.nowVerify c.nowMark orders inbounds c.bind
    with ⟨h, he, -⟩ | ⟨req, order, stored, hb, hg, -, -, h, -, -, ho, -⟩
  · exact Or.inl ⟨h, he⟩
  · right
    refine ⟨req, stored, hb, h, ?_⟩
    rw [ho, hmark]
    simp only [Bool.false_eq_true, if_false]
    rw [GetOrderByOrderId_MarkOrderAsUsed c.nowMark stored.Id hg]
    exact ⟨_, rfl, rfl⟩

/-- The inbound table after a sequence of calls for one order id, none of whose
`MarkOrderAsUsed` updates fails: the old table, or the old table and one more row. -/
theorem runCreateInbound_at_most_one (orderId : String) (calls : List CreateInboundCall) :
    ∀ (orders : List Order) (inbounds : List Inbound),
      (∀ c ∈ calls, c.faults.markOrderAsUsed = false ∧
        ∃ req, c.bind = Except.ok req ∧ req.OrderId = orderId) →
      (runCreateInbound orders inbounds calls).2.2 = inbounds ∨
        ∃ stored, (runCreateInbound orders inbounds calls).2.2 = inbounds ++ [stored] := by
  induction calls with
  | nil => intro orders inbounds _; exact Or.inl rfl
  | cons c rest ih =>
    intro orders inbounds hcalls
    obtain ⟨hmark, req, hb, hid⟩ := hcalls c (List.mem_cons_self _ _)
    have hrest : ∀ c2 ∈ rest, c2.faults.markOrderAsUsed = false ∧
        ∃ req, c2.bind = Except.ok req ∧ req.OrderId = orderId :=
      fun c2 hc2 => hcalls c2 (List.mem_cons_of_mem _ hc2)
    rw [runCreateInbound_cons]
    rcases CreateInbound_insert_marks c orders inbounds hmark
      with ⟨h, -⟩ | ⟨req2, stored, hb2, h, o, hg, hs⟩
    · rw [h]
      exact ih _ inbounds hrest
    · have hreq : req2 = req := by
        rw [hb] at hb2
        simp only [Except.ok.injEq] at hb2
        exact hb2.symm
      subst hreq
      rw [runCreateInbound_of_used orderId rest _ _ (fun c2 hc2 => (hrest c2 hc2).2)
        ⟨o, by rw [← hid]; exact hg, hs⟩]
      exact Or.inr ⟨stored, h⟩

/-- C13. No double consumption (sequential): in a sequence of `CreateInbound` calls for one
order id, none of whose `MarkOrderAsUsed` updates fails, at most one inbound is inserted: the
inbound table at the end is the initial one or the initial one with one more row. After a call
of the sequence that reports success, the later calls insert nothing: the inbound table at
the end is the one that call left. -/
theorem no_double_consumption (orderId : String) (orders : List Order)
    (inbounds : List Inbound) (calls : List CreateInboundCall)
    (hcalls : ∀ c ∈ calls, c.faults.markOrderAsUsed = false ∧
      ∃ req, c.bind = Except.ok req ∧ req.OrderId = orderId) :
    ((runCreateInbound orders inbounds calls).2.2 = inbounds ∨
      ∃ stored, (runCreateInbound orders inbounds calls).2.2 = inbounds ++ [stored]) ∧
    (∀ pre c post, calls = pre ++ c :: post →
      (∃ created, (CreateInbound c.faults c.rnd c.seq c.nowVerify c.nowMark
          (runCreateInbound orders inbounds pre).2.1 (runCreateInbound orders inbounds pre).2.2
          c.bind).1 = CreateInboundReply.success created) →
      (runCreateInbound orders inbounds calls).2.2
        = (CreateInbound c.faults c.rnd c.seq c.nowVerify c.nowMark
            (runCreateInbound orders inbounds pre).2.1 (runCreateInbound orders inbounds pre).2.2
            c.bind).2.2) := by
  refine ⟨runCreateInbound_at_most_one orderId calls orders inbounds hcalls, ?_⟩
  intro pre c post hsplit hsucc
  obtain ⟨created, hcreated⟩ := hsucc
  have hc : c ∈ calls := by rw [hsplit]; simp
  obtain ⟨hmark, req, hb, hid⟩ := hcalls c hc
  have hpost : ∀ c2 ∈ post, ∃ req, c2.bind = Except.ok req ∧ req.OrderId = orderId := by
    intro c2 hc2
    exact (hcalls c2 (by rw [hsplit]; simp [hc2])).2
  rw [hsplit, runCreateInbound_append, runCreateInbound_cons]
  rcases CreateInbound_insert_marks c (runCreateInbound orders inbounds pre).2.1
      (runCreateInbound orders inbounds pre).2.2 hmark
    with ⟨-, e, he⟩ | ⟨req2, stored, hb2, -, o, hg, hs⟩
  · rw [he] at hcreated
    cases hcreated
  · have hreq : req2 = req := by
      rw [hb] at hb2
      simp only [Except.ok.injEq] at hb2
      exact hb2.symm
    subst hreq
    rw [runCreateInbound_of_used orderId post _ _ hpost ⟨o, by rw [← hid]; exact hg, hs⟩]

set_option maxRecDepth 100000 in
/-- Witness of C13: three calls for the paid `sampleOrder`; the first succeeds and inserts one
inbound, the two retries insert nothing. -/
theorem no_double_consumption_witness :
    ((runCreateInbound [sampleOrder] []
        (List.replicate 3 ⟨noFaults, [], "pw", 1699999999, 1699999999, Except.ok sampleRequest⟩)).2.2
        = [] ∨
      ∃ stored, (runCreateInbound [sampleOrder] []
        (List.replicate 3 ⟨noFaults, [], "pw", 1699999999, 1699999999, Except.ok sampleRequest⟩)).2.2
        = [] ++ [stored]) ∧
    (runCreateInbound [sampleOrder] []
        (List.replicate 3 ⟨noFaults, [], "pw", 1699999999, 1699999999, Except.ok sampleRequest⟩)).2.2
      = [{ buildInbound [] "pw" sampleRequest 10000 with Id := 1 }] :=
  ⟨(no_double_consumption "O1" [sampleOrder] []
      (List.replicate 3 ⟨noFaults, [], "pw", 1699999999, 1699999999, Except.ok sampleRequest⟩)
      (by
        intro c hc
        rw [List.eq_of_mem_replicate hc]
        exact ⟨rfl, sampleRequest, rfl, rfl⟩)).1, by decide⟩

/-! ## Order states -/

theorem forall₂_map_self {α : Type} {R : α → α → Prop} {f : α → α} {l : List α}
    (h : ∀ x ∈ l, R x (f x)) : List.Forall₂ R l (l.map f) := by
  rw [List.forall₂_map_right_iff, List.forall₂_same]
  exact h

/-- In a table with pairwise distinct order ids, a row with the id of the looked-up order is
that order. -/
theorem eq_of_GetOrderByOrderId {db : List Order} {orderId : String} {o x : Order}
    (huniq : db.Pairwise (fun a b => a.OrderId ≠ b.OrderId))
    (hg : GetOrderByOrderId db orderId = some o) (hx : x ∈ db) (hid : x.OrderId = orderId) :
    x = o := by
  obtain ⟨ho, hoid⟩ := GetOrderByOrderId_some hg
  by_contra hne
  have hsym : Symmetric (fun a b : Order => a.OrderId ≠ b.OrderId) := fun _ _ h => h.symm
  exact huniq.forall hsym hx ho hne (by rw [hid, hoid])

set_option maxRecDepth 100000 in
/-- C19 (counterexample). Three writes that change the status of an order in a terminal
state: `createOrUpdateOrderTest` for the id of the used `usedOrder` sets it to `"paid"`,
`MarkOrderAsUsed` for the id of the expired `expiredOrder` sets it to `"used"`, and
`UpdateOrderStatus` with `"paid"` for the id of `usedOrder` sets it to `"paid"`. -/
theorem terminal_status_overwritten :
    (usedOrder.Status = "used" ∧
      createOrUpdateOrderTest true [usedOrder] 1700000000 "O1" "U1" ""
        = (Except.ok OrderTestAction.updated,
            [{ usedOrder with ExpiresAt := 0, Status := "paid" }])) ∧
    (expiredOrder.Status = "expired" ∧
      MarkOrderAsUsed [expiredOrder] 1700000000 "O1" 7
        = [{ expiredOrder with Status := "used", InboundId := 7, UsedAt := 1700000000000 }]) ∧
    UpdateOrderStatus [usedOrder] 1700000000 "O1" "paid"
      = [{ usedOrder with Status := "paid", PaidAt := 1700000000000 }] := by
  decide

/-- C19 (amended). On an order table with pairwise distinct order ids, `VerifyOrder` and
`CleanupExpiredOrders` change no order whose status is `"used"` or `"expired"`. The other
writes set the status without looking at it: `UpdateOrderStatus` gives the rows of the order
id the status it is passed, `MarkOrderAsUsed` gives them `"used"`, and an update by the
proxy's `createOrUpdateOrderTest` leaves them `"paid"`; all three leave the rows of other
order ids unchanged. -/
theorem terminal_states (db : List Order) (nowUnix : Int)
    (orderId userId expiresAtStr status : String) (inboundId : Int) (dbOk : Bool)
    (huniq : db.Pairwise (fun a b => a.OrderId ≠ b.OrderId)) :
    List.Forall₂ (fun o o2 => (o.Status = "used" ∨ o.Status = "expired") → o2 = o)
      db (VerifyOrder db nowUnix orderId).2 ∧
    List.Forall₂ (fun o o2 => (o.Status = "used" ∨ o.Status = "expired") → o2 = o)
      db (CleanupExpiredOrders db nowUnix) ∧
    List.Forall₂ (fun o o2 => (o.OrderId = orderId → o2.Status = status) ∧
        (o.OrderId ≠ orderId → o2 = o))
      db (UpdateOrderStatus db nowUnix orderId status) ∧
    List.Forall₂ (fun o o2 => (o.OrderId = orderId → o2.Status = "used") ∧
        (o.OrderId ≠ orderId → o2 = o))
      db (MarkOrderAsUsed db nowUnix orderId inboundId) ∧
    ((createOrUpdateOrderTest dbOk db nowUnix orderId userId expiresAtStr).1
        = Except.ok OrderTestAction.updated →
      List.Forall₂ (fun o o2 => (o.OrderId = orderId → o2.Status = "paid") ∧
          (o.OrderId ≠ orderId → o2 = o))
        db (createOrUpdateOrderTest dbOk db nowUnix orderId userId expiresAtStr).2) := by
  refine ⟨?_, ?_, ?_, ?_, ?_⟩
  · have hsame : List.Forall₂ (fun o o2 : Order =>
        (o.Status = "used" ∨ o.Status = "expired") → o2 = o) db db := by
      rw [List.forall₂_same]
      intro x _ _
      rfl
    unfold VerifyOrder
    cases hg : GetOrderByOrderId db orderId with
    | none => exact hsame
    | some order =>
      simp only
      split_ifs with h1 h2 h3 h4
      · exact hsame
      · exact hsame
      · exact hsame
      · rw [UpdateOrderStatus_expired]
        apply forall₂_map_self
        intro x hx hterm
        by_cases hid : x.OrderId = orderId
        · have hxo := eq_of_GetOrderByOrderId huniq hg hx hid
          subst hxo
          have hpaid : x.Status = "paid" := by simpa using h3
          rw [hpaid] at hterm
          rcases hterm with h | h
          · exact absurd h (by decide)
          · exact absurd h (by decide)
        · rw [if_neg hid]
      · exact hsame
  · unfold CleanupExpiredOrders
    apply forall₂_map_self
    intro x _ hterm
    split_ifs with h
    · rcases h.2.2 with hp | hp
      · rw [hp] at hterm
        rcases hterm with h2 | h2
        · exact absurd h2 (by decide)
        · exact absurd h2 (by decide)
      · rw [hp] at hterm
        rcases hterm with h2 | h2
        · exact absurd h2 (by decide)
        · exact absurd h2 (by decide)
    · rfl
  · unfold UpdateOrderStatus
    apply forall₂_map_self
    intro x _
    constructor
    · intro hid
      rw [if_pos hid]
      split_ifs <;> rfl
    · intro hid
      rw [if_neg hid]
  · unfold MarkOrderAsUsed
    apply forall₂_map_self
    intro x _
    constructor
    · intro hid
      rw [if_pos hid]
    · intro hid
      rw [if_neg hid]
  · intro hupd
    unfold createOrUpdateOrderTest at hupd ⊢
    by_cases h1 : orderId = ""
    · rw [if_pos h1] at hupd
      simp at hupd
    rw [if_neg h1] at hupd ⊢
    by_cases h2 : userId = ""
    · rw [if_pos h2] at hupd
      simp at hupd
    rw [if_neg h2] at hupd ⊢
    cases hparse : (if expiresAtStr ≠ "" then ParseInt10 expiresAtStr else some 0) with
    | none =>
      rw [hparse] at hupd
      simp at hupd
    | some expiresAt =>
      rw [hparse] at hupd
      simp only at hupd ⊢
      by_cases h3 : dbOk = false
      · rw [if_pos h3] at hupd
        simp at hupd
      rw [if_neg h3] at hupd ⊢
      cases hf : db.find? (fun o => decide (o.OrderId = orderId)) with
      | none =>
        rw [hf] at hupd
        simp at hupd
      | some existing =>
        simp only
        apply forall₂_map_self
        intro x hx
        constructor
        · intro hid
          rw [if_pos hid]
          have hxe : x = existing := eq_of_GetOrderByOrderId huniq hf hx hid
          by_cases h4 : existing.Status = "paid"
          · rw [if_neg (by simpa using h4)]
            rw [hxe]
            exact h4
          · rw [if_pos h4]
            by_cases h5 : existing.PaidAt = 0
            · rw [if_pos h5]
            · rw [if_neg h5]
        · intro hid
          rw [if_neg hid]

set_option maxRecDepth 100000 in
/-- Witness of the amended C19: `VerifyOrder` on the used `usedOrder` and
`CleanupExpiredOrders` on the expired `expiredOrder`, both past the expiry time, change
nothing. -/
theorem terminal_states_witness :
    List.Forall₂ (fun o o2 => (o.Status = "used" ∨ o.Status = "expired") → o2 = o)
      [usedOrder] (VerifyOrder [usedOrder] 1700000001 "O1").2 ∧
    CleanupExpiredOrders [expiredOrder] 1700000001 = [expiredOrder] :=
  ⟨(terminal_states [usedOrder] 1700000001 "O1" "U1" "" "paid" 0 true
      (List.pairwise_singleton _ _)).1, by decide⟩

set_option maxRecDepth 100000 in
/-- C20 (counterexample). The table `[sampleOrder]` satisfies the invariant (its order is
paid), and both `UpdateOrderStatus` with `"used"` and `MarkOrderAsUsed` with inbound id 0
leave an order with status `"used"` and inbound id 0. -/
theorem used_invariant_broken :
    (∀ o ∈ [sampleOrder], o.Status = "used" → o.InboundId > 0) ∧
    UpdateOrderStatus [sampleOrder] 1700000000 "O1" "used"
      = [{ sampleOrder with Status := "used", InboundId := 0, UsedAt := 1700000000000 }] ∧
    MarkOrderAsUsed [sampleOrder] 1700000000 "O1" 0
      = [{ sampleOrder with Status := "used", InboundId := 0, UsedAt := 1700000000000 }] := by
  decide

/-- C20 (amended). The invariant that an order with status `"used"` has a positive inbound id
is preserved by `CreateOrder`, `VerifyOrder` and `CleanupExpiredOrders` for every argument, by
`UpdateOrderStatus` for every status other than `"used"`, and by `MarkOrderAsUsed` for every
positive inbound id. -/
theorem used_order_invariant (db : List Order) (now : Int) (orderId userId status : String)
    (amount expiresAt inboundId : Int)
    (hinv : ∀ o ∈ db, o.Status = "used" → o.InboundId > 0) :
    (∀ o ∈ (CreateOrder db now orderId userId amount expiresAt).2,
      o.Status = "used" → o.InboundId > 0) ∧
    (∀ o ∈ (VerifyOrder db now orderId).2, o.Status = "used" → o.InboundId > 0) ∧
    (∀ o ∈ CleanupExpiredOrders db now, o.Status = "used" → o.InboundId > 0) ∧
    (status ≠ "used" →
      ∀ o ∈ UpdateOrderStatus db now orderId status, o.Status = "used" → o.InboundId > 0) ∧
    (inboundId > 0 →
      ∀ o ∈ MarkOrderAsUsed db now orderId inboundId, o.Status = "used" → o.InboundId > 0) := by
  have hupd : ∀ st : String, st ≠ "used" →
      ∀ o ∈ UpdateOrderStatus db now orderId st, o.Status = "used" → o.InboundId > 0 := by
    intro st hst o ho hused
    unfold UpdateOrderStatus at ho
    obtain ⟨x, hx, rfl⟩ := List.mem_map.mp ho
    split_ifs at hused ⊢ <;> first | exact absurd hused hst | exact hinv x hx hused
  refine ⟨?_, ?_, ?_, hupd status, ?_⟩
  · intro o ho hused
    unfold CreateOrder at ho
    split_ifs at ho
    · exact hinv o ho hused
    · simp only [List.mem_append, List.mem_singleton] at ho
      rcases ho with h | h
      · exact hinv o h hused
      · subst h
        have h2 : "pending" = "used" := hused
        exact absurd h2 (by decide)
  · intro o ho
    rcases VerifyOrder_table db now orderId with h | h
    · rw [h] at ho
      exact hinv o ho
    · rw [h] at ho
      exact hupd "expired" (by decide) o ho
  · intro o ho hused
    unfold CleanupExpiredOrders at ho
    obtain ⟨x, hx, rfl⟩ := List.mem_map.mp ho
    split_ifs at hused ⊢ with h1
    · have h2 : "expired" = "used" := hused
      exact absurd h2 (by decide)
    · exact hinv x hx hused
  · intro hpos o ho _
    unfold MarkOrderAsUsed at ho
    obtain ⟨x, hx, rfl⟩ := List.mem_map.mp ho
    split_ifs with h1
    · exact hpos
    · rename_i hused
      rw [if_neg h1] at hused
      exact hinv x hx hused

set_option maxRecDepth 100000 in
/-- Witness of the amended C20: on the table `[usedOrder]`, whose used order has inbound id 5,
`MarkOrderAsUsed` with inbound id 7 keeps the invariant. -/
theorem used_order_invariant_witness :
    (∀ o ∈ [usedOrder], o.Status = "used" → o.InboundId > 0) ∧
    (∀ o ∈ MarkOrderAsUsed [usedOrder] 1700000000 "O1" 7,
      o.Status = "used" → o.InboundId > 0) :=
  ⟨by decide,
    (used_order_invariant [usedOrder] 1700000000 "O1" "U1" "paid" 0 0 7 (by decide)).2.2.2.2
      (by decide)⟩

/-! ## The signed message -/

theorem hexDigit_lower : ∀ n, n < 16 → isLowerHex (hexDigit n) = true := by decide

theorem hexChars_length (bs : List Byte) : (hexChars bs).length = 2 * bs.length := by
  induction bs with
  | nil => rfl
  | cons b rest ih =>
    simp only [hexChars, List.length_cons, ih]
    omega

theorem hexChars_lower (bs : List Byte) : ∀ c ∈ hexChars bs, isLowerHex c = true := by
  induction bs with
  | nil => intro c hc; simp [hexChars] at hc
  | cons b rest ih =>
    intro c hc
    simp only [hexChars, List.mem_cons] at hc
    have hb := b.isLt
    rcases hc with h | h | h
    · rw [h]
      exact hexDigit_lower _ (by omega)
    · rw [h]
      exact hexDigit_lower _ (Nat.mod_lt _ (by decide))
    · exact ih c h

theorem parseNat_append (cs : List Char) (c : Char) :
    parseNat (cs ++ [c]) = 10 * parseNat cs + (c.toNat - 48) := by
  simp [parseNat, List.foldl_append]

theorem parseNat_reverse (cs : List Char) : parseNat cs.reverse = valRev cs := by
  induction cs with
  | nil => rfl
  | cons c rest ih =>
    rw [List.reverse_cons, parseNat_append, ih, valRev]
    omega

/-- Reading the decimal rendering of a natural number gives the number back. -/
theorem parseNat_fmtNat (n : Nat) : parseNat (fmtNat n) = n := by
  unfold fmtNat
  rw [parseNat_reverse, valRev_revDigits n n (Nat.le_refl n)]

theorem digitChar_isDigit : ∀ d, d < 10 → (digitChar d).isDigit = true := by decide

theorem revDigits_isDigit (fuel n : Nat) : ∀ c ∈ revDigits fuel n, c.isDigit = true := by
  induction fuel generalizing n with
  | zero =>
    intro c hc
    simp only [revDigits, List.mem_singleton] at hc
    subst hc
    exact digitChar_isDigit _ (Nat.mod_lt _ (by decide))
  | succ fuel ih =>
    intro c hc
    unfold revDigits at hc
    split at hc
    · next hlt =>
      simp only [List.mem_singleton] at hc
      subst hc
      exact digitChar_isDigit _ hlt
    · next hge =>
      rcases List.mem_cons.mp hc with h | h
      · subst h
        exact digitChar_isDigit _ (Nat.mod_lt _ (by decide))
      · exact ih _ c h

theorem fmtNat_isDigit (n : Nat) : ∀ c ∈ fmtNat n, c.isDigit = true := by
  intro c hc
  unfold fmtNat at hc
  exact revDigits_isDigit n n c (List.mem_reverse.mp hc)

set_option maxRecDepth 100000 in
/-- C22 (counterexample). For timestamp 1700000000, nonce `n1`, body `body` and secret
`s3cret` the string fed to the MAC is `1700000000n1bodys3cret`, not `1700000000n1body`, and
(with the collision-free toy MAC) the signature is not the encoded digest of
`1700000000n1body`. -/
theorem signed_message_has_secret :
    signStr 1700000000 "n1" "body" "s3cret" = "1700000000n1bodys3cret" ∧
    signStr 1700000000 "n1" "body" "s3cret" ≠ fmtInt 1700000000 ++ "n1" ++ "body" ∧
    generateSignature toyHmac 1700000000 "n1" "body" "s3cret"
      ≠ hexEncode (toyHmac "s3cret" (fmtInt 1700000000 ++ "n1" ++ "body")) := by
  decide

/-- C22 (amended). The string that `generateSignature` and `VerifySignature` feed to the MAC,
keyed by the secret, is the decimal rendering of the timestamp followed by the nonce, the body
and the secret itself; the signature is the encoding of the digest by two lowercase
hexadecimal digits per byte. The decimal rendering is a minus sign for a negative timestamp
followed by decimal digits that read back as its magnitude. -/
theorem signed_message (hmac : HMAC) (now : Int) (apiKey : APIKey) (timestamp : Int)
    (nonce body secret signature : String) :
    generateSignature hmac timestamp nonce body secret
      = hexEncode (hmac secret (fmtInt timestamp ++ nonce ++ body ++ secret)) ∧
    (VerifySignature hmac now apiKey timestamp nonce signature body = Except.ok () ↔
      wrap64 (now - timestamp) ≤ 300 ∧ wrap64 (timestamp - now) ≤ 60 ∧
      signature = hexEncode (hmac apiKey.Secret
        (fmtInt timestamp ++ nonce ++ body ++ apiKey.Secret))) ∧
    (∀ digest : List Byte, (hexEncode digest).data.length = 2 * digest.length ∧
      ∀ c ∈ (hexEncode digest).data, isLowerHex c = true) ∧
    (fmtInt timestamp).data
      = (if timestamp < 0 then ['-'] else []) ++ fmtNat timestamp.natAbs ∧
    parseNat (fmtNat timestamp.natAbs) = timestamp.natAbs ∧
    (∀ c ∈ fmtNat timestamp.natAbs, c.isDigit = true) := by
  refine ⟨rfl, ?_, ?_, ?_, parseNat_fmtNat _, fmtNat_isDigit _⟩
  · exact VerifySignature_ok_iff hmac now apiKey timestamp nonce signature body
  · intro digest
    exact ⟨hexChars_length digest, hexChars_lower digest⟩
  · unfold fmtInt
    split_ifs <;> rfl

/-- C30. Field-boundary ambiguity of the signature: `generateSignature` gives the same
signature for nonce `a ++ b` with body `c` as for nonce `a` with body `b ++ c`, for every
secret; hence inside the acceptance window `VerifySignature` accepts, for a request with
nonce `a` and body `b ++ c`, the signature produced for nonce `a ++ b` and body `c`. -/
theorem field_boundary_ambiguity (hmac : HMAC) (now : Int) (apiKey : APIKey) (timestamp : Int)
    (a b c : String) (hpast : now - timestamp ≤ 300) (hfuture : timestamp - now ≤ 60) :
    (∀ secret, generateSignature hmac timestamp (a ++ b) c secret
      = generateSignature hmac timestamp a (b ++ c) secret) ∧
    VerifySignature hmac now apiKey timestamp a
      (generateSignature hmac timestamp (a ++ b) c apiKey.Secret) (b ++ c) = Except.ok () := by
  have hsame : ∀ secret, generateSignature hmac timestamp (a ++ b) c secret
      = generateSignature hmac timestamp a (b ++ c) secret := by
    intro secret
    unfold generateSignature signStr
    simp only [String.append_assoc]
  refine ⟨hsame, ?_⟩
  rw [VerifySignature_in_window hmac now apiKey timestamp a _ (b ++ c) hpast hfuture,
    hsame apiKey.Secret]
  simp

/-- Witness of C30: a signature made for nonce `n1x` and body `yz` is accepted for nonce `n1`
and body `xyz`. -/
theorem field_boundary_ambiguity_witness :
    generateSignature toyHmac 1700000000 ("n1" ++ "x") "yz" "s3cret"
      = generateSignature toyHmac 1700000000 "n1" ("x" ++ "yz") "s3cret" ∧
    VerifySignature toyHmac 1700000010 sampleKey 1700000000 "n1"
      (generateSignature toyHmac 1700000000 ("n1" ++ "x") "yz" sampleKey.Secret) ("x" ++ "yz")
      = Except.ok () :=
  ⟨(field_boundary_ambiguity toyHmac 1700000010 sampleKey 1700000000 "n1" "x" "yz"
      (by decide) (by decide)).1 "s3cret",
    (field_boundary_ambiguity toyHmac 1700000010 sampleKey 1700000000 "n1" "x" "yz"
      (by decide) (by decide)).2⟩

/-! ## Unguarded claim and expiry sweep -/

set_option maxRecDepth 100000 in
/-- C21 (counterexample). `MarkOrderAsUsed` applied to the pending `pendingOrder`, to the
expired `expiredOrder` and to the used `usedOrder` (inbound id 5) sets each to `"used"` with
inbound id 7 and a new used-at time. -/
theorem MarkOrderAsUsed_ignores_status :
    (pendingOrder.Status = "pending" ∧
      MarkOrderAsUsed [pendingOrder] 1700000000 "O1" 7
        = [{ pendingOrder with Status := "used", InboundId := 7, UsedAt := 1700000000000 }]) ∧
    (expiredOrder.Status = "expired" ∧
      MarkOrderAsUsed [expiredOrder] 1700000000 "O1" 7
        = [{ expiredOrder with Status := "used", InboundId := 7, UsedAt := 1700000000000 }]) ∧
    (usedOrder.Status = "used" ∧ usedOrder.InboundId = 5 ∧
      MarkOrderAsUsed [usedOrder] 1700000000 "O1" 7
        = [{ usedOrder with InboundId := 7, UsedAt := 1700000000000 }]) := by
  decide

/-- C21 (amended). `MarkOrderAsUsed(orderId, inboundId)` sets status `"used"`, the inbound id
and the used-at time on every order of that order id, whatever its current status, and leaves
the orders of other ids unchanged. The test for `"paid"` is made by the caller: when a run of
`CreateInbound` changes the order table through `MarkOrderAsUsed`, `VerifyOrder` had found the
order of the request with status `"paid"`. -/
theorem MarkOrderAsUsed_unconditional (db : List Order) (now : Int) (orderId : String)
    (inboundId : Int) (faults : Faults) (rnd : List Byte) (seq : String)
    (nowVerify : Int) (inbounds : List Inbound) (bind : Except String CreateInboundRequest) :
    List.Forall₂ (fun o o2 =>
        (o.OrderId = orderId → o2 = { o with Status := "used", InboundId := inboundId,
                                             UsedAt := wrap64 (now * 1000) }) ∧
        (o.OrderId ≠ orderId → o2 = o))
      db (MarkOrderAsUsed db now orderId inboundId) ∧
    ((CreateInbound faults rnd seq nowVerify now db inbounds bind).2.1 = db ∨
      (∃ req, bind = Except.ok req ∧
        (CreateInbound faults rnd seq nowVerify now db inbounds bind).2.1
          = UpdateOrderStatus db nowVerify req.OrderId "expired") ∨
      (∃ (req : CreateInboundRequest) (order : Order) (stored : Inbound),
        bind = Except.ok req ∧
        GetOrderByOrderId db req.OrderId = some order ∧ order.Status = "paid" ∧
        (CreateInbound faults rnd seq nowVerify now db inbounds bind).2.1
          = MarkOrderAsUsed db now req.OrderId stored.Id)) := by
  constructor
  · unfold MarkOrderAsUsed
    apply forall₂_map_self
    intro x _
    constructor
    · intro hid
      rw [if_pos hid]
    · intro hid
      rw [if_neg hid]
  · rcases CreateInbound_tables faults rnd seq nowVerify now db inbounds bind
      with ⟨-, -, h | h⟩ | ⟨req, order, stored, hb, hg, hpaid, -, -, -, -, ho, -⟩
    · exact Or.inl h
    · exact Or.inr (Or.inl h)
    · cases hm : faults.markOrderAsUsed with
      | true =>
        rw [hm] at ho
        exact Or.inl (by simpa using ho)
      | false =>
        rw [hm] at ho
        exact Or.inr (Or.inr ⟨req, order, stored, hb, hg, hpaid, by simpa using ho⟩)

/-- C26. Expiry sweep: at a clock reading `nowUnix` (seconds, with `nowUnix * 1000` inside
`int64`) `CleanupExpiredOrders` sets the status to `"expired"`, and changes no other field,
for exactly the orders with `ExpiresAt > 0`, `ExpiresAt < nowUnix * 1000` and status
`"pending"` or `"paid"`; every other order, in particular every used or already expired one,
is unchanged. -/
theorem CleanupExpiredOrders_sweep (db : List Order) (nowUnix : Int)
    (hclock : 0 ≤ nowUnix ∧ nowUnix * 1000 ≤ 9223372036854775807) :
    List.Forall₂ (fun o o2 =>
        ((o.ExpiresAt > 0 ∧ o.ExpiresAt < nowUnix * 1000
            ∧ (o.Status = "pending" ∨ o.Status = "paid")) →
          o2 = { o with Status := "expired" }) ∧
        (¬ (o.ExpiresAt > 0 ∧ o.ExpiresAt < nowUnix * 1000
            ∧ (o.Status = "pending" ∨ o.Status = "paid")) → o2 = o) ∧
        ((o.Status = "used" ∨ o.Status = "expired") → o2 = o))
      db (CleanupExpiredOrders db nowUnix) := by
  have hwrap : wrap64 (nowUnix * 1000) = nowUnix * 1000 :=
    wrap64_eq_self _ (by omega) hclock.2
  unfold CleanupExpiredOrders
  rw [hwrap]
  apply forall₂_map_self
  intro x _
  refine ⟨?_, ?_, ?_⟩
  · intro h
    rw [if_pos h]
  · intro h
    rw [if_neg h]
  · intro hterm
    by_cases h : x.ExpiresAt > 0 ∧ x.ExpiresAt < nowUnix * 1000
        ∧ (x.Status = "pending" ∨ x.Status = "paid")
    · exfalso
      rcases h.2.2 with hp | hp <;> rw [hp] at hterm <;> rcases hterm with h2 | h2 <;>
        exact absurd h2 (by decide)
    · rw [if_neg h]

set_option maxRecDepth 100000 in
/-- Witness of C26: one second after the expiry time of `sampleOrder`, the sweep expires the
paid `sampleOrder` and the pending `pendingOrder` and leaves the used `usedOrder` alone. -/
theorem CleanupExpiredOrders_sweep_witness :
    List.Forall₂ (fun o o2 =>
        ((o.ExpiresAt > 0 ∧ o.ExpiresAt < (1700000001 : Int) * 1000
            ∧ (o.Status = "pending" ∨ o.Status = "paid")) →
          o2 = { o with Status := "expired" }) ∧
        (¬ (o.ExpiresAt > 0 ∧ o.ExpiresAt < (1700000001 : Int) * 1000
            ∧ (o.Status = "pending" ∨ o.Status = "paid")) → o2 = o) ∧
        ((o.Status = "used" ∨ o.Status = "expired") → o2 = o))
      [sampleOrder, pendingOrder, usedOrder]
      (CleanupExpiredOrders [sampleOrder, pendingOrder, usedOrder] 1700000001) ∧
    CleanupExpiredOrders [sampleOrder, pendingOrder, usedOrder] 1700000001
      = [{ sampleOrder with Status := "expired" }, { pendingOrder with Status := "expired" },
          usedOrder] :=
  ⟨CleanupExpiredOrders_sweep [sampleOrder, pendingOrder, usedOrder] 1700000001 (by decide),
    by decide⟩

/-! ## Rate budget and timestamp scanning in the middleware -/

/-- An admitted call records its clock reading after the remaining window of the key. -/
theorem CheckRateLimit_admitted (rl : RateLimiter) (now : Int) (key : String) (limit : Int)
    (h : (CheckRateLimit rl now key limit).1 = true) :
    (CheckRateLimit rl now key limit).2.requests key
      = some (remainingWindow rl now key ++ [now]) := by
  unfold CheckRateLimit remainingWindow at *
  cases hw : rl.requests key with
  | none => simp [RateLimiter.set]
  | some w =>
    rw [hw] at h
    simp only [Option.getD_some] at h ⊢
    by_cases hc : ((w.filter (fun t => decide (wrap64 (now - t) < 60))).length : Int) ≥ limit
    · rw [if_pos hc] at h
      simp at h
    · rw [if_neg hc]
      simp [RateLimiter.set]

/-- The limiter the middleware leaves behind: the one it found when the request fails before
the rate check, the one `CheckRateLimit` returns otherwise. -/
theorem APIAuthMiddleware_limiter (hmac : HMAC) (db : List APIKey) (rl : RateLimiter)
    (nowRL nowSig : Int) (req : Request) :
    ((GetHeader req "X-API-Key" = "" ∨
        ∃ e, VerifyAPIKey db (GetHeader req "X-API-Key") req.remoteIp = Except.error e) →
      (APIAuthMiddleware hmac db rl nowRL nowSig req).2 = rl) ∧
    (∀ keyInfo, GetHeader req "X-API-Key" ≠ "" →
      VerifyAPIKey db (GetHeader req "X-API-Key") req.remoteIp = Except.ok keyInfo →
      (APIAuthMiddleware hmac db rl nowRL nowSig req).2
        = (CheckRateLimit rl nowRL (GetHeader req "X-API-Key") keyInfo.RateLimit).2) := by
  constructor
  · intro h
    unfold APIAuthMiddleware
    rcases h with h | ⟨e, he⟩
    · simp [h]
    · by_cases hk : GetHeader req "X-API-Key" = ""
      · simp [hk]
      · simp [hk, he]
  · intro keyInfo hk hv
    unfold APIAuthMiddleware
    simp only [hk, if_false, hv]
    rcases hc : CheckRateLimit rl nowRL (GetHeader req "X-API-Key") keyInfo.RateLimit
      with ⟨b, rl1⟩
    cases b with
    | false => rfl
    | true =>
      simp only
      split_ifs
      · rfl
      · cases Sscanf_d (GetHeader req "X-Timestamp") with
        | none => rfl
        | some ts =>
          cases req.body with
          | none => rfl
          | some body =>
            simp only
            cases VerifySignature hmac nowSig keyInfo ts (GetHeader req "X-Nonce")
              (GetHeader req "X-Signature") body <;> rfl

/-- C24. Rate-budget bookkeeping: a request rejected for a missing key or by the credential
check (unknown key, disabled key, disallowed address) leaves the limiter as it was. A request
that passes those checks and is admitted by the limiter has its arrival time appended to the
remaining window of its key, whatever the middleware decides afterwards: missing signature
parameters, a timestamp that does not scan, a body that cannot be read, the expiry or the
signature error of `VerifySignature`, or acceptance. -/
theorem rate_budget_bookkeeping (hmac : HMAC) (db : List APIKey) (rl : RateLimiter)
    (nowRL nowSig : Int) (req : Request) :
    ((APIAuthMiddleware hmac db rl nowRL nowSig req).1 = Outcome.abort AuthError.MissingKey →
      (APIAuthMiddleware hmac db rl nowRL nowSig req).2 = rl) ∧
    (∀ e, (APIAuthMiddleware hmac db rl nowRL nowSig req).1
        = Outcome.abort (AuthError.KeyVerification e) →
      (APIAuthMiddleware hmac db rl nowRL nowSig req).2 = rl) ∧
    (∀ keyInfo, GetHeader req "X-API-Key" ≠ "" →
      VerifyAPIKey db (GetHeader req "X-API-Key") req.remoteIp = Except.ok keyInfo →
      (CheckRateLimit rl nowRL (GetHeader req "X-API-Key") keyInfo.RateLimit).1 = true →
      (APIAuthMiddleware hmac db rl nowRL nowSig req).2.requests (GetHeader req "X-API-Key")
          = some (remainingWindow rl nowRL (GetHeader req "X-API-Key") ++ [nowRL]) ∧
      ((APIAuthMiddleware hmac db rl nowRL nowSig req).1
          = Outcome.abort AuthError.MissingSignatureParams ∨
        (APIAuthMiddleware hmac db rl nowRL nowSig req).1
          = Outcome.abort AuthError.BadTimestamp ∨
        (APIAuthMiddleware hmac db rl nowRL nowSig req).1
          = Outcome.abort AuthError.BodyReadFailed ∨
        (APIAuthMiddleware hmac db rl nowRL nowSig req).1
          = Outcome.abort (AuthError.Signature SignatureError.Expired) ∨
        (APIAuthMiddleware hmac db rl nowRL nowSig req).1
          = Outcome.abort (AuthError.Signature SignatureError.BadSignature) ∨
        (APIAuthMiddleware hmac db rl nowRL nowSig req).1 = Outcome.next keyInfo)) := by
  have hlim := APIAuthMiddleware_limiter hmac db rl nowRL nowSig req
  have hearly : ∀ keyInfo, GetHeader req "X-API-Key" ≠ "" →
      VerifyAPIKey db (GetHeader req "X-API-Key") req.remoteIp = Except.ok keyInfo →
      (APIAuthMiddleware hmac db rl nowRL nowSig req).1 ≠ Outcome.abort AuthError.MissingKey ∧
      ∀ e, (APIAuthMiddleware hmac db rl nowRL nowSig req).1
        ≠ Outcome.abort (AuthError.KeyVerification e) := by
    intro keyInfo hk hv
    unfold APIAuthMiddleware
    simp only [hk, if_false, hv]
    rcases CheckRateLimit rl nowRL (GetHeader req "X-API-Key") keyInfo.RateLimit with ⟨b, rl1⟩
    cases b with
    | false => simp
    | true =>
      simp only
      split_ifs
      · simp
      · cases Sscanf_d (GetHeader req "X-Timestamp") with
        | none => simp
        | some ts =>
          cases req.body with
          | none => simp
          | some body =>
            simp only
            cases VerifySignature hmac nowSig keyInfo ts (GetHeader req "X-Nonce")
              (GetHeader req "X-Signature") body <;> simp
  refine ⟨?_, ?_, ?_⟩
  · intro h
    by_cases hk : GetHeader req "X-API-Key" = ""
    · exact hlim.1 (Or.inl hk)
    · cases hv : VerifyAPIKey db (GetHeader req "X-API-Key") req.remoteIp with
      | error e => exact hlim.1 (Or.inr ⟨e, hv⟩)
      | ok keyInfo => exact absurd h (hearly keyInfo hk hv).1
  · intro e h
    by_cases hk : GetHeader req "X-API-Key" = ""
    · exact hlim.1 (Or.inl hk)
    · cases hv : VerifyAPIKey db (GetHeader req "X-API-Key") req.remoteIp with
      | error e2 => exact hlim.1 (Or.inr ⟨e2, hv⟩)
      | ok keyInfo => exact absurd h ((hearly keyInfo hk hv).2 e)
  · intro keyInfo hk hv hadm
    constructor
    · rw [hlim.2 keyInfo hk hv]
      exact CheckRateLimit_admitted rl nowRL _ _ hadm
    · unfold APIAuthMiddleware
      simp only [hk, if_false, hv]
      rcases hc : CheckRateLimit rl nowRL (GetHeader req "X-API-Key") keyInfo.RateLimit
        with ⟨b, rl1⟩
      rw [hc] at hadm
      simp only at hadm
      subst hadm
      simp only
      split_ifs
      · simp
      · cases Sscanf_d (GetHeader req "X-Timestamp") with
        | none => simp
        | some ts =>
          cases req.body with
          | none => simp
          | some body =>
            simp only
            cases hs : VerifySignature hmac nowSig keyInfo ts (GetHeader req "X-Nonce")
              (GetHeader req "X-Signature") body with
            | error e => cases e <;> simp
            | ok u => simp

set_option maxRecDepth 100000 in
/-- A concrete instance of C24: `badSignatureReq` is rejected for its signature at clock
reading 1700000005, and the window of its key then holds that reading. -/
theorem rate_budget_bookkeeping_witness :
    (APIAuthMiddleware toyHmac [sampleKey] NewRateLimiter 1700000005 1700000005
        badSignatureReq).1
      = Outcome.abort (AuthError.Signature SignatureError.BadSignature) ∧
    (APIAuthMiddleware toyHmac [sampleKey] NewRateLimiter 1700000005 1700000005
        badSignatureReq).2.requests (GetHeader badSignatureReq "X-API-Key")
      = some (remainingWindow NewRateLimiter 1700000005 (GetHeader badSignatureReq "X-API-Key")
          ++ [1700000005]) :=
  ⟨by decide,
    ((rate_budget_bookkeeping toyHmac [sampleKey] NewRateLimiter 1700000005 1700000005
      badSignatureReq).2.2 sampleKey (by decide) (by decide) (by decide)).1⟩

set_option maxRecDepth 100000 in
/-- C27 (the code at the failing input). The header value `1700000000abc` is not a decimal
integer (the strict `strconv.ParseInt` of the proxy rejects it), yet the `fmt.Sscanf` of the
middleware scans it to 1700000000, and the middleware hands `garbageTimestampReq`, signed for
timestamp 1700000000, to the next handler instead of rejecting it as a malformed
timestamp. -/
theorem malformed_timestamp_accepted :
    ParseInt10 "1700000000abc" = none ∧
    Sscanf_d (GetHeader garbageTimestampReq "X-Timestamp") = some 1700000000 ∧
    (APIAuthMiddleware toyHmac [sampleKey] NewRateLimiter 1700000005 1700000005
        garbageTimestampReq).1 = Outcome.next sampleKey ∧
    (APIAuthMiddleware toyHmac [sampleKey] NewRateLimiter 1700000005 1700000005
        garbageTimestampReq).1 ≠ Outcome.abort AuthError.BadTimestamp := by
  decide

/-! ## Inserted rows: tag, interleaving -/

/-- The row steps 7 to 11 append, if any: the inbound they were given, under a fresh key. -/
theorem persistAndMark_row (faults : Faults) (nowMark : Int) (orders : List Order)
    (inbounds : List Inbound) (req : CreateInboundRequest) (inbound : Inbound) :
    (persistAndMark faults nowMark orders inbounds req inbound).2.2 = inbounds ∨
    ((persistAndMark faults nowMark orders inbounds req inbound).2.2
        = inbounds ++ [{ inbound with Id := nextId (inbounds.map (fun i => i.Id)) }] ∧
      (∀ i ∈ inbounds, i.Port ≠ inbound.Port) ∧
      ∀ created, (persistAndMark faults nowMark orders inbounds req inbound).1
        = CreateInboundReply.success created →
        created.Id = nextId (inbounds.map (fun i => i.Id))) := by
  rcases persistAndMark_tables faults nowMark orders inbounds req inbound
    with ⟨e, -, h⟩ | ⟨stored, ha, h1, -, h3⟩
  · left
    rw [h]
  · right
    obtain ⟨-, hst, -, hport, -⟩ := AddInbound_ok ha
    refine ⟨by rw [h1, hst], hport, ?_⟩
    intro created hc
    rw [h3 created hc, hst]

/-- A reply of success from steps 7 to 11 means a row was appended. -/
theorem persistAndMark_success {faults : Faults} {nowMark : Int} {orders : List Order}
    {inbounds : List Inbound} {req : CreateInboundRequest} {inbound created : Inbound}
    (h : (persistAndMark faults nowMark orders inbounds req inbound).1
      = CreateInboundReply.success created) :
    (persistAndMark faults nowMark orders inbounds req inbound).2.2
        = inbounds ++ [{ inbound with Id := nextId (inbounds.map (fun i => i.Id)) }] ∧
      (∀ i ∈ inbounds, i.Port ≠ inbound.Port) ∧
      created.Id = nextId (inbounds.map (fun i => i.Id)) := by
  rcases persistAndMark_tables faults nowMark orders inbounds req inbound
    with ⟨e, -, he⟩ | ⟨stored, ha, h1, -, h3⟩
  · rw [he] at h
    cases h
  · obtain ⟨-, hst, -, hport, -⟩ := AddInbound_ok ha
    exact ⟨by rw [h1, hst], hport, by rw [h3 created h, hst]⟩

/-- The row a run of `CreateInbound` appends, if any: the inbound of step 6 for the request
and some port, under a fresh key. -/
theorem CreateInbound_row (faults : Faults) (rnd : List Byte) (seq : String)
    (nowVerify nowMark : Int) (orders : List Order) (inbounds : List Inbound)
    (bind : Except String CreateInboundRequest) :
    (CreateInbound faults rnd seq nowVerify nowMark orders inbounds bind).2.2 = inbounds ∨
    ∃ req port, bind = Except.ok req ∧
      (CreateInbound faults rnd seq nowVerify nowMark orders inbounds bind).2.2
        = inbounds ++ [{ buildInbound rnd seq req port with
            Id := nextId (inbounds.map (fun i => i.Id)) }] := by
  cases bind with
  | error e => exact Or.inl rfl
  | ok req =>
    rcases hv : VerifyOrder orders nowVerify req.OrderId with ⟨r, orders1⟩
    cases r with
    | error e =>
      rw [CreateInbound_of_verify_error faults rnd seq nowVerify nowMark orders orders1 inbounds
        req e hv]
      exact Or.inl rfl
    | ok order =>
      rw [CreateInbound_of_verified faults rnd seq nowVerify nowMark orders orders1 inbounds
        req order hv]
      split_ifs
      · exact Or.inl rfl
      · exact Or.inl rfl
      · cases hc : choosePort faults inbounds req with
        | error e => exact Or.inl rfl
        | ok port =>
          simp only
          rcases persistAndMark_row faults nowMark orders inbounds req
            (buildInbound rnd seq req port) with h | ⟨h, -, -⟩
          · exact Or.inl h
          · exact Or.inr ⟨req, port, rfl, h⟩

theorem inbound_tag_inj {p q : Int} (h : "inbound-" ++ fmtInt p = "inbound-" ++ fmtInt q) :
    p = q := by
  have hd := congrArg String.data h
  simp only [String.data_append] at hd
  exact fmtInt_injective (String.ext (List.append_cancel_left hd))

/-- C29. Tag uniqueness: an inbound inserted by `CreateInbound` has the tag `inbound-`
followed by the decimal rendering of its port, so its tag differs from the tag of every
inbound so tagged that has a different port, in particular of every other inbound inserted by
`CreateInbound` on a different port. -/
theorem tag_of_inserted (faults : Faults) (rnd : List Byte) (seq : String)
    (nowVerify nowMark : Int) (orders : List Order) (inbounds : List Inbound)
    (bind : Except String CreateInboundRequest) (stored : Inbound)
    (h : (CreateInbound faults rnd seq nowVerify nowMark orders inbounds bind).2.2
      = inbounds ++ [stored]) :
    stored.Tag = "inbound-" ++ fmtInt stored.Port ∧
    ∀ other : Inbound, other.Tag = "inbound-" ++ fmtInt other.Port →
      stored.Port ≠ other.Port → stored.Tag ≠ other.Tag := by
  have htag : stored.Tag = "inbound-" ++ fmtInt stored.Port := by
    rcases CreateInbound_row faults rnd seq nowVerify nowMark orders inbounds bind
      with h0 | ⟨req, port, -, h1⟩
    · rw [h0] at h
      have hl := congrArg List.length h
      simp at hl
    · rw [h1] at h
      have hs := List.append_cancel_left h
      simp only [List.cons.injEq, and_true] at hs
      rw [← hs]
      rfl
  refine ⟨htag, ?_⟩
  intro other ho hne heq
  rw [htag, ho] at heq
  exact hne (inbound_tag_inj heq)

set_option maxRecDepth 100000 in
/-- Witness of C29: the inbound inserted for `sampleRequest` into an empty table has port
10000 and tag `inbound-10000`. -/
theorem tag_of_inserted_witness :
    ({ buildInbound [] "pw" sampleRequest 10000 with Id := 1 } : Inbound).Tag
      = "inbound-" ++ fmtInt
        ({ buildInbound [] "pw" sampleRequest 10000 with Id := 1 } : Inbound).Port ∧
    ({ buildInbound [] "pw" sampleRequest 10000 with Id := 1 } : Inbound).Tag = "inbound-10000" :=
  ⟨(tag_of_inserted noFaults [] "pw" 1699999999 1699999999 [sampleOrder] []
      (Except.ok sampleRequest) { buildInbound [] "pw" sampleRequest 10000 with Id := 1 }
      (by decide)).1, by decide⟩

theorem foldl_max_ge (l : List Int) : ∀ a : Int, a ≤ l.foldl max a ∧ ∀ x ∈ l, x ≤ l.foldl max a := by
  induction l with
  | nil => intro a; exact ⟨le_refl a, by simp⟩
  | cons y rest ih =>
    intro a
    obtain ⟨h1, h2⟩ := ih (max a y)
    simp only [List.foldl_cons]
    refine ⟨le_trans (le_max_left a y) h1, ?_⟩
    intro x hx
    rcases List.mem_cons.mp hx with h | h
    · rw [h]
      exact le_trans (le_max_right a y) h1
    · exact h2 x h

/-- The fresh key is larger than every key in use. -/
theorem lt_nextId {ids : List Int} {x : Int} (h : x ∈ ids) : x < nextId ids := by
  unfold nextId
  have := (foldl_max_ge ids 0).2 x h
  omega

/-- The split of `CreateInbound` into its two phases is the method itself. -/
theorem CreateInbound_phases (faults : Faults) (rnd : List Byte) (seq : String)
    (nowVerify nowMark : Int) (orders : List Order) (inbounds : List Inbound)
    (req : CreateInboundRequest) :
    CreateInbound faults rnd seq nowVerify nowMark orders inbounds (Except.ok req)
      = match (verifyPhase faults nowVerify orders inbounds req).1 with
        | some reply => (reply, (verifyPhase faults nowVerify orders inbounds req).2, inbounds)
        | none =>
          provisionPhase faults rnd seq nowMark
            (verifyPhase faults nowVerify orders inbounds req).2 inbounds req := by
  rcases hv : VerifyOrder orders nowVerify req.OrderId with ⟨r, orders1⟩
  cases r with
  | error e =>
    rw [CreateInbound_of_verify_error faults rnd seq nowVerify nowMark orders orders1 inbounds
      req e hv]
    unfold verifyPhase
    simp only [hv]
  | ok order =>
    rw [CreateInbound_of_verified faults rnd seq nowVerify nowMark orders orders1 inbounds
      req order hv]
    obtain ⟨rfl, -, hpaid⟩ := VerifyOrder_ok hv
    have hnu : ¬ (order.Status = "used" ∧ order.InboundId > 0) := by
      rw [hpaid]
      intro h
      exact absurd h.1 (by decide)
    unfold verifyPhase provisionPhase
    simp only [hv, if_neg hnu]
    by_cases hu : order.UserId ≠ req.UserId
    · simp only [if_pos hu]
    · simp only [if_neg hu]
      by_cases hp : validProtocols req.Protocol = false
      · simp only [if_pos hp]
      · simp only [if_neg hp]

/-- Steps 1 to 4 never end in a success reply: an order that `VerifyOrder` returns is paid,
so the branch for a used order is not taken. -/
theorem verifyPhase_not_success (faults : Faults) (nowVerify : Int) (orders : List Order)
    (inbounds : List Inbound) (req : CreateInboundRequest) (created : Inbound) :
    (verifyPhase faults nowVerify orders inbounds req).1
      ≠ some (CreateInboundReply.success created) := by
  unfold verifyPhase
  rcases hv : VerifyOrder orders nowVerify req.OrderId with ⟨r, orders1⟩
  cases r with
  | error e => simp
  | ok order =>
    obtain ⟨-, -, hpaid⟩ := VerifyOrder_ok hv
    have hnu : ¬ (order.Status = "used" ∧ order.InboundId > 0) := by
      rw [hpaid]
      intro h
      exact absurd h.1 (by decide)
    simp only [if_neg hnu]
    split_ifs <;> simp

/-- A success reply of steps 5 to 11 means a row was appended under a fresh key, on a port no
earlier row has; the reply carries that key. -/
theorem provisionPhase_success {faults : Faults} {rnd : List Byte} {seq : String}
    {nowMark : Int} {orders : List Order} {inbounds : List Inbound}
    {req : CreateInboundRequest} {created : Inbound}
    (h : (provisionPhase faults rnd seq nowMark orders inbounds req).1
      = CreateInboundReply.success created) :
    ∃ stored, (provisionPhase faults rnd seq nowMark orders inbounds req).2.2
        = inbounds ++ [stored] ∧
      stored.Id = nextId (inbounds.map (fun i => i.Id)) ∧ created.Id = stored.Id ∧
      ∀ i ∈ inbounds, i.Port ≠ stored.Port := by
  unfold provisionPhase at h ⊢
  cases hc : choosePort faults inbounds req with
  | error e =>
    rw [hc] at h
    cases h
  | ok port =>
    rw [hc] at h
    simp only at h ⊢
    obtain ⟨h1, h2, h3⟩ := persistAndMark_success h
    exact ⟨_, h1, rfl, h3, h2⟩

set_option maxRecDepth 100000 in
/-- C23 (counterexample). Two requests `sampleRequest` for the paid `sampleOrder`, interleaved
so that both pass steps 1 to 4 before either inserts: both report success, the first with the
inbound of id 1 on port 10000 and the second with the inbound of id 2 on port 10001, and the
inbound table holds two records. -/
theorem concurrent_requests_provision_twice :
    (interleavedCreateInbound sampleCall sampleCall sampleRequest sampleRequest
        [sampleOrder] []).1
      = (CreateInboundReply.success { buildInbound [] "pw" sampleRequest 10000 with Id := 1 },
          CreateInboundReply.success { buildInbound [] "pw" sampleRequest 10001 with Id := 2 }) ∧
    (interleavedCreateInbound sampleCall sampleCall sampleRequest sampleRequest
        [sampleOrder] []).2.2
      = [{ buildInbound [] "pw" sampleRequest 10000 with Id := 1 },
          { buildInbound [] "pw" sampleRequest 10001 with Id := 2 }] := by
  decide

/-- Steps 1 to 4 of `CreateInbound` let a request through to the port handling, and write
nothing, when `VerifyOrder` returns an order of the request's user and the protocol is one of
the four. -/
theorem verifyPhase_pass (faults : Faults) (nowVerify : Int) (orders : List Order)
    (inbounds : List Inbound) (req : CreateInboundRequest) (order : Order)
    (hv : (VerifyOrder orders nowVerify req.OrderId).1 = Except.ok order)
    (hu : order.UserId = req.UserId) (hp : validProtocols req.Protocol = true) :
    verifyPhase faults nowVerify orders inbounds req = (none, orders) := by
  rcases hv2 : VerifyOrder orders nowVerify req.OrderId with ⟨r, orders1⟩
  rw [hv2] at hv
  simp only at hv
  subst hv
  obtain ⟨rfl, -, hpaid⟩ := VerifyOrder_ok hv2
  have hnu : ¬ (order.Status = "used" ∧ order.InboundId > 0) := by
    rw [hpaid]
    intro h
    exact absurd h.1 (by decide)
  unfold verifyPhase
  simp only [hv2, if_neg hnu]
  rw [if_neg (by simp [hu]), if_neg (by simp [hp])]

/-- When both replies of the interleaved run are successes, two rows were appended, under
increasing keys and on different ports, and each reply carries the key of its row. -/
theorem interleavedCreateInbound_success (c1 c2 : CreateInboundCall)
    (req1 req2 : CreateInboundRequest) (orders : List Order) (inbounds : List Inbound)
    (created1 created2 : Inbound)
    (h : (interleavedCreateInbound c1 c2 req1 req2 orders inbounds).1
      = (CreateInboundReply.success created1, CreateInboundReply.success created2)) :
    ∃ s1 s2, (interleavedCreateInbound c1 c2 req1 req2 orders inbounds).2.2
        = inbounds ++ [s1, s2] ∧
      created1.Id = s1.Id ∧ created2.Id = s2.Id ∧ s1.Id < s2.Id ∧ s1.Port ≠ s2.Port := by
  unfold interleavedCreateInbound at h ⊢
  rcases hv1 : verifyPhase c1.faults c1.nowVerify orders inbounds req1 with ⟨early1, orders1⟩
  rcases hv2 : verifyPhase c2.faults c2.nowVerify orders1 inbounds req2 with ⟨early2, orders2⟩
  rw [hv1] at h
  simp only [hv2] at h ⊢
  have hn1 := verifyPhase_not_success c1.faults c1.nowVerify orders inbounds req1 created1
  have hn2 := verifyPhase_not_success c2.faults c2.nowVerify orders1 inbounds req2 created2
  rw [hv1] at hn1
  rw [hv2] at hn2
  simp only at hn1 hn2
  cases early1 with
  | some reply1 =>
    simp only [Prod.mk.injEq] at h
    rw [h.1] at hn1
    exact absurd rfl hn1
  | none =>
    simp only at h ⊢
    rcases hp1 : provisionPhase c1.faults c1.rnd c1.seq c1.nowMark orders2 inbounds req1
      with ⟨reply1, orders3, inbounds3⟩
    rw [hp1] at h
    simp only at h ⊢
    cases early2 with
    | some reply2 =>
      simp only [Prod.mk.injEq] at h
      rw [h.2] at hn2
      exact absurd rfl hn2
    | none =>
      simp only at h ⊢
      rcases hp2 : provisionPhase c2.faults c2.rnd c2.seq c2.nowMark orders3 inbounds3 req2
        with ⟨reply2, orders4, inbounds4⟩
      rw [hp2] at h
      simp only [Prod.mk.injEq] at h
      obtain ⟨hr1, hr2⟩ := h
      subst hr1
      subst hr2
      have hs1 : (provisionPhase c1.faults c1.rnd c1.seq c1.nowMark orders2 inbounds req1).1
          = CreateInboundReply.success created1 := by rw [hp1]
      have hs2 : (provisionPhase c2.faults c2.rnd c2.seq c2.nowMark orders3 inbounds3 req2).1
          = CreateInboundReply.success created2 := by rw [hp2]
      obtain ⟨s1, ht1, hid1, hc1, -⟩ := provisionPhase_success hs1
      obtain ⟨s2, ht2, hid2, hc2, hport2⟩ := provisionPhase_success hs2
      rw [hp1] at ht1
      rw [hp2] at ht2
      simp only at ht1 ht2
      subst ht1
      refine ⟨s1, s2, ?_, hc1, hc2, ?_, ?_⟩
      · rw [ht2]
        simp
      · rw [hid2]
        apply lt_nextId
        simp
      · exact hport2 s1 (by simp)

/-- The order table steps 5 to 11 leave behind when they reply with success and the update of
`MarkOrderAsUsed` did not fail: the order of the request is used, with the key in the reply. -/
theorem provisionPhase_marks {faults : Faults} {rnd : List Byte} {seq : String}
    {nowMark : Int} {orders : List Order} {inbounds : List Inbound}
    {req : CreateInboundRequest} {created : Inbound} {order : Order}
    (h : (provisionPhase faults rnd seq nowMark orders inbounds req).1
      = CreateInboundReply.success created)
    (hmark : faults.markOrderAsUsed = false)
    (hg : GetOrderByOrderId orders req.OrderId = some order) :
    GetOrderByOrderId (provisionPhase faults rnd seq nowMark orders inbounds req).2.1 req.OrderId
      = some { order with Status := "used", InboundId := created.Id,
                          UsedAt := wrap64 (nowMark * 1000) } := by
  unfold provisionPhase at h ⊢
  cases hc : choosePort faults inbounds req with
  | error e =>
    rw [hc] at h
    cases h
  | ok port =>
    rw [hc] at h
    simp only at h ⊢
    rcases persistAndMark_tables faults nowMark orders inbounds req (buildInbound rnd seq req port)
      with ⟨e, -, he⟩ | ⟨stored, -, -, ho, hid⟩
    · rw [he] at h
      cases h
    · rw [ho, hmark, if_neg (by decide), hid created h]
      exact GetOrderByOrderId_MarkOrderAsUsed nowMark stored.Id hg

/-- C23 (amended). `CreateInbound` is its steps 1 to 4 followed by its steps 5 to 11, takes no
lock, and marks the order as used only after the insert. In the interleaving in which two
requests for the same paid order both pass steps 1 to 4 before either runs steps 5 to 11, the
second request runs its port handling and its insert on the tables the first left, also when
the first succeeded and the order is by then used with the first inbound. Whenever both
requests of that interleaving report success, two inbound records were created, on different
ports, and the callers receive different inbound ids. Run one after the other, a first request
that succeeds (its `MarkOrderAsUsed` update not failing) creates one inbound record and the
second request inserts nothing. -/
theorem interleaved_double_provisioning :
    (∀ (faults : Faults) (rnd : List Byte) (seq : String) (nowVerify nowMark : Int)
        (tbl : List Order) (inb : List Inbound) (req : CreateInboundRequest),
      CreateInbound faults rnd seq nowVerify nowMark tbl inb (Except.ok req)
        = match (verifyPhase faults nowVerify tbl inb req).1 with
          | some reply => (reply, (verifyPhase faults nowVerify tbl inb req).2, inb)
          | none =>
            provisionPhase faults rnd seq nowMark (verifyPhase faults nowVerify tbl inb req).2
              inb req) ∧
    (∀ (c1 c2 : CreateInboundCall) (req1 req2 : CreateInboundRequest) (orders : List Order)
        (inbounds : List Inbound) (order : Order) (reply1 : CreateInboundReply)
        (orders3 : List Order) (inbounds3 : List Inbound),
      req2.OrderId = req1.OrderId →
      (VerifyOrder orders c1.nowVerify req1.OrderId).1 = Except.ok order →
      (VerifyOrder orders c2.nowVerify req2.OrderId).1 = Except.ok order →
      order.UserId = req1.UserId → order.UserId = req2.UserId →
      validProtocols req1.Protocol = true → validProtocols req2.Protocol = true →
      provisionPhase c1.faults c1.rnd c1.seq c1.nowMark orders inbounds req1
        = (reply1, orders3, inbounds3) →
      interleavedCreateInbound c1 c2 req1 req2 orders inbounds
        = ((reply1,
            (provisionPhase c2.faults c2.rnd c2.seq c2.nowMark orders3 inbounds3 req2).1),
          (provisionPhase c2.faults c2.rnd c2.seq c2.nowMark orders3 inbounds3 req2).2) ∧
      ∀ created1, reply1 = CreateInboundReply.success created1 →
        c1.faults.markOrderAsUsed = false →
        ∃ o, GetOrderByOrderId orders3 req2.OrderId = some o ∧ o.Status = "used" ∧
          o.InboundId = created1.Id) ∧
    (∀ (c1 c2 : CreateInboundCall) (req1 req2 : CreateInboundRequest) (orders : List Order)
        (inbounds : List Inbound) (created1 created2 : Inbound),
      (interleavedCreateInbound c1 c2 req1 req2 orders inbounds).1
        = (CreateInboundReply.success created1, CreateInboundReply.success created2) →
      (∃ s1 s2, (interleavedCreateInbound c1 c2 req1 req2 orders inbounds).2.2
          = inbounds ++ [s1, s2] ∧
        created1.Id = s1.Id ∧ created2.Id = s2.Id ∧ s1.Id < s2.Id ∧ s1.Port ≠ s2.Port) ∧
      created1.Id ≠ created2.Id) ∧
    (∀ (c1 c2 : CreateInboundCall) (req1 req2 : CreateInboundRequest) (orders : List Order)
        (inbounds : List Inbound) (created : Inbound),
      c1.faults.markOrderAsUsed = false → req2.OrderId = req1.OrderId →
      (CreateInbound c1.faults c1.rnd c1.seq c1.nowVerify c1.nowMark orders inbounds
        (Except.ok req1)).1 = CreateInboundReply.success created →
      ∃ stored,
        (CreateInbound c1.faults c1.rnd c1.seq c1.nowVerify c1.nowMark orders inbounds
          (Except.ok req1)).2.2 = inbounds ++ [stored] ∧
        created.Id = stored.Id ∧
        (CreateInbound c2.faults c2.rnd c2.seq c2.nowVerify c2.nowMark
          (CreateInbound c1.faults c1.rnd c1.seq c1.nowVerify c1.nowMark orders inbounds
            (Except.ok req1)).2.1
          (CreateInbound c1.faults c1.rnd c1.seq c1.nowVerify c1.nowMark orders inbounds
            (Except.ok req1)).2.2 (Except.ok req2)).2.2 = inbounds ++ [stored]) := by
  refine ⟨CreateInbound_phases, ?_, ?_, ?_⟩
  · intro c1 c2 req1 req2 orders inbounds order reply1 orders3 inbounds3 hid hv1 hv2 hu1 hu2
      hp1 hp2 hpr
    constructor
    · unfold interleavedCreateInbound
      rw [verifyPhase_pass c1.faults c1.nowVerify orders inbounds req1 order hv1 hu1 hp1]
      simp only
      rw [verifyPhase_pass c2.faults c2.nowVerify orders inbounds req2 order hv2 hu2 hp2]
      simp only
      rw [hpr]
    · intro created1 hs hmark
      rcases hv : VerifyOrder orders c1.nowVerify req1.OrderId with ⟨r, orders1⟩
      rw [hv] at hv1
      simp only at hv1
      subst hv1
      obtain ⟨-, hg, -⟩ := VerifyOrder_ok hv
      have hs1 : (provisionPhase c1.faults c1.rnd c1.seq c1.nowMark orders inbounds req1).1
          = CreateInboundReply.success created1 := by rw [hpr, hs]
      have hm := provisionPhase_marks hs1 hmark hg
      rw [hpr] at hm
      simp only at hm
      rw [hid, hm]
      exact ⟨_, rfl, rfl, rfl⟩
  · intro c1 c2 req1 req2 orders inbounds created1 created2 h
    have hmain := interleavedCreateInbound_success c1 c2 req1 req2 orders inbounds created1
      created2 h
    refine ⟨hmain, ?_⟩
    obtain ⟨s1, s2, -, h1, h2, hlt, -⟩ := hmain
    rw [h1, h2]
    omega
  · intro c1 c2 req1 req2 orders inbounds created hmark hid hsucc
    rcases CreateInbound_tables c1.faults c1.rnd c1.seq c1.nowVerify c1.nowMark orders inbounds
        (Except.ok req1)
      with ⟨-, ⟨e, he⟩, -⟩ | ⟨req, order, stored, hb, hg, -, -, ht, -, -, ho, hcid⟩
    · rw [he] at hsucc
      cases hsucc
    · have hreq : req = req1 := by
        simp only [Except.ok.injEq] at hb
        exact hb.symm
      subst hreq
      refine ⟨stored, ht, hcid created hsucc, ?_⟩
      rw [CreateInbound_of_used c2.faults c2.rnd c2.seq c2.nowVerify c2.nowMark _ _ req2
        { order with Status := "used", InboundId := stored.Id,
                     UsedAt := wrap64 (c1.nowMark * 1000) } ?_ rfl]
      · exact ht
      · rw [ho, hmark, hid]
        simp only [Bool.false_eq_true, if_false]
        exact GetOrderByOrderId_MarkOrderAsUsed c1.nowMark stored.Id hg

set_option maxRecDepth 100000 in
/-- Witness of the amended C23, with two requests `sampleRequest` for the paid `sampleOrder`.
Interleaved, the second request is provisioned on the tables the first left, where the order
is already used with inbound 1, and the callers receive the inbound ids 1 and 2. Run one after
the other, one inbound record is created. -/
theorem interleaved_double_provisioning_witness :
    (interleavedCreateInbound sampleCall sampleCall sampleRequest sampleRequest [sampleOrder] []
        = ((CreateInboundReply.success { buildInbound [] "pw" sampleRequest 10000 with Id := 1 },
            (provisionPhase noFaults [] "pw" 1699999999
              [{ sampleOrder with Status := "used", InboundId := 1, UsedAt := 1699999999000 }]
              [{ buildInbound [] "pw" sampleRequest 10000 with Id := 1 }] sampleRequest).1),
          (provisionPhase noFaults [] "pw" 1699999999
            [{ sampleOrder with Status := "used", InboundId := 1, UsedAt := 1699999999000 }]
            [{ buildInbound [] "pw" sampleRequest 10000 with Id := 1 }] sampleRequest).2)) ∧
    ({ buildInbound [] "pw" sampleRequest 10000 with Id := 1 } : Inbound).Id
      ≠ ({ buildInbound [] "pw" sampleRequest 10001 with Id := 2 } : Inbound).Id ∧
    (∃ stored,
      (CreateInbound noFaults [] "pw" 1699999999 1699999999 [sampleOrder] []
        (Except.ok sampleRequest)).2.2 = [] ++ [stored] ∧
      ({ buildInbound [] "pw" sampleRequest 10000 with Id := 1 } : Inbound).Id = stored.Id ∧
      (CreateInbound noFaults [] "pw" 1699999999 1699999999
        (CreateInbound noFaults [] "pw" 1699999999 1699999999 [sampleOrder] []
          (Except.ok sampleRequest)).2.1
        (CreateInbound noFaults [] "pw" 1699999999 1699999999 [sampleOrder] []
          (Except.ok sampleRequest)).2.2 (Except.ok sampleRequest)).2.2 = [] ++ [stored]) :=
  ⟨(interleaved_double_provisioning.2.1 sampleCall sampleCall sampleRequest sampleRequest
      [sampleOrder] [] sampleOrder
      (CreateInboundReply.success { buildInbound [] "pw" sampleRequest 10000 with Id := 1 })
      [{ sampleOrder with Status := "used", InboundId := 1, UsedAt := 1699999999000 }]
      [{ buildInbound [] "pw" sampleRequest 10000 with Id := 1 }]
      rfl (by decide) (by decide) (by decide) (by decide) (by decide) (by decide)
      (by decide)).1,
    (interleaved_double_provisioning.2.2.1 sampleCall sampleCall sampleRequest sampleRequest
      [sampleOrder] [] { buildInbound [] "pw" sampleRequest 10000 with Id := 1 }
      { buildInbound [] "pw" sampleRequest 10001 with Id := 2 } (by decide)).2,
    interleaved_double_provisioning.2.2.2 sampleCall sampleCall sampleRequest sampleRequest
      [sampleOrder] [] { buildInbound [] "pw" sampleRequest 10000 with Id := 1 } rfl rfl
      (by decide)⟩

/-! ## Racing inserts: no retry -/

/-- The split of `CreateInbound` after its port handling is the method itself. -/
theorem CreateInbound_port_phase (faults : Faults) (rnd : List Byte) (seq : String)
    (nowVerify nowMark : Int) (orders : List Order) (inbounds : List Inbound)
    (req : CreateInboundRequest) :
    CreateInbound faults rnd seq nowVerify nowMark orders inbounds (Except.ok req)
      = match (portPhase faults nowVerify orders inbounds req).1 with
        | Except.error reply => (reply, (portPhase faults nowVerify orders inbounds req).2, inbounds)
        | Except.ok port =>
          insertPhase faults rnd seq nowMark (portPhase faults nowVerify orders inbounds req).2
            inbounds req port := by
  rw [CreateInbound_phases]
  unfold portPhase provisionPhase insertPhase
  rcases verifyPhase faults nowVerify orders inbounds req with ⟨early, orders1⟩
  cases early with
  | some reply => rfl
  | none =>
    simp only
    cases choosePort faults inbounds req <;> rfl

/-- Steps 6 to 11 when `AddInbound` fails: the failure is the reply and nothing is written. -/
theorem insertPhase_of_error {faults : Faults} {rnd : List Byte} {seq : String}
    {nowMark : Int} {orders : List Order} {inbounds : List Inbound}
    {req : CreateInboundRequest} {port : Int} {e : DbError}
    (ha : AddInbound faults.addInbound inbounds (buildInbound rnd seq req port) = Except.error e) :
    insertPhase faults rnd seq nowMark orders inbounds req port
      = (CreateInboundReply.fail (CreateInboundError.AddInboundFailed e), orders, inbounds) := by
  unfold insertPhase persistAndMark
  rw [ha]

/-- A uniqueness violation reported by `AddInbound` for the inbound of step 6 means that a row
of the table has the port, or the tag, of that inbound. -/
theorem AddInbound_unique_violation {fault : Bool} {rnd : List Byte} {seq : String}
    {inbounds : List Inbound} {req : CreateInboundRequest} {port : Int} {e : DbError}
    (ha : AddInbound fault inbounds (buildInbound rnd seq req port) = Except.error e)
    (he : e = DbError.uniquePort ∨ e = DbError.uniqueTag) :
    (∃ i ∈ inbounds, i.Port = port) ∨ ∃ i ∈ inbounds, i.Tag = "inbound-" ++ fmtInt port := by
  unfold AddInbound at ha
  split_ifs at ha with h1 h2 h3
  · rcases he with h | h <;> simp [h] at ha
  · left
    obtain ⟨i, hi, hpi⟩ := List.any_eq_true.mp h2
    exact ⟨i, hi, by simpa [buildInbound] using hpi⟩
  · right
    obtain ⟨i, hi, hti⟩ := List.any_eq_true.mp h3
    exact ⟨i, hi, by simpa [buildInbound] using hti⟩

/-- The racing run when both requests reach step 6: the first runs its steps 6 to 11 on the
tables as they are, the second on the tables the first left. -/
theorem racingCreateInbound_of_ports (c1 c2 : CreateInboundCall)
    (req1 req2 : CreateInboundRequest) (orders orders1 orders2 : List Order)
    (inbounds : List Inbound) (port1 port2 : Int)
    (h1 : portPhase c1.faults c1.nowVerify orders inbounds req1 = (Except.ok port1, orders1))
    (h2 : portPhase c2.faults c2.nowVerify orders1 inbounds req2 = (Except.ok port2, orders2)) :
    racingCreateInbound c1 c2 req1 req2 orders inbounds
      = (((insertPhase c1.faults c1.rnd c1.seq c1.nowMark orders2 inbounds req1 port1).1,
          (insertPhase c2.faults c2.rnd c2.seq c2.nowMark
            (insertPhase c1.faults c1.rnd c1.seq c1.nowMark orders2 inbounds req1 port1).2.1
            (insertPhase c1.faults c1.rnd c1.seq c1.nowMark orders2 inbounds req1 port1).2.2
            req2 port2).1),
        (insertPhase c2.faults c2.rnd c2.seq c2.nowMark
          (insertPhase c1.faults c1.rnd c1.seq c1.nowMark orders2 inbounds req1 port1).2.1
          (insertPhase c1.faults c1.rnd c1.seq c1.nowMark orders2 inbounds req1 port1).2.2
          req2 port2).2) := by
  unfold racingCreateInbound
  rw [h1]
  simp only
  rw [h2]

set_option maxRecDepth 100000 in
/-- C25 (counterexample). Two requests without a port, for the paid orders `O1` and `O2`, race:
both finish their port handling, each with port 10000, before either inserts. The first insert
succeeds; the second violates the uniqueness of the port, and `CreateInbound` reports that
failure to the second caller and stores nothing for it, leaving `O2` paid. It makes no second
attempt, although by then its port handling yields 10001 and an insert on 10001 succeeds. -/
theorem conflict_reported_not_retried :
    racingCreateInbound sampleCall secondCall sampleRequest secondRequest
        [sampleOrder, secondOrder] []
      = ((CreateInboundReply.success { buildInbound [] "pw" sampleRequest 10000 with Id := 1 },
          CreateInboundReply.fail (CreateInboundError.AddInboundFailed DbError.uniquePort)),
        [{ sampleOrder with Status := "used", InboundId := 1, UsedAt := 1699999999000 },
          secondOrder],
        [{ buildInbound [] "pw" sampleRequest 10000 with Id := 1 }]) ∧
    choosePort noFaults [{ buildInbound [] "pw" sampleRequest 10000 with Id := 1 }] secondRequest
      = Except.ok 10001 ∧
    AddInbound false [{ buildInbound [] "pw" sampleRequest 10000 with Id := 1 }]
        (buildInbound [] "pw" secondRequest 10001)
      = Except.ok ({ buildInbound [] "pw" secondRequest 10001 with Id := 2 },
          [{ buildInbound [] "pw" sampleRequest 10000 with Id := 1 },
            { buildInbound [] "pw" secondRequest 10001 with Id := 2 }]) := by
  decide

/-- C25 (amended). `CreateInbound` is its steps 1 to 5 followed by its steps 6 to 11 and calls
`AddInbound` once, without a retry. On whatever tables steps 6 to 11 find, when the insert
fails because of a port or tag uniqueness violation (a row of the table then has that port or
that tag), they reply with the failure of the insert and write nothing. So it is for the
second of two requests that both finish their port handling before either inserts: its
failure is reported to its caller and the tables stay as the first request left them. This
is what happens when both requests chose the same port: the first insert having succeeded,
the second fails on the uniqueness of the port. -/
theorem conflict_is_reported :
    (∀ (faults : Faults) (rnd : List Byte) (seq : String) (nowVerify nowMark : Int)
        (orders : List Order) (inbounds : List Inbound) (req : CreateInboundRequest),
      CreateInbound faults rnd seq nowVerify nowMark orders inbounds (Except.ok req)
        = match (portPhase faults nowVerify orders inbounds req).1 with
          | Except.error reply =>
            (reply, (portPhase faults nowVerify orders inbounds req).2, inbounds)
          | Except.ok port =>
            insertPhase faults rnd seq nowMark (portPhase faults nowVerify orders inbounds req).2
              inbounds req port) ∧
    (∀ (faults : Faults) (rnd : List Byte) (seq : String) (nowMark : Int)
        (orders : List Order) (inbounds : List Inbound) (req : CreateInboundRequest)
        (port : Int) (e : DbError),
      AddInbound faults.addInbound inbounds (buildInbound rnd seq req port) = Except.error e →
      e = DbError.uniquePort ∨ e = DbError.uniqueTag →
      insertPhase faults rnd seq nowMark orders inbounds req port
        = (CreateInboundReply.fail (CreateInboundError.AddInboundFailed e), orders, inbounds) ∧
      ((∃ i ∈ inbounds, i.Port = port) ∨
        ∃ i ∈ inbounds, i.Tag = "inbound-" ++ fmtInt port)) ∧
    (∀ (c1 c2 : CreateInboundCall) (req1 req2 : CreateInboundRequest)
        (orders orders1 orders2 orders3 : List Order) (inbounds inbounds3 : List Inbound)
        (port1 port2 : Int) (reply1 : CreateInboundReply) (e : DbError),
      portPhase c1.faults c1.nowVerify orders inbounds req1 = (Except.ok port1, orders1) →
      portPhase c2.faults c2.nowVerify orders1 inbounds req2 = (Except.ok port2, orders2) →
      insertPhase c1.faults c1.rnd c1.seq c1.nowMark orders2 inbounds req1 port1
        = (reply1, orders3, inbounds3) →
      AddInbound c2.faults.addInbound inbounds3 (buildInbound c2.rnd c2.seq req2 port2)
        = Except.error e →
      e = DbError.uniquePort ∨ e = DbError.uniqueTag →
      racingCreateInbound c1 c2 req1 req2 orders inbounds
        = ((reply1, CreateInboundReply.fail (CreateInboundError.AddInboundFailed e)),
            orders3, inbounds3) ∧
      ((∃ i ∈ inbounds3, i.Port = port2) ∨
        ∃ i ∈ inbounds3, i.Tag = "inbound-" ++ fmtInt port2)) ∧
    (∀ (c1 c2 : CreateInboundCall) (req1 req2 : CreateInboundRequest)
        (orders orders1 orders2 : List Order) (inbounds inbounds1 : List Inbound)
        (port : Int) (stored : Inbound),
      portPhase c1.faults c1.nowVerify orders inbounds req1 = (Except.ok port, orders1) →
      portPhase c2.faults c2.nowVerify orders1 inbounds req2 = (Except.ok port, orders2) →
      AddInbound c1.faults.addInbound inbounds (buildInbound c1.rnd c1.seq req1 port)
        = Except.ok (stored, inbounds1) →
      c2.faults.addInbound = false →
      AddInbound c2.faults.addInbound inbounds1 (buildInbound c2.rnd c2.seq req2 port)
        = Except.error DbError.uniquePort ∧
      (racingCreateInbound c1 c2 req1 req2 orders inbounds).1.2
        = CreateInboundReply.fail (CreateInboundError.AddInboundFailed DbError.uniquePort) ∧
      (racingCreateInbound c1 c2 req1 req2 orders inbounds).2.2 = inbounds ++ [stored] ∧
      stored.Port = port) := by
  refine ⟨CreateInbound_port_phase, ?_, ?_, ?_⟩
  · intro faults rnd seq nowMark orders inbounds req port e ha he
    exact ⟨insertPhase_of_error ha, AddInbound_unique_violation ha he⟩
  · intro c1 c2 req1 req2 orders orders1 orders2 orders3 inbounds inbounds3 port1 port2 reply1 e
      h1 h2 hi ha he
    constructor
    · rw [racingCreateInbound_of_ports c1 c2 req1 req2 orders orders1 orders2 inbounds port1
        port2 h1 h2, hi]
      simp only
      rw [insertPhase_of_error ha]
    · exact AddInbound_unique_violation ha he
  · intro c1 c2 req1 req2 orders orders1 orders2 inbounds inbounds1 port stored h1 h2 hins hf
    obtain ⟨-, hst, hinb, -, -⟩ := AddInbound_ok hins
    have hport : stored.Port = port := by rw [hst]; rfl
    have ha : AddInbound c2.faults.addInbound inbounds1 (buildInbound c2.rnd c2.seq req2 port)
        = Except.error DbError.uniquePort := by
      have hany : inbounds1.any
          (fun i => decide (i.Port = (buildInbound c2.rnd c2.seq req2 port).Port)) = true := by
        rw [List.any_eq_true]
        refine ⟨stored, ?_, ?_⟩
        · rw [hinb]
          simp
        · simpa [buildInbound] using hport
      unfold AddInbound
      rw [hf, if_neg (by decide), if_pos hany]
    have hfirst : (insertPhase c1.faults c1.rnd c1.seq c1.nowMark orders2 inbounds req1 port).2.2
        = inbounds1 := by
      unfold insertPhase persistAndMark
      rw [hins]
      simp only
      cases GetInbound c1.faults.getInbound inbounds1 stored.Id <;> rfl
    rw [racingCreateInbound_of_ports c1 c2 req1 req2 orders orders1 orders2 inbounds port port
      h1 h2]
    simp only
    rw [hfirst, insertPhase_of_error ha]
    exact ⟨ha, rfl, hinb, hport⟩

set_option maxRecDepth 100000 in
/-- Witness of the amended C25: the race of `sampleRequest` and `secondRequest` on port 10000.
The second caller gets the failure of the insert on the uniqueness of the port, and the tables
are as the first request left them. -/
theorem conflict_is_reported_witness :
    (racingCreateInbound sampleCall secondCall sampleRequest secondRequest
        [sampleOrder, secondOrder] []
      = ((CreateInboundReply.success { buildInbound [] "pw" sampleRequest 10000 with Id := 1 },
          CreateInboundReply.fail (CreateInboundError.AddInboundFailed DbError.uniquePort)),
        [{ sampleOrder with Status := "used", InboundId := 1, UsedAt := 1699999999000 },
          secondOrder],
        [{ buildInbound [] "pw" sampleRequest 10000 with Id := 1 }]) ∧
      ((∃ i ∈ [({ buildInbound [] "pw" sampleRequest 10000 with Id := 1 } : Inbound)],
          i.Port = 10000) ∨
        ∃ i ∈ [({ buildInbound [] "pw" sampleRequest 10000 with Id := 1 } : Inbound)],
          i.Tag = "inbound-" ++ fmtInt 10000)) ∧
    (AddInbound secondCall.faults.addInbound
        [{ buildInbound [] "pw" sampleRequest 10000 with Id := 1 }]
        (buildInbound secondCall.rnd secondCall.seq secondRequest 10000)
      = Except.error DbError.uniquePort ∧
      (racingCreateInbound sampleCall secondCall sampleRequest secondRequest
          [sampleOrder, secondOrder] []).1.2
        = CreateInboundReply.fail (CreateInboundError.AddInboundFailed DbError.uniquePort) ∧
      (racingCreateInbound sampleCall secondCall sampleRequest secondRequest
          [sampleOrder, secondOrder] []).2.2
        = [] ++ [{ buildInbound [] "pw" sampleRequest 10000 with Id := 1 }] ∧
      ({ buildInbound [] "pw" sampleRequest 10000 with Id := 1 } : Inbound).Port = 10000) :=
  ⟨conflict_is_reported.2.2.1 sampleCall secondCall sampleRequest secondRequest
      [sampleOrder, secondOrder] [sampleOrder, secondOrder] [sampleOrder, secondOrder]
      [{ sampleOrder with Status := "used", InboundId := 1, UsedAt := 1699999999000 },
        secondOrder]
      [] [{ buildInbound [] "pw" sampleRequest 10000 with Id := 1 }] 10000 10000
      (CreateInboundReply.success { buildInbound [] "pw" sampleRequest 10000 with Id := 1 })
      DbError.uniquePort (by decide) (by decide) (by decide) (by decide) (Or.inl rfl),
    conflict_is_reported.2.2.2 sampleCall secondCall sampleRequest secondRequest
      [sampleOrder, secondOrder] [sampleOrder, secondOrder] [sampleOrder, secondOrder]
      [] [{ buildInbound [] "pw" sampleRequest 10000 with Id := 1 }] 10000
      { buildInbound [] "pw" sampleRequest 10000 with Id := 1 }
      (by decide) (by decide) (by decide) rfl⟩

/-! ## Default client ids -/

set_option maxRecDepth 100000 in
/-- The high hex digit of a byte after `(b & 0x0f) | 0x40` is `4`. -/
theorem version_nibble : ∀ x : Byte,
    hexDigit ((Fin.ofNat (Nat.lor (Nat.land x.val 15) 64) : Byte).val / 16) = '4' := by
  decide

set_option maxRecDepth 100000 in
/-- The high hex digit of a byte after `(b & 0x3f) | 0x80` is one of `8`, `9`, `a`, `b`. -/
theorem variant_nibble : ∀ x : Byte,
    hexDigit ((Fin.ofNat (Nat.lor (Nat.land x.val 63) 128) : Byte).val / 16) = '8' ∨
    hexDigit ((Fin.ofNat (Nat.lor (Nat.land x.val 63) 128) : Byte).val / 16) = '9' ∨
    hexDigit ((Fin.ofNat (Nat.lor (Nat.land x.val 63) 128) : Byte).val / 16) = 'a' ∨
    hexDigit ((Fin.ofNat (Nat.lor (Nat.land x.val 63) 128) : Byte).val / 16) = 'b' := by
  decide

theorem length_eq_sixteen {α : Type} (l : List α) (h : l.length = 16) :
    ∃ a0 a1 a2 a3 a4 a5 a6 a7 a8 a9 a10 a11 a12 a13 a14 a15,
      l = [a0, a1, a2, a3, a4, a5, a6, a7, a8, a9, a10, a11, a12, a13, a14, a15] := by
  rcases l with _ | ⟨a0, l⟩
  · simp at h
  rcases l with _ | ⟨a1, l⟩
  · simp at h
  rcases l with _ | ⟨a2, l⟩
  · simp at h
  rcases l with _ | ⟨a3, l⟩
  · simp at h
  rcases l with _ | ⟨a4, l⟩
  · simp at h
  rcases l with _ | ⟨a5, l⟩
  · simp at h
  rcases l with _ | ⟨a6, l⟩
  · simp at h
  rcases l with _ | ⟨a7, l⟩
  · simp at h
  rcases l with _ | ⟨a8, l⟩
  · simp at h
  rcases l with _ | ⟨a9, l⟩
  · simp at h
  rcases l with _ | ⟨a10, l⟩
  · simp at h
  rcases l with _ | ⟨a11, l⟩
  · simp at h
  rcases l with _ | ⟨a12, l⟩
  · simp at h
  rcases l with _ | ⟨a13, l⟩
  · simp at h
  rcases l with _ | ⟨a14, l⟩
  · simp at h
  rcases l with _ | ⟨a15, l⟩
  · simp at h
  rcases l with _ | ⟨a16, l⟩
  · exact ⟨a0, a1, a2, a3, a4, a5, a6, a7, a8, a9, a10, a11, a12, a13, a14, a15, rfl⟩
  · simp at h

/-- The characters of the id made from sixteen bytes: the five groups of `"%x-%x-%x-%x-%x"`,
with the version and variant bits set in the seventh and ninth byte. -/
theorem generateUUID_data (b0 b1 b2 b3 b4 b5 b6 b7 b8 b9 b10 b11 b12 b13 b14 b15 : Byte) :
    (generateUUID [b0, b1, b2, b3, b4, b5, b6, b7, b8, b9, b10, b11, b12, b13, b14, b15]).data
      = hexChars [b0, b1, b2, b3] ++ '-' :: (hexChars [b4, b5] ++ '-' ::
        (hexChars [Fin.ofNat (Nat.lor (Nat.land b6.val 15) 64), b7] ++ '-' ::
        (hexChars [Fin.ofNat (Nat.lor (Nat.land b8.val 63) 128), b9] ++ '-' ::
          hexChars [b10, b11, b12, b13, b14, b15]))) := by
  simp [generateUUID]

/-- C28. Default client id format: for every 16 input bytes `generateUUID` returns a string of
36 characters, made of five groups of 8, 4, 4, 4 and 12 lowercase hexadecimal digits separated
by `-`, whose 15th character is `4` and whose 20th character is one of `8`, `9`, `a`, `b`;
`getDefaultSettings` puts this id into the client entry for `vmess` and for `vless`. -/
theorem generateUUID_format (rnd : List Byte) (seq : String) (h : rnd.length = 16) :
    (∃ g1 g2 g3 g4 g5 : List Char,
      (generateUUID rnd).data = g1 ++ '-' :: (g2 ++ '-' :: (g3 ++ '-' :: (g4 ++ '-' :: g5))) ∧
      g1.length = 8 ∧ g2.length = 4 ∧ g3.length = 4 ∧ g4.length = 4 ∧ g5.length = 12 ∧
      (∀ c ∈ g1 ++ g2 ++ g3 ++ g4 ++ g5, isLowerHex c = true)) ∧
    (generateUUID rnd).data.length = 36 ∧
    (generateUUID rnd).data[14]? = some '4' ∧
    (∃ c, (generateUUID rnd).data[19]? = some c ∧ (c = '8' ∨ c = '9' ∨ c = 'a' ∨ c = 'b')) ∧
    getDefaultSettings rnd seq "vmess"
      = "\x7b\"clients\":[\x7b\"id\":\"" ++ generateUUID rnd
        ++ "\",\"alterId\":0\x7d],\"disableInsecureEncryption\":false\x7d" ∧
    getDefaultSettings rnd seq "vless"
      = "\x7b\"clients\":[\x7b\"id\":\"" ++ generateUUID rnd
        ++ "\",\"flow\":\"\"\x7d],\"decryption\":\"none\"\x7d" := by
  obtain ⟨b0, b1, b2, b3, b4, b5, b6, b7, b8, b9, b10, b11, b12, b13, b14, b15, rfl⟩ :=
    length_eq_sixteen rnd h
  refine ⟨?_, ?_, ?_, ?_, ?_, ?_⟩
  · refine ⟨_, _, _, _, _, generateUUID_data b0 b1 b2 b3 b4 b5 b6 b7 b8 b9 b10 b11 b12 b13 b14
      b15, ?_, ?_, ?_, ?_, ?_, ?_⟩
    · rw [hexChars_length]; rfl
    · rw [hexChars_length]; rfl
    · rw [hexChars_length]; rfl
    · rw [hexChars_length]; rfl
    · rw [hexChars_length]; rfl
    · intro c hc
      simp only [List.mem_append] at hc
      rcases hc with (((hc | hc) | hc) | hc) | hc <;> exact hexChars_lower _ c hc
  · rw [generateUUID_data]
    simp [hexChars]
  · rw [generateUUID_data]
    simp [hexChars, version_nibble]
  · rw [generateUUID_data]
    refine ⟨hexDigit ((Fin.ofNat (Nat.lor (Nat.land b8.val 63) 128) : Byte).val / 16), ?_,
      variant_nibble b8⟩
    simp [hexChars]
  · unfold getDefaultSettings
    rw [if_pos rfl]
  · unfold getDefaultSettings
    rw [if_neg (by decide), if_pos rfl]

set_option maxRecDepth 100000 in
/-- Witness of C28: the id made from the bytes 1 to 15 and 255. -/
theorem generateUUID_format_witness :
    generateUUID [1, 2, 3, 4, 5, 6, 7, 8, 9, 10, 11, 12, 13, 14, 15, 255]
      = "01020304-0506-4708-890a-0b0c0d0e0fff" ∧
    (generateUUID [1, 2, 3, 4, 5, 6, 7, 8, 9, 10, 11, 12, 13, 14, 15, 255]).data.length = 36 ∧
    (generateUUID [1, 2, 3, 4, 5, 6, 7, 8, 9, 10, 11, 12, 13, 14, 15, 255]).data[14]?
      = some '4' :=
  ⟨by decide,
    (generateUUID_format [1, 2, 3, 4, 5, 6, 7, 8, 9, 10, 11, 12, 13, 14, 15, 255] "pw" rfl).2.1,
    (generateUUID_format [1, 2, 3, 4, 5, 6, 7, 8, 9, 10, 11, 12, 13, 14, 15, 255] "pw" rfl).2.2.1⟩

end Ray
